import Mathlib

/-!
# dsts_secure_sscanf: a shallow embedding

Model of `src/dsts_secure_sscanf.c` / `src/dsts_secure_sscanf.h`.

Conventions of the embedding.

* A C string is a `List Nat` of byte values, read up to its first `0` byte (the
  terminating NUL is implicit at the end of the list).  A `const char *` into a
  string is the suffix of the list that starts at the pointer; a returned
  pointer is given as its offset from the pointer that was passed in.
* Data model LP64 with a signed `char`, as in the limits the specification
  quotes: `char` 8, `short` 16, `int` 32, `long` and `long long` 64 bits.
* A destination pointer is a `Nat` address, `0` being `NULL`.  Everything the
  code stores through a destination is recorded, in program order, in a list of
  `Store`s.
* `strtol`, `strtoul`, `strtoll`, `strtoull`, `strncpy` and `isspace` are the
  ISO C library functions (C locale); they are modelled from the C standard.
  `strtof` is not modelled: it is a parameter of the embedding.
* `errno == ERANGE` is one boolean that is threaded through the calls; the code
  never clears `errno`.
-/

namespace Dsts

/-! ## Constants of `dsts_secure_sscanf.h` -/

/-- Header line 5: `#define DSTS_MAX_STRING_OUTPUT 4096 * 4`. -/
def DSTS_MAX_STRING_OUTPUT : Nat := 4096 * 4

def DSTS_ERROR_SUCCESS : Int := 0
def DSTS_ERROR_NUMERIC_CONVERSION : Int := -1
def DSTS_ERROR_BUFFER_TOO_SMALL : Int := -2
def DSTS_ERROR_INVALID_FMT : Int := -3
def DSTS_ERROR_INVALID_TYPE : Int := -4

/-! `enum CheckTypes`, header lines 12-26, with the values C gives the enumerators. -/

def DSTS_TYPE_DEFAULT : Nat := 0
def DSTS_TYPE_FLOAT : Nat := 1
def DSTS_TYPE_INT : Nat := 2
def DSTS_TYPE_UINT : Nat := 3
def DSTS_TYPE_SHORT : Nat := 4
def DSTS_TYPE_USHORT : Nat := 5
def DSTS_TYPE_LONG : Nat := 6
def DSTS_TYPE_ULONG : Nat := 7
def DSTS_TYPE_LLONG : Nat := 8
def DSTS_TYPE_ULLONG : Nat := 9
def DSTS_TYPE_CHAR : Nat := 10
def DSTS_TYPE_UCHAR : Nat := 11
def DSTS_TYPE_STRING : Nat := 12

/-! ## `<limits.h>` (LP64, signed `char`) -/

def CHAR_MAX : Int := 127
def SHRT_MAX : Int := 32767
def INT_MAX : Int := 2147483647
def LONG_MAX : Int := 9223372036854775807
def LONG_MIN : Int := -9223372036854775808
def LLONG_MAX : Int := 9223372036854775807
def UCHAR_MAX : Nat := 255
def USHRT_MAX : Nat := 65535
def UINT_MAX : Nat := 4294967295
def ULONG_MAX : Nat := 18446744073709551615
def ULLONG_MAX : Nat := 18446744073709551615

/-- Conversion of an integer to a signed integer type of `bits` bits
(two's complement, as gcc and clang define it). -/
def wrapSigned (bits : Nat) (v : Int) : Int :=
  (v + 2 ^ (bits - 1)) % 2 ^ bits - 2 ^ (bits - 1)

/-- Conversion of an integer to an unsigned integer type of `bits` bits. -/
def wrapUnsigned (bits : Nat) (v : Int) : Int :=
  v % 2 ^ bits

/-! ## Destinations -/

/-- An object held by a destination. -/
inductive Value where
  /-- An integer object, by its value. -/
  | int (v : Int)
  /-- A `float` object, by its IEEE-754 binary32 encoding. -/
  | flt (bits : Nat)
  deriving DecidableEq, Repr

/-- One store through a destination pointer. -/
inductive Store where
  /-- `*(T *)p = v`. -/
  | obj (p : Nat) (v : Value)
  /-- `memset(p, '\0', n)`. -/
  | fill (p : Nat) (n : Nat)
  /-- `((char *)p)[i] = b`. -/
  | byte (p : Nat) (i : Nat) (b : Nat)
  deriving DecidableEq, Repr

/-- `DSTS_PUT_VALUE(ptr, value)`: `do { if (ptr) *(ptr) = (value); } while (0)`. -/
def DSTS_PUT_VALUE (ptr : Nat) (value : Value) : List Store :=
  if ptr = 0 then [] else [Store.obj ptr value]

/-- One entry of the variadic argument list, as the `DSTS_ARG_*` macros build
it: the type tag, the destination pointer and, for `DSTS_ARG_STR`, the size. -/
structure Arg where
  iType : Nat
  pOutput : Nat
  cbSize : Nat
  deriving DecidableEq, Repr

/-- What the C code does outside defined behaviour. -/
inductive Fault where
  /-- `trimCurr[uWidth] = 0` or the `strncpy` before it writes outside
  `char trimCurr[DSTS_MAX_STRING_OUTPUT]`. -/
  | scratchOverflow
  /-- `va_arg` is called with no argument left. -/
  | noArgument
  deriving DecidableEq, Repr

/-- A result of the code, or the fault it runs into. -/
inductive Outcome (α : Type) where
  | ok (a : α)
  | fault (f : Fault)
  deriving DecidableEq, Repr

/-! ## C library -/

/-- `isspace` in the C locale: space, `\t`, `\n`, `\v`, `\f`, `\r`. -/
def isspace (c : Nat) : Bool :=
  c == 32 || (9 ≤ c && c ≤ 13)

/-- Value of a byte as a digit: `0`-`9`, then letters of either case from 10. -/
def digitOf (c : Nat) : Option Nat :=
  if 48 ≤ c ∧ c ≤ 57 then some (c - 48)
  else if 97 ≤ c ∧ c ≤ 122 then some (c - 97 + 10)
  else if 65 ≤ c ∧ c ≤ 90 then some (c - 65 + 10)
  else none

/-- Whether the byte is a digit of the base. -/
def isDigitIn (base : Nat) (c : Nat) : Bool :=
  match digitOf c with
  | some d => decide (d < base)
  | none => false

/-- The longest run of digits of the base at the head of the bytes:
(value accumulated from `acc`, number of digits). -/
def digitRun (base : Nat) : List Nat → Nat → Nat × Nat
  | [], acc => (acc, 0)
  | c :: cs, acc =>
    match digitOf c with
    | some d =>
      if d < base then
        let r := digitRun base cs (acc * base + d)
        (r.1, r.2 + 1)
      else (acc, 0)
    | none => (acc, 0)

/-- Subject sequence of the `strto*` family. -/
structure Subject where
  /-- A `-` sign was read. -/
  neg : Bool
  /-- Mathematical value of the digits. -/
  mag : Nat
  /-- Bytes from `nptr` to `*endptr`; `0` when no conversion is performed. -/
  len : Nat
  deriving DecidableEq, Repr

/-- Number of leading white-space bytes. -/
def spaceRun : List Nat → Nat
  | [] => 0
  | c :: cs => if isspace c then spaceRun cs + 1 else 0

/-- Length of the `0x`/`0X` prefix the subject sequence has: 2 for base 16
when a hexadecimal digit follows the prefix, else 0. -/
def hexPrefix (base : Nat) (s : List Nat) : Nat :=
  if base = 16 ∧ s.headD 0 = 48 ∧ ((s.drop 1).headD 0 = 120 ∨ (s.drop 1).headD 0 = 88)
      ∧ isDigitIn 16 ((s.drop 2).headD 0) then 2
  else 0

/-- ISO C 7.22.1.4: white space, an optional sign, for base 16 an optional
`0x`/`0X` that a hexadecimal digit follows, then the longest run of digits. -/
def scanSubject (nptr : List Nat) (base : Nat) : Subject :=
  let ws := spaceRun nptr
  let s1 := nptr.drop ws
  let neg := decide (s1.headD 0 = 45)
  let sg := if s1.headD 0 = 45 ∨ s1.headD 0 = 43 then 1 else 0
  let s2 := s1.drop sg
  let px := hexPrefix base s2
  let r := digitRun base (s2.drop px) 0
  if r.2 = 0 then ⟨false, 0, 0⟩ else ⟨neg, r.1, ws + sg + px + r.2⟩

/-- Result of `strtol` and its siblings. -/
structure Strto where
  /-- The value returned. -/
  val : Int
  /-- `*endptr - nptr`. -/
  len : Nat
  /-- The call set `errno` to `ERANGE`. -/
  erange : Bool
  deriving DecidableEq, Repr

/-- `strtol(nptr, &end, base)` for a 64-bit `long`. -/
def strtol (nptr : List Nat) (base : Nat) : Strto :=
  let s := scanSubject nptr base
  let v : Int := if s.neg then -(s.mag : Int) else (s.mag : Int)
  if v > LONG_MAX then ⟨LONG_MAX, s.len, true⟩
  else if v < LONG_MIN then ⟨LONG_MIN, s.len, true⟩
  else ⟨v, s.len, false⟩

/-- `strtoll(nptr, &end, base)`; `long long` has the range of `long`. -/
def strtoll (nptr : List Nat) (base : Nat) : Strto :=
  strtol nptr base

/-- `strtoul(nptr, &end, base)` for a 64-bit `unsigned long`: a value with a
minus sign is negated in the unsigned type. -/
def strtoul (nptr : List Nat) (base : Nat) : Strto :=
  let s := scanSubject nptr base
  if s.mag > ULONG_MAX then ⟨ULONG_MAX, s.len, true⟩
  else if s.neg then ⟨wrapUnsigned 64 (-(s.mag : Int)), s.len, false⟩
  else ⟨s.mag, s.len, false⟩

/-- `strtoull(nptr, &end, base)`; `unsigned long long` has the range of
`unsigned long`. -/
def strtoull (nptr : List Nat) (base : Nat) : Strto :=
  strtoul nptr base

/-- Result of `strtof`, which the embedding takes as a parameter. -/
structure FloatParse where
  /-- The `float` returned, by its IEEE-754 binary32 encoding. -/
  bits : Nat
  /-- `*endptr - nptr`. -/
  len : Nat
  /-- The call set `errno` to `ERANGE`. -/
  erange : Bool
  deriving DecidableEq, Repr

/-- The C library's `strtof`, as a function of the string it is given. -/
abbrev Strtof := List Nat → FloatParse

/-- `HUGE_VALF`, positive infinity. -/
def HUGE_VALF : Nat := 0x7F800000

/-- `-HUGE_VALF`, negative infinity. -/
def NEG_HUGE_VALF : Nat := 0xFF800000

/-- The string `strncpy(dst, src, n)` leaves at the start of a zero-filled
`dst` once `dst[n] = '\0'` is stored: the bytes of `src` before its NUL, `n`
of them at most. -/
def strncpy (src : List Nat) (n : Nat) : List Nat :=
  (src.takeWhile (fun c => c != 0)).take n

/-! ## `parse_arg` (lines 101-465) -/

/-- Comparison `l == HUGE_VAL` (also `HUGE_VALF`, `-HUGE_VALF`) of an integer
`l` with a floating infinity, lines 131, 263 and 370: the integer is converted
to the floating type, and no integer converts to an infinity. -/
def eqHuge (_l : Int) : Bool := false

/-- What `parse_arg` leaves behind. -/
structure ParseResult where
  /-- Value of `*pError`. -/
  error : Int
  /-- The pointer returned, as an offset from `pInputString`. -/
  cursor : Nat
  /-- Stores through the destination, in program order. -/
  stores : List Store
  /-- The variadic arguments not yet read. -/
  args : List Arg
  /-- Whether `errno` is `ERANGE`. -/
  errno : Bool
  deriving DecidableEq, Repr

/-- Lines 150-172, the length modifier: (`spType`, format bytes read). -/
def lengthModifier (pFmt : List Nat) : Nat × Nat :=
  if pFmt.headD 0 = 104 then
    if (pFmt.drop 1).headD 0 = 104 then (DSTS_TYPE_CHAR, 2) else (DSTS_TYPE_SHORT, 1)
  else if pFmt.headD 0 = 108 then
    if (pFmt.drop 1).headD 0 = 108 then (DSTS_TYPE_LLONG, 2) else (DSTS_TYPE_LONG, 1)
  else (DSTS_TYPE_DEFAULT, 0)

/-- Lines 188-191, 255-258, 362-365:
`while (uWidth-- > 0 && *pParse != *pEnd) { pCurrent++; pParse++; }`,
the number of iterations.  `endCh` is `*pEnd`; the bytes of `trimCurr` after
the string it holds are `0`. -/
def trimLoop (endCh : Nat) : Nat → List Nat → Nat
  | 0, _ => 0
  | uWidth + 1, pParse =>
    if pParse.headD 0 != endCh then trimLoop endCh uWidth pParse.tail + 1 else 0

/-- The input cursor after a numeric conversion that read `len` bytes of
`pParse` (lines 187-194, 254-261, 361-368). -/
def advance (useTrim : Bool) (uWidth : Nat) (pParse : List Nat) (len : Nat) : Nat :=
  if useTrim then trimLoop ((pParse.drop len).headD 0) uWidth pParse else len

/-- The error exit of a numeric conversion:
`DSTS_PUT_VALUE(pError, DSTS_ERROR_NUMERIC_CONVERSION); return skip_spaces(pCurrent);`
with `pCurrent` at offset `cur` of the input. -/
def numericError (pInputString : List Nat) (cur : Nat) (stores : List Store)
    (args : List Arg) (errno : Bool) : ParseResult :=
  ⟨DSTS_ERROR_NUMERIC_CONVERSION, cur + spaceRun (pInputString.drop cur), stores, args, errno⟩

/-- Lines 175-202, `case 'f'`. -/
def conv_f (strtof : Strtof) (useTrim : Bool) (uWidth : Nat) (pParse pInputString : List Nat)
    (arg : Arg) (args : List Arg) (errno : Bool) : ParseResult :=
  if arg.iType ≠ DSTS_TYPE_FLOAT then ⟨DSTS_ERROR_INVALID_TYPE, 0, [], args, errno⟩
  else
    let init := DSTS_PUT_VALUE arg.pOutput (.flt 0)
    let r := strtof pParse
    let errno := errno || r.erange
    if r.len = 0 then numericError pInputString 0 init args errno
    else
      let cur := advance useTrim uWidth pParse r.len
      if (r.bits == HUGE_VALF || r.bits == NEG_HUGE_VALF) && errno then
        numericError pInputString cur init args errno
      else
        ⟨DSTS_ERROR_SUCCESS, cur, init ++ DSTS_PUT_VALUE arg.pOutput (.flt r.bits), args, errno⟩

/-- Lines 214-310, `case 'd'` (and `case 'i'` once the base is chosen).
`lRet` is the value the variable has on entry: the width of line 129. -/
def conv_d (iBase spType : Nat) (lRet : Int) (useTrim : Bool) (uWidth : Nat)
    (pParse pInputString : List Nat) (arg : Arg) (args : List Arg) (errno : Bool) :
    ParseResult :=
  if arg.iType ≠ (if spType = DSTS_TYPE_DEFAULT then DSTS_TYPE_INT else spType) then
    ⟨DSTS_ERROR_INVALID_TYPE, 0, [], args, errno⟩
  else
    let init := DSTS_PUT_VALUE arg.pOutput (.int 0)
    -- lines 216-247: `llRet = strtoll(..)` for `long long`, `lRet = strtol(..)` otherwise
    let r := if spType = DSTS_TYPE_LLONG then strtoll pParse iBase else strtol pParse iBase
    let llRet : Int := if spType = DSTS_TYPE_LLONG then r.val else 0
    let lRet : Int := if spType = DSTS_TYPE_LLONG then lRet else r.val
    let errno := errno || r.erange
    if r.len = 0 then numericError pInputString 0 init args errno
    else
      let cur := advance useTrim uWidth pParse r.len
      if eqHuge lRet && errno then numericError pInputString cur init args errno
      else if spType = DSTS_TYPE_CHAR then
        if lRet > CHAR_MAX then numericError pInputString cur init args errno
        else ⟨DSTS_ERROR_SUCCESS, cur,
          init ++ DSTS_PUT_VALUE arg.pOutput (.int (wrapSigned 8 lRet)), args, errno⟩
      else if spType = DSTS_TYPE_SHORT then
        if lRet > SHRT_MAX then numericError pInputString cur init args errno
        else ⟨DSTS_ERROR_SUCCESS, cur,
          init ++ DSTS_PUT_VALUE arg.pOutput (.int (wrapSigned 16 lRet)), args, errno⟩
      else if spType = DSTS_TYPE_LONG then
        if lRet > LONG_MAX then numericError pInputString cur init args errno
        else ⟨DSTS_ERROR_SUCCESS, cur,
          init ++ DSTS_PUT_VALUE arg.pOutput (.int (wrapSigned 64 lRet)), args, errno⟩
      else if spType = DSTS_TYPE_LLONG then
        if llRet > LLONG_MAX then numericError pInputString cur init args errno
        else ⟨DSTS_ERROR_SUCCESS, cur,
          init ++ DSTS_PUT_VALUE arg.pOutput (.int (wrapSigned 64 llRet)), args, errno⟩
      else
        if lRet > INT_MAX then numericError pInputString cur init args errno
        else ⟨DSTS_ERROR_SUCCESS, cur,
          init ++ DSTS_PUT_VALUE arg.pOutput (.int (wrapSigned 32 lRet)), args, errno⟩

/-- Lines 319-417, `case 'u'` (and `case 'x'`, `case 'X'` with base 16).
`lRet` is the value the variable has on entry, the width of line 129: this
branch never assigns it and line 411 reads it.  Line 356 compares `pEnd`
with `pCurrent`: with a width `pEnd` points into `trimCurr`, which is
another object than the input, so the two are equal only without a width and
with nothing parsed. -/
def conv_u (iBase spType : Nat) (lRet : Int) (useTrim : Bool) (uWidth : Nat)
    (pParse pInputString : List Nat) (arg : Arg) (args : List Arg) (errno : Bool) :
    ParseResult :=
  let type := if spType = DSTS_TYPE_DEFAULT then DSTS_TYPE_UINT else spType + 1
  if arg.iType ≠ type then ⟨DSTS_ERROR_INVALID_TYPE, 0, [], args, errno⟩
  else
    let init := DSTS_PUT_VALUE arg.pOutput (.int 0)
    let r := if type = DSTS_TYPE_ULLONG then strtoull pParse iBase else strtoul pParse iBase
    let ullRet : Int := if type = DSTS_TYPE_ULLONG then r.val else 0
    let ulRet : Int := if type = DSTS_TYPE_ULLONG then 0 else r.val
    let errno := errno || r.erange
    if !useTrim && r.len == 0 then numericError pInputString 0 init args errno
    else
      let cur := advance useTrim uWidth pParse r.len
      if eqHuge ulRet && errno then numericError pInputString cur init args errno
      else if type = DSTS_TYPE_UCHAR then
        if ulRet > UCHAR_MAX then numericError pInputString cur init args errno
        else ⟨DSTS_ERROR_SUCCESS, cur,
          init ++ DSTS_PUT_VALUE arg.pOutput (.int (wrapUnsigned 8 ulRet)), args, errno⟩
      else if type = DSTS_TYPE_USHORT then
        if ulRet > USHRT_MAX then numericError pInputString cur init args errno
        else ⟨DSTS_ERROR_SUCCESS, cur,
          init ++ DSTS_PUT_VALUE arg.pOutput (.int (wrapUnsigned 16 ulRet)), args, errno⟩
      else if type = DSTS_TYPE_ULONG then
        if ulRet > ULONG_MAX then numericError pInputString cur init args errno
        else ⟨DSTS_ERROR_SUCCESS, cur,
          init ++ DSTS_PUT_VALUE arg.pOutput (.int (wrapUnsigned 64 ulRet)), args, errno⟩
      else if type = DSTS_TYPE_ULLONG then
        if ullRet > ULLONG_MAX then numericError pInputString cur init args errno
        else ⟨DSTS_ERROR_SUCCESS, cur,
          init ++ DSTS_PUT_VALUE arg.pOutput (.int (wrapUnsigned 64 ullRet)), args, errno⟩
      else
        if lRet > UINT_MAX then numericError pInputString cur init args errno
        else ⟨DSTS_ERROR_SUCCESS, cur,
          init ++ DSTS_PUT_VALUE arg.pOutput (.int (wrapUnsigned 32 ulRet)), args, errno⟩

/-- Lines 419-423, `case 'c'`: `*pInputString` is stored, `pCurrent` is not
moved. -/
def conv_c (pInputString : List Nat) (arg : Arg) (args : List Arg) (errno : Bool) :
    ParseResult :=
  if arg.iType ≠ DSTS_TYPE_CHAR then ⟨DSTS_ERROR_INVALID_TYPE, 0, [], args, errno⟩
  else
    ⟨DSTS_ERROR_SUCCESS, 0,
      DSTS_PUT_VALUE arg.pOutput (.int (wrapSigned 8 (pInputString.headD 0))), args, errno⟩

/-- Lines 441-448, the copy loop of `case 's'` from index `i` of the
destination: (stores, bytes copied, `cbSize` on exit). -/
def copyLoop (useTrim : Bool) (pOutput : Nat) :
    List Nat → Nat → Nat → Nat → List Store × Nat × Nat
  | [], _, cbSize, _ => ([], 0, cbSize)
  | c :: cs, i, cbSize, uWidth =>
    if c != 0 && !isspace c && cbSize != 0 && (!useTrim || decide (uWidth > 0)) then
      let r := copyLoop useTrim pOutput cs (i + 1) (cbSize - 1)
        (if useTrim then uWidth - 1 else uWidth)
      (Store.byte pOutput i c :: r.1, r.2.1 + 1, r.2.2)
    else ([], 0, cbSize)

/-- Lines 452-453: `while (pCurrent[0] != '\0' && !isspace(pCurrent[0])) pCurrent++;`,
the number of iterations. -/
def tokenRun : List Nat → Nat
  | [] => 0
  | c :: cs => if c != 0 && !isspace c then tokenRun cs + 1 else 0

/-- Lines 425-457, `case 's'`. -/
def conv_s (useTrim : Bool) (uWidth : Nat) (pInputString : List Nat)
    (arg : Arg) (args : List Arg) (errno : Bool) : ParseResult :=
  if arg.iType ≠ DSTS_TYPE_STRING then ⟨DSTS_ERROR_INVALID_TYPE, 0, [], args, errno⟩
  else if arg.pOutput = 0 then ⟨DSTS_ERROR_SUCCESS, 0, [], args, errno⟩
  else if arg.cbSize > DSTS_MAX_STRING_OUTPUT then
    ⟨DSTS_ERROR_BUFFER_TOO_SMALL, 0, [], args, errno⟩
  else if arg.cbSize ≠ 0 then
    let r := copyLoop useTrim arg.pOutput pInputString 0 (arg.cbSize - 1) uWidth
    let n := r.2.1
    let skip := if r.2.2 = 0 then tokenRun (pInputString.drop n) else 0
    ⟨DSTS_ERROR_SUCCESS, n + skip, Store.fill arg.pOutput arg.cbSize :: r.1, args, errno⟩
  else ⟨DSTS_ERROR_SUCCESS, 0, [], args, errno⟩

/-- Lines 174-462, `switch (*pFmt)` on the conversion letter `c`. -/
def convert (strtof : Strtof) (c spType : Nat) (lRet : Int) (useTrim : Bool) (uWidth : Nat)
    (pParse pInputString : List Nat) (arg : Arg) (args : List Arg) (errno : Bool) :
    ParseResult :=
  if c = 102 then
    conv_f strtof useTrim uWidth pParse pInputString arg args errno
  else if c = 105 then
    -- lines 204-212
    let iBase :=
      if pInputString.headD 0 = 48 then
        if (pInputString.drop 1).headD 0 = 120 then 16 else 8
      else 10
    conv_d iBase spType lRet useTrim uWidth pParse pInputString arg args errno
  else if c = 100 then
    conv_d 10 spType lRet useTrim uWidth pParse pInputString arg args errno
  else if c = 88 ∨ c = 120 then
    conv_u 16 spType lRet useTrim uWidth pParse pInputString arg args errno
  else if c = 117 then
    conv_u 10 spType lRet useTrim uWidth pParse pInputString arg args errno
  else if c = 99 then
    conv_c pInputString arg args errno
  else if c = 115 then
    conv_s useTrim uWidth pInputString arg args errno
  else
    ⟨DSTS_ERROR_INVALID_FMT, 0, [], args, errno⟩

/-- `parse_arg(pError, pFmt, pInputString, args)`, lines 101-465. -/
def parse_arg (strtof : Strtof) (errno : Bool) (pFmt pInputString : List Nat)
    (args : List Arg) : Outcome ParseResult :=
  -- line 129
  let w := strtol pFmt 10
  let lRet := w.val
  let errno := errno || w.erange
  -- line 131
  if ((eqHuge lRet || eqHuge (-lRet)) && errno) || lRet > UINT_MAX then
    .ok ⟨DSTS_ERROR_INVALID_FMT, 0, [], args, errno⟩
  else
    -- line 136: conversion of a `long` to `unsigned int`
    let uWidth := (wrapUnsigned 32 lRet).toNat
    let useTrim := decide (uWidth > 0)
    -- lines 137-144
    if uWidth ≥ DSTS_MAX_STRING_OUTPUT then .fault .scratchOverflow
    else
      let pParse := if useTrim then strncpy pInputString uWidth else pInputString
      let pFmt := pFmt.drop w.len
      -- line 148
      match args with
      | [] => .fault .noArgument
      | arg :: args =>
        let m := lengthModifier pFmt
        let pFmt := pFmt.drop m.2
        .ok (convert strtof (pFmt.headD 0) m.1 lRet useTrim uWidth pParse pInputString
          arg args errno)

/-! ## `dsts_secure_sscanf` (lines 467-525) -/

/-- What a call of `dsts_secure_sscanf` leaves behind. -/
structure ScanResult where
  /-- The value returned, `ret`. -/
  ret : Nat
  /-- Value of `*pStatus`. -/
  status : Int
  /-- Stores through the destinations, in program order. -/
  stores : List Store
  deriving DecidableEq, Repr

/-- Lines 504-506: `while ((pFmt[0] >= '0' && pFmt[0] <= '9') || pFmt[0] == 'h'
|| pFmt[0] == 'l') ++pFmt;`, the number of iterations. -/
def specRun : List Nat → Nat
  | [] => 0
  | c :: cs => if (48 ≤ c ∧ c ≤ 57) ∨ c = 104 ∨ c = 108 then specRun cs + 1 else 0

/-- The loop of lines 485-520.  `fuel` bounds the iterations; every iteration
that does not leave the loop moves `pFmt` forward, so the length of the format
is enough.  `pFmt < pFmtEnd` holds whenever `pFmt[0] != '\0'` does. -/
def scanLoop (strtof : Strtof) : Nat → Bool → Nat → List Nat → List Nat → List Arg →
    List Store → Outcome ScanResult
  | 0, _, ret, _, _, _, stores => .ok ⟨ret, DSTS_ERROR_SUCCESS, stores⟩
  | fuel + 1, errno, ret, pFmt, pInputString, args, stores =>
    if pFmt.headD 0 ≠ 0 ∧ pInputString.headD 0 ≠ 0 then
      if pFmt.headD 0 = 37 then
        match parse_arg strtof errno (pFmt.drop 1) pInputString args with
        | .fault f => .fault f
        | .ok r =>
          if r.error ≠ DSTS_ERROR_SUCCESS then .ok ⟨ret, r.error, stores ++ r.stores⟩
          else if r.cursor = 0 then .ok ⟨ret, DSTS_ERROR_SUCCESS, stores ++ r.stores⟩
          else
            let ret := if (pFmt.drop 1).headD 0 ≠ 37 then ret + 1 else ret
            let pFmt := pFmt.drop 1
            let pFmt := pFmt.drop (specRun pFmt)
            let pFmt := pFmt.drop 1
            scanLoop strtof fuel r.errno ret pFmt (pInputString.drop r.cursor) r.args
              (stores ++ r.stores)
      else if isspace (pFmt.headD 0) then
        scanLoop strtof fuel errno ret (pFmt.drop 1)
          (pInputString.drop (spaceRun pInputString)) args stores
      else if pFmt.headD 0 = pInputString.headD 0 then
        scanLoop strtof fuel errno ret (pFmt.drop 1) (pInputString.drop 1) args stores
      else .ok ⟨ret, DSTS_ERROR_SUCCESS, stores⟩
    else .ok ⟨ret, DSTS_ERROR_SUCCESS, stores⟩

/-- `dsts_secure_sscanf(pInputString, pStatus, pFmt, ...)` for non-null
`pInputString`, `pFmt` and `pStatus`; `errno` tells whether `errno` is `ERANGE`
on entry. -/
def dsts_secure_sscanf (strtof : Strtof) (errno : Bool) (pInputString pFmt : List Nat)
    (args : List Arg) : Outcome ScanResult :=
  scanLoop strtof pFmt.length errno 0 pFmt pInputString args []

/-- The bytes of a string literal. -/
def bytes (s : String) : List Nat :=
  s.toList.map Char.toNat

end Dsts

/-! ## Vocabulary of the statements -/

namespace Dsts

/-- The length modifiers of a conversion specification. -/
inductive LengthMod where
  | none | h | hh | l | ll
  deriving DecidableEq, Repr

/-- The bytes of a length modifier in a format. -/
def LengthMod.text : LengthMod → List Nat
  | .none => []
  | .h => [104]
  | .hh => [104, 104]
  | .l => [108]
  | .ll => [108, 108]

/-- The category `parse_arg` keeps in `spType` for the modifier. -/
def LengthMod.spType : LengthMod → Nat
  | .none => DSTS_TYPE_DEFAULT
  | .h => DSTS_TYPE_SHORT
  | .hh => DSTS_TYPE_CHAR
  | .l => DSTS_TYPE_LONG
  | .ll => DSTS_TYPE_LLONG

/-- The tag a signed conversion (`d`, `i`) expects with the modifier. -/
def signedTag : LengthMod → Nat
  | .none => DSTS_TYPE_INT
  | .h => DSTS_TYPE_SHORT
  | .hh => DSTS_TYPE_CHAR
  | .l => DSTS_TYPE_LONG
  | .ll => DSTS_TYPE_LLONG

/-- The tag an unsigned conversion (`u`, `x`, `X`) expects with the modifier. -/
def unsignedTag : LengthMod → Nat
  | .none => DSTS_TYPE_UINT
  | .h => DSTS_TYPE_USHORT
  | .hh => DSTS_TYPE_UCHAR
  | .l => DSTS_TYPE_ULONG
  | .ll => DSTS_TYPE_ULLONG

/-- A byte is a decimal digit, `'0'` to `'9'`. -/
def IsDec (c : Nat) : Prop := 48 ≤ c ∧ c ≤ 57

instance (c : Nat) : Decidable (IsDec c) := by
  unfold IsDec; infer_instance

/-- The number a string of decimal digits writes. -/
def decimal (ds : List Nat) : Nat :=
  ds.foldl (fun a c => a * 10 + (c - 48)) 0

/-- The maximal prefix of the input without a NUL and without a white-space
byte: the token a `%s` conversion reads. -/
def tokenOf (input : List Nat) : List Nat :=
  input.takeWhile (fun c => c != 0 && !isspace c)

/-- Effect of one store on the buffer at `p`; `none` is a buffer nothing was
stored to. -/
def applyStore (p : Nat) (buf : Option (List Nat)) : Store → Option (List Nat)
  | .fill q n => if q = p then some (List.replicate n 0) else buf
  | .byte q i b => if q = p then buf.map (fun l => l.set i b) else buf
  | .obj _ _ => buf

/-- The bytes of the buffer at `p` after the stores, in program order. -/
def bufferAfter (p : Nat) (stores : List Store) : Option (List Nat) :=
  stores.foldl (applyStore p) none

/-- The stores `((char *)p)[i] = b`, `((char *)p)[i + 1] = b'`, ... -/
def byteStores (p : Nat) : Nat → List Nat → List Store
  | _, [] => []
  | i, b :: bs => Store.byte p i b :: byteStores p (i + 1) bs

/-- Number of bytes the copy loop of `%s` moves: the length of the token, the
room `cbSize` and, with a width, the width, whichever is least. -/
def copyCount (useTrim : Bool) (uWidth cbSize tokenLen : Nat) : Nat :=
  if useTrim then min (min tokenLen cbSize) uWidth else min tokenLen cbSize

/-- The scratch copy `parse_arg` parses from: the input cut to `w` bytes for a
width `w > 0`, the input itself otherwise (lines 137-144). -/
def field (w : Nat) (pInputString : List Nat) : List Nat :=
  if w > 0 then strncpy pInputString w else pInputString

/-- A `strtof` that converts nothing: it stands for the library function in
closed examples, none of which reaches a `%f` conversion. -/
def noFloat : Strtof := fun _ => ⟨0, 0, false⟩

/-- The bytes after one leading sign, if there is one. -/
def dropSign (s : List Nat) : List Nat :=
  if s.headD 0 = 43 ∨ s.headD 0 = 45 then s.tail else s

/-- The field has no parseable integer: after white space and an optional
sign, the next byte is no decimal digit. -/
def NoDigits (fld : List Nat) : Prop :=
  ¬ IsDec ((dropSign (fld.dropWhile isspace)).headD 0)

instance (fld : List Nat) : Decidable (NoDigits fld) := by
  unfold NoDigits; infer_instance

/-- Width in bits of the integer type of a length category. -/
def LengthMod.bits : LengthMod → Nat
  | .none => 32
  | .h => 16
  | .hh => 8
  | .l => 64
  | .ll => 64

/-- Maximum of the signed type of a length category. -/
def signedMax : LengthMod → Int
  | .none => INT_MAX
  | .h => SHRT_MAX
  | .hh => CHAR_MAX
  | .l => LONG_MAX
  | .ll => LLONG_MAX

/-- Minimum of the signed type of a length category. -/
def signedMin (m : LengthMod) : Int :=
  -(signedMax m) - 1

/-- Mathematical value of a decimal literal, the sign text `sg` (nothing,
`+` or `-`) and the digits `ds`. -/
def literalValue (sg ds : List Nat) : Int :=
  if sg = [45] then -(decimal ds : Int) else (decimal ds : Int)

/-- The tag a conversion letter expects with a length modifier: `f` Float;
`d`, `i` the signed category; `u`, `x`, `X` the unsigned category; `c` Char;
`s` String. -/
def expectedTag (c : Nat) (m : LengthMod) : Nat :=
  if c = 102 then DSTS_TYPE_FLOAT
  else if c = 100 ∨ c = 105 then signedTag m
  else if c = 117 ∨ c = 120 ∨ c = 88 then unsignedTag m
  else if c = 99 then DSTS_TYPE_CHAR
  else DSTS_TYPE_STRING

/-- The conversion letters `f`, `d`, `i`, `u`, `x`, `X`, `c`, `s`. -/
def IsConvLetter (c : Nat) : Prop :=
  c = 102 ∨ c = 100 ∨ c = 105 ∨ c = 117 ∨ c = 120 ∨ c = 88 ∨ c = 99 ∨ c = 115

instance (c : Nat) : Decidable (IsConvLetter c) := by
  unfold IsConvLetter; infer_instance

/-- The default a numeric destination is initialised with: `0.0f` for a
`Float` tag, `0` for the integer tags. -/
def defaultOf (iType : Nat) : Value :=
  if iType = DSTS_TYPE_FLOAT then .flt 0 else .int 0

/-- The range test lines 375-416 make for an unsigned category: on the value
`val` that was parsed, except in the default category, where line 411 tests
`lRet`, the width. -/
def unsignedReject (m : LengthMod) (lRet val : Int) : Prop :=
  match m with
  | .none => lRet > UINT_MAX
  | .h => val > USHRT_MAX
  | .hh => val > UCHAR_MAX
  | .l => val > ULONG_MAX
  | .ll => val > ULLONG_MAX

instance (m : LengthMod) (lRet val : Int) : Decidable (unsignedReject m lRet val) := by
  cases m <;> (unfold unsignedReject; infer_instance)

/-- What holds of the stores of a conversion given the destination `a` on
`input`, by its status: nothing is stored when the status is InvalidType,
InvalidFormat or BufferTooSmall; the default alone is stored when it is
NumericConversionError; on Success the first store is the default of a numeric
destination or the zero fill of a string buffer, or the only store is the
input byte of `%c`. -/
def Initialised (input : List Nat) (a : Arg) (r : ParseResult) : Prop :=
  ((r.error = DSTS_ERROR_INVALID_TYPE ∨ r.error = DSTS_ERROR_INVALID_FMT
      ∨ r.error = DSTS_ERROR_BUFFER_TOO_SMALL) → r.stores = [])
  ∧ (r.error = DSTS_ERROR_NUMERIC_CONVERSION →
      r.stores = [Store.obj a.pOutput (defaultOf a.iType)])
  ∧ (r.error = DSTS_ERROR_SUCCESS → (a.iType = DSTS_TYPE_STRING → a.cbSize ≠ 0) →
      r.stores.head? = some (Store.obj a.pOutput (defaultOf a.iType))
      ∨ r.stores.head? = some (Store.fill a.pOutput a.cbSize)
      ∨ r.stores = [Store.obj a.pOutput (.int (wrapSigned 8 (input.headD 0)))])

/-- The destination pointer a store goes through. -/
def Store.ptr : Store → Nat
  | .obj p _ => p
  | .fill p _ => p
  | .byte p _ _ => p

/-- `strlen`: the number of bytes before the terminating NUL. -/
def cstrlen (s : List Nat) : Nat :=
  (s.takeWhile (fun c => c != 0)).length

/-- The base a `%i` conversion parses in, by the leading bytes of the input: a
first byte `'0'` followed by `'x'` selects 16, a first byte `'0'` followed by
anything else selects 8, any other first byte selects 10. -/
def chosenBase : List Nat → Nat
  | [] => 10
  | [c] => if c = 48 then 8 else 10
  | c :: d :: _ => if c = 48 then (if d = 120 then 16 else 8) else 10

/-- The loop of lines 485-520 once more, with `pInputString` made visible:
the result of `scanLoop` together with the offsets from the start of the
input that `pInputString` is given, in order, by the assignments of lines
509, 513 and 516.  `pos` is the offset of `pInputString` on entry. -/
def scanTraced (strtof : Strtof) : Nat → Bool → Nat → List Nat → List Nat → List Arg →
    List Store → Nat → Outcome ScanResult × List Nat
  | 0, _, ret, _, _, _, stores, _ => (.ok ⟨ret, DSTS_ERROR_SUCCESS, stores⟩, [])
  | fuel + 1, errno, ret, pFmt, pInputString, args, stores, pos =>
    if pFmt.headD 0 ≠ 0 ∧ pInputString.headD 0 ≠ 0 then
      if pFmt.headD 0 = 37 then
        match parse_arg strtof errno (pFmt.drop 1) pInputString args with
        | .fault f => (.fault f, [])
        | .ok r =>
          if r.error ≠ DSTS_ERROR_SUCCESS then (.ok ⟨ret, r.error, stores ++ r.stores⟩, [])
          else if r.cursor = 0 then (.ok ⟨ret, DSTS_ERROR_SUCCESS, stores ++ r.stores⟩, [])
          else
            let t := scanTraced strtof fuel r.errno
              (if (pFmt.drop 1).headD 0 ≠ 37 then ret + 1 else ret)
              (((pFmt.drop 1).drop (specRun (pFmt.drop 1))).drop 1)
              (pInputString.drop r.cursor) r.args (stores ++ r.stores) (pos + r.cursor)
            (t.1, (pos + r.cursor) :: t.2)
      else if isspace (pFmt.headD 0) then
        let t := scanTraced strtof fuel errno ret (pFmt.drop 1)
          (pInputString.drop (spaceRun pInputString)) args stores
          (pos + spaceRun pInputString)
        (t.1, (pos + spaceRun pInputString) :: t.2)
      else if pFmt.headD 0 = pInputString.headD 0 then
        let t := scanTraced strtof fuel errno ret (pFmt.drop 1) (pInputString.drop 1) args stores
          (pos + 1)
        (t.1, (pos + 1) :: t.2)
      else (.ok ⟨ret, DSTS_ERROR_SUCCESS, stores⟩, [])
    else (.ok ⟨ret, DSTS_ERROR_SUCCESS, stores⟩, [])

/-- The number of format bytes after the `'%'` that `parse_arg` reads as the
directive: the bytes up to `pFmtEnd`, where the `strtol` of line 129 stopped,
the bytes of the length modifier (lines 150-172) and the conversion letter the
switch of line 174 reads. -/
def parsedExtent (pFmt : List Nat) : Nat :=
  (strtol pFmt 10).len + (lengthModifier (pFmt.drop (strtol pFmt 10).len)).2 + 1

/-- The number of format bytes after the `'%'` that the driver steps over once
the conversion is done: the loop of lines 504-506 and the `++pFmt` of line
508. -/
def skippedExtent (pFmt : List Nat) : Nat :=
  specRun pFmt + 1

/-- The byte the switch of line 174 reads: `*pFmt` once the width (line 129) and
the length modifier (lines 150-172) are behind it. -/
def letterOf (pFmt : List Nat) : Nat :=
  ((pFmt.drop (strtol pFmt 10).len).drop
    (lengthModifier (pFmt.drop (strtol pFmt 10).len)).2).headD 0

/-- When the status is Success, the first store to the destination is its
default. -/
def DefaultFirst (a : Arg) (r : ParseResult) : Prop :=
  r.error = DSTS_ERROR_SUCCESS →
    r.stores.head? = some (Store.obj a.pOutput (defaultOf a.iType))

/-- Value of the digits `ds` read in the base `base`. -/
def valueIn (base : Nat) (ds : List Nat) : Nat :=
  ds.foldl (fun a c => a * base + (digitOf c).getD 0) 0

/-- The signed conversion in the words of the specification (step `d / i`), in
the base `base` on the field of width `w` (the input itself when `w` is 0):
the signed integer prefix of the field is parsed in that base; no digits
parsed gives NumericConversionError; a value above the maximum of the category
gives NumericConversionError; otherwise the cursor moves by the bytes consumed
and the value is stored after the default. -/
def signedOutcome (base : Nat) (m : LengthMod) (w : Nat) (input : List Nat) (a : Arg)
    (args : List Arg) (e : Bool) : ParseResult :=
  let r := strtol (field w input) base
  let cur := advance (decide (w > 0)) w (field w input) r.len
  if r.len = 0 then
    numericError input 0 (DSTS_PUT_VALUE a.pOutput (.int 0)) args (e || r.erange)
  else if r.val > signedMax m then
    numericError input cur (DSTS_PUT_VALUE a.pOutput (.int 0)) args (e || r.erange)
  else
    ⟨DSTS_ERROR_SUCCESS, cur,
      DSTS_PUT_VALUE a.pOutput (.int 0)
        ++ DSTS_PUT_VALUE a.pOutput (.int (wrapSigned m.bits r.val)),
      args, e || r.erange⟩

/-! ## The C library model -/

theorem digitOf_of_isDec {c : Nat} (h : IsDec c) : digitOf c = some (c - 48) := by
  unfold IsDec at h
  simp [digitOf, h]

theorem digitRun_not_dec (rest : List Nat) (acc : Nat)
    (h : ¬ IsDec (rest.headD 0)) : digitRun 10 rest acc = (acc, 0) := by
  cases rest with
  | nil => rfl
  | cons c cs =>
    simp only [List.headD_cons, IsDec] at h
    unfold digitRun digitOf
    split_ifs <;> rfl

theorem digitRun_digits (ds rest : List Nat) (hds : ∀ c ∈ ds, IsDec c)
    (hrest : ¬ IsDec (rest.headD 0)) (acc : Nat) :
    digitRun 10 (ds ++ rest) acc
      = (ds.foldl (fun a c => a * 10 + (c - 48)) acc, ds.length) := by
  induction ds generalizing acc with
  | nil => simpa using digitRun_not_dec rest acc hrest
  | cons d ds ih =>
    have hd : IsDec d := hds d (by simp)
    have hlt : d - 48 < 10 := by unfold IsDec at hd; omega
    have h := ih (fun c hc => hds c (by simp [hc])) (acc * 10 + (d - 48))
    simp only [List.cons_append, digitRun, digitOf_of_isDec hd, hlt, if_true,
      List.foldl_cons, List.length_cons, List.append_eq, h]

theorem spaceRun_of_not_space (s : List Nat) (h : isspace (s.headD 0) = false) :
    spaceRun s = 0 := by
  cases s with
  | nil => rfl
  | cons c cs => simp only [List.headD_cons] at h; simp [spaceRun, h]

theorem hexPrefix_ten (s : List Nat) : hexPrefix 10 s = 0 := by
  simp [hexPrefix]

theorem isspace_false_of_ge {c : Nat} (h : 33 ≤ c) : isspace c = false := by
  simp only [isspace, Bool.or_eq_false_iff, Bool.and_eq_false_iff, beq_eq_false_iff_ne,
    decide_eq_false_iff_not]
  omega

/-- The width field of a conversion specification: `strtol` reads the digits
`ds` and stops at the byte after them, a letter or any byte from `':'` on. -/
theorem scanSubject_width (ds tail : List Nat) (hds : ∀ c ∈ ds, IsDec c)
    (htail : 58 ≤ tail.headD 0) :
    scanSubject (ds ++ tail) 10 = ⟨false, decimal ds, ds.length⟩ := by
  have hnd : ¬ IsDec (tail.headD 0) := by unfold IsDec; omega
  have hhead : 48 ≤ (ds ++ tail).headD 0 := by
    cases ds with
    | nil => simp only [List.nil_append]; omega
    | cons d ds => simpa using (hds d (by simp)).1
  have hws : spaceRun (ds ++ tail) = 0 :=
    spaceRun_of_not_space _ (isspace_false_of_ge (by omega))
  have h45 : ¬ ((ds ++ tail).headD 0 = 45) := by omega
  have h43 : ¬ ((ds ++ tail).headD 0 = 43) := by omega
  have hrun := digitRun_digits ds tail hds hnd 0
  simp only [scanSubject, hws, List.drop_zero, h45, h43, or_self, if_false, hexPrefix_ten,
    hrun, decide_False, Nat.zero_add]
  cases ds with
  | nil => simp [decimal]
  | cons d ds => simp [decimal]

/-- A decimal literal, an optional sign and the digits `ds`, with a byte that
is no digit after it. -/
theorem scanSubject_literal (sg ds rest : List Nat) (hsg : sg = [] ∨ sg = [43] ∨ sg = [45])
    (hds : ∀ c ∈ ds, IsDec c) (hne : ds ≠ []) (hrest : ¬ IsDec (rest.headD 0)) :
    scanSubject (sg ++ ds ++ rest) 10
      = ⟨decide (sg = [45]), decimal ds, sg.length + ds.length⟩ := by
  obtain ⟨d, ds', rfl⟩ := List.exists_cons_of_ne_nil hne
  have hd : IsDec d := hds d (by simp)
  have hd' : 48 ≤ d ∧ d ≤ 57 := hd
  have hrun := digitRun_digits (d :: ds') rest hds hrest 0
  simp only [List.cons_append] at hrun
  rcases hsg with rfl | rfl | rfl
  · have hws : spaceRun (d :: (ds' ++ rest)) = 0 :=
      spaceRun_of_not_space _ (isspace_false_of_ge (by simp; omega))
    have h45 : ¬ (d = 45) := by omega
    have h43 : ¬ (d = 43) := by omega
    simp [scanSubject, hws, h45, h43, hexPrefix_ten, hrun, decimal]
  · have hws : spaceRun (43 :: d :: (ds' ++ rest)) = 0 := by simp [spaceRun, isspace]
    simp [scanSubject, hws, hexPrefix_ten, hrun, decimal]
  · have hws : spaceRun (45 :: d :: (ds' ++ rest)) = 0 := by simp [spaceRun, isspace]
    simp [scanSubject, hws, hexPrefix_ten, hrun, decimal]

theorem strtol_width (ds tail : List Nat) (hds : ∀ c ∈ ds, IsDec c)
    (htail : 58 ≤ tail.headD 0) (hw : decimal ds < DSTS_MAX_STRING_OUTPUT) :
    strtol (ds ++ tail) 10 = ⟨(decimal ds : Int), ds.length, false⟩ := by
  have hw' : decimal ds < 16384 := hw
  have h1 : ¬ ((decimal ds : Int) > LONG_MAX) := by unfold LONG_MAX; omega
  have h2 : ¬ ((decimal ds : Int) < LONG_MIN) := by unfold LONG_MIN; omega
  simp [strtol, scanSubject_width ds tail hds htail, h1, h2]

/-! ## `parse_arg` on a conversion specification -/

theorem lengthModifier_text (m : LengthMod) (c : Nat) (rest : List Nat)
    (h104 : c ≠ 104) (h108 : c ≠ 108) :
    lengthModifier (m.text ++ c :: rest) = (m.spType, m.text.length) := by
  cases m <;> simp [lengthModifier, LengthMod.text, LengthMod.spType, h104, h108]

theorem headD_modifier (m : LengthMod) (c : Nat) (rest : List Nat) (hc : 58 ≤ c) :
    58 ≤ (m.text ++ c :: rest).headD 0 := by
  cases m <;> simp [LengthMod.text, hc]

/-- On the text `<digits><modifier><letter>` of a conversion specification
whose width is below the size of the scratch buffer, `parse_arg` reaches the
switch on the letter with the width, the modifier's category and the scratch
copy in place. -/
theorem parse_arg_directive (strtof : Strtof) (e : Bool) (ds : List Nat) (m : LengthMod)
    (c : Nat) (rest input : List Nat) (a : Arg) (args : List Arg)
    (hds : ∀ d ∈ ds, IsDec d) (hw : decimal ds < DSTS_MAX_STRING_OUTPUT)
    (hc : 58 ≤ c) (h104 : c ≠ 104) (h108 : c ≠ 108) :
    parse_arg strtof e (ds ++ (m.text ++ c :: rest)) input (a :: args)
      = .ok (convert strtof c m.spType (decimal ds) (decide (decimal ds > 0)) (decimal ds)
          (field (decimal ds) input) input a args e) := by
  have hw' : decimal ds < 16384 := hw
  have hs := strtol_width ds (m.text ++ c :: rest) hds (headD_modifier m c rest hc) hw
  have h1 : ¬ ((decimal ds : Int) > UINT_MAX) := by unfold UINT_MAX; push_cast; omega
  have h2 : (wrapUnsigned 32 (decimal ds : Int)).toNat = decimal ds := by
    unfold wrapUnsigned
    have : ((decimal ds : Int)) % 2 ^ 32 = (decimal ds : Int) := by
      apply Int.emod_eq_of_lt <;> omega
    rw [this]; simp
  have h3 : ¬ (decimal ds ≥ DSTS_MAX_STRING_OUTPUT) := by omega
  simp only [parse_arg, hs, Bool.or_false, eqHuge, Bool.false_and, Bool.false_or,
    decide_eq_true_eq, h1, if_false, h2, h3, List.drop_left, lengthModifier_text m c rest h104 h108,
    List.headD_cons, field]

/-! ## The copy loop of `%s` -/

theorem copyLoop_eq (useTrim : Bool) (p : Nat) (input : List Nat) (i cbSize uWidth : Nat) :
    copyLoop useTrim p input i cbSize uWidth
      = (byteStores p i ((tokenOf input).take
            (copyCount useTrim uWidth cbSize (tokenOf input).length)),
          copyCount useTrim uWidth cbSize (tokenOf input).length,
          cbSize - copyCount useTrim uWidth cbSize (tokenOf input).length) := by
  induction input generalizing i cbSize uWidth with
  | nil => simp [copyLoop, tokenOf, copyCount, byteStores]
  | cons c cs ih =>
    unfold copyLoop
    by_cases hc : (c != 0 && !isspace c) = true
    · by_cases hcb : cbSize = 0
      · subst hcb
        cases useTrim <;> simp [copyCount, byteStores]
      · cases useTrim with
        | false =>
          have hn : copyCount false uWidth cbSize (tokenOf (c :: cs)).length
              = copyCount false uWidth (cbSize - 1) (tokenOf cs).length + 1 := by
            simp only [tokenOf, List.takeWhile_cons, hc, if_true, List.length_cons, copyCount]
            simp only [Bool.false_eq_true, if_false]
            omega
          have ht : tokenOf (c :: cs) = c :: tokenOf cs := by
            simp only [tokenOf, List.takeWhile_cons, hc, if_true]
          rw [hn, ht]
          have hcond : (c != 0 && !isspace c && cbSize != 0
              && (!false || decide (uWidth > 0))) = true := by
            simp only [hc, Bool.true_and, Bool.not_false, Bool.true_or, Bool.and_true]
            simpa using hcb
          simp only [hcond, if_true, ih, Bool.false_eq_true, if_false, List.take_succ_cons,
            byteStores]
          congr 2
          omega
        | true =>
          by_cases hw : uWidth = 0
          · subst hw
            simp [copyCount, byteStores]
          · have hn : copyCount true uWidth cbSize (tokenOf (c :: cs)).length
                = copyCount true (uWidth - 1) (cbSize - 1) (tokenOf cs).length + 1 := by
              simp only [tokenOf, List.takeWhile_cons, hc, if_true, List.length_cons, copyCount]
              omega
            have ht : tokenOf (c :: cs) = c :: tokenOf cs := by
              simp only [tokenOf, List.takeWhile_cons, hc, if_true]
            rw [hn, ht]
            have hcond : (c != 0 && !isspace c && cbSize != 0
                && (!true || decide (uWidth > 0))) = true := by
              simp only [hc, Bool.true_and, Bool.not_true, Bool.false_or]
              simp only [Bool.and_eq_true, bne_iff_ne, ne_eq, decide_eq_true_eq]
              exact ⟨hcb, by omega⟩
            simp only [hcond, if_true, ih, List.take_succ_cons, byteStores]
            congr 2
            omega
    · have ht : tokenOf (c :: cs) = [] := by
        simp only [tokenOf, List.takeWhile_cons, hc, if_false]
        simp
      have hcond : (c != 0 && !isspace c && cbSize != 0
          && (!useTrim || decide (uWidth > 0))) = false := by
        have : (c != 0 && !isspace c) = false := by simpa using hc
        simp only [this, Bool.false_and]
      rw [ht]
      simp only [hcond, Bool.false_eq_true, if_false]
      cases useTrim <;> simp [copyCount, byteStores]

theorem foldl_byteStores (p : Nat) (bs pre : List Nat) (z : Nat) (hz : bs.length ≤ z) :
    (byteStores p pre.length bs).foldl (applyStore p) (some (pre ++ List.replicate z 0))
      = some (pre ++ bs ++ List.replicate (z - bs.length) 0) := by
  induction bs generalizing pre z with
  | nil => simp [byteStores]
  | cons b bs ih =>
    obtain ⟨z', rfl⟩ : ∃ z', z = z' + 1 := ⟨z - 1, by simp at hz; omega⟩
    have hset : (pre ++ List.replicate (z' + 1) 0).set pre.length b
        = (pre ++ [b]) ++ List.replicate z' 0 := by
      rw [List.set_append_right _ _ (Nat.le_refl _)]
      simp [List.replicate_succ]
    have hlen : (pre ++ [b]).length = pre.length + 1 := by simp
    simp only [byteStores, List.foldl_cons, applyStore, if_true, Option.map_some', hset]
    rw [← hlen, ih (pre ++ [b]) z' (by simp at hz; omega)]
    simp

/-! ## The switch on the conversion letter -/

theorem convert_f (strtof : Strtof) (sp : Nat) (l : Int) (ut : Bool) (w : Nat)
    (pp input : List Nat) (a : Arg) (args : List Arg) (e : Bool) :
    convert strtof 102 sp l ut w pp input a args e = conv_f strtof ut w pp input a args e := by
  simp [convert]

theorem convert_i (strtof : Strtof) (sp : Nat) (l : Int) (ut : Bool) (w : Nat)
    (pp input : List Nat) (a : Arg) (args : List Arg) (e : Bool) :
    convert strtof 105 sp l ut w pp input a args e
      = conv_d (if input.headD 0 = 48 then (if (input.drop 1).headD 0 = 120 then 16 else 8)
          else 10) sp l ut w pp input a args e := by
  simp [convert]

theorem convert_d (strtof : Strtof) (sp : Nat) (l : Int) (ut : Bool) (w : Nat)
    (pp input : List Nat) (a : Arg) (args : List Arg) (e : Bool) :
    convert strtof 100 sp l ut w pp input a args e = conv_d 10 sp l ut w pp input a args e := by
  simp [convert]

theorem convert_X (strtof : Strtof) (sp : Nat) (l : Int) (ut : Bool) (w : Nat)
    (pp input : List Nat) (a : Arg) (args : List Arg) (e : Bool) :
    convert strtof 88 sp l ut w pp input a args e = conv_u 16 sp l ut w pp input a args e := by
  simp [convert]

theorem convert_x (strtof : Strtof) (sp : Nat) (l : Int) (ut : Bool) (w : Nat)
    (pp input : List Nat) (a : Arg) (args : List Arg) (e : Bool) :
    convert strtof 120 sp l ut w pp input a args e = conv_u 16 sp l ut w pp input a args e := by
  simp [convert]

theorem convert_u (strtof : Strtof) (sp : Nat) (l : Int) (ut : Bool) (w : Nat)
    (pp input : List Nat) (a : Arg) (args : List Arg) (e : Bool) :
    convert strtof 117 sp l ut w pp input a args e = conv_u 10 sp l ut w pp input a args e := by
  simp [convert]

theorem convert_c (strtof : Strtof) (sp : Nat) (l : Int) (ut : Bool) (w : Nat)
    (pp input : List Nat) (a : Arg) (args : List Arg) (e : Bool) :
    convert strtof 99 sp l ut w pp input a args e = conv_c input a args e := by
  simp [convert]

theorem convert_s (strtof : Strtof) (sp : Nat) (l : Int) (ut : Bool) (w : Nat)
    (pp input : List Nat) (a : Arg) (args : List Arg) (e : Bool) :
    convert strtof 115 sp l ut w pp input a args e = conv_s ut w input a args e := by
  simp [convert]

/-- On `<digits><letter>`, a conversion specification without a length
modifier. -/
theorem parse_arg_plain (strtof : Strtof) (e : Bool) (ds : List Nat)
    (c : Nat) (rest input : List Nat) (a : Arg) (args : List Arg)
    (hds : ∀ d ∈ ds, IsDec d) (hw : decimal ds < DSTS_MAX_STRING_OUTPUT)
    (hc : 58 ≤ c) (h104 : c ≠ 104) (h108 : c ≠ 108) :
    parse_arg strtof e (ds ++ c :: rest) input (a :: args)
      = .ok (convert strtof c DSTS_TYPE_DEFAULT (decimal ds) (decide (decimal ds > 0))
          (decimal ds) (field (decimal ds) input) input a args e) :=
  parse_arg_directive strtof e ds .none c rest input a args hds hw hc h104 h108

/-! ## A field without digits -/

theorem drop_spaceRun (s : List Nat) : s.drop (spaceRun s) = s.dropWhile isspace := by
  induction s with
  | nil => rfl
  | cons c cs ih =>
    by_cases h : isspace c = true
    · simp [spaceRun, h, ih, List.dropWhile_cons]
    · simp [spaceRun, h, List.dropWhile_cons]

theorem scanSubject_noDigits (fld : List Nat) (h : NoDigits fld) :
    scanSubject fld 10 = ⟨false, 0, 0⟩ := by
  unfold NoDigits dropSign at h
  simp only [scanSubject, drop_spaceRun, hexPrefix_ten, List.drop_zero]
  by_cases hs : (fld.dropWhile isspace).headD 0 = 43 ∨ (fld.dropWhile isspace).headD 0 = 45
  · have hs' : (fld.dropWhile isspace).headD 0 = 45 ∨ (fld.dropWhile isspace).headD 0 = 43 :=
      hs.symm
    simp only [hs, if_true] at h
    simp only [hs', if_true, List.drop_one]
    rw [digitRun_not_dec _ _ h]
    simp
  · have hs' : ¬ ((fld.dropWhile isspace).headD 0 = 45 ∨ (fld.dropWhile isspace).headD 0 = 43) :=
      fun x => hs x.symm
    simp only [hs, if_false] at h
    simp only [hs', if_false, List.drop_zero]
    rw [digitRun_not_dec _ _ h]
    simp

theorem strtol_noDigits (fld : List Nat) (h : NoDigits fld) :
    strtol fld 10 = ⟨0, 0, false⟩ := by
  simp [strtol, scanSubject_noDigits fld h, LONG_MAX, LONG_MIN]

theorem field_headD (w : Nat) (input : List Nat) (c : Nat) (hc : c ≠ 0)
    (h : input.headD 0 = c) : (field w input).headD 0 = c := by
  unfold field
  split
  · cases input with
    | nil => simp at h; exact absurd h.symm hc
    | cons x xs =>
      simp only [List.headD_cons] at h
      subst h
      obtain ⟨w', rfl⟩ : ∃ w', w = w' + 1 := ⟨w - 1, by omega⟩
      simp [strncpy, List.takeWhile_cons, hc]
  · exact h

theorem not_noDigits_of_zero (fld : List Nat) (h : fld.headD 0 = 48) : ¬ NoDigits fld := by
  cases fld with
  | nil => simp at h
  | cons x xs =>
    simp only [List.headD_cons] at h
    subst h
    simp [NoDigits, dropSign, List.dropWhile_cons, isspace, IsDec]

/-- The driver on a `%`: what `parse_arg` returns decides (lines 486-509). -/
theorem scanLoop_percent (strtof : Strtof) (fuel : Nat) (e : Bool) (ret : Nat)
    (fs input : List Nat) (args : List Arg) (stores : List Store)
    (hin : input.headD 0 ≠ 0) :
    scanLoop strtof (fuel + 1) e ret (37 :: fs) input args stores
      = match parse_arg strtof e fs input args with
        | .fault f => .fault f
        | .ok r =>
          if r.error ≠ DSTS_ERROR_SUCCESS then .ok ⟨ret, r.error, stores ++ r.stores⟩
          else if r.cursor = 0 then .ok ⟨ret, DSTS_ERROR_SUCCESS, stores ++ r.stores⟩
          else
            scanLoop strtof fuel r.errno (if fs.headD 0 ≠ 37 then ret + 1 else ret)
              ((fs.drop (specRun fs)).drop 1) (input.drop r.cursor) r.args
              (stores ++ r.stores) := by
  have h1 : (37 : Nat) ≠ 0 ∧ input.headD 0 ≠ 0 := ⟨by decide, hin⟩
  rw [scanLoop]
  simp only [List.headD_cons, List.drop_succ_cons, List.drop_zero]
  rw [if_pos h1, if_pos trivial]

/-- Fuel beyond the length of the format changes nothing: every iteration
that goes on has moved `pFmt` forward. -/
theorem scanLoop_fuel (strtof : Strtof) (n k : Nat) (e : Bool) (ret : Nat)
    (fmt input : List Nat) (args : List Arg) (stores : List Store)
    (h : fmt.length ≤ n) :
    scanLoop strtof (n + k) e ret fmt input args stores
      = scanLoop strtof n e ret fmt input args stores := by
  induction n generalizing e ret fmt input args stores with
  | zero =>
    have hf : fmt = [] := List.length_eq_zero.mp (Nat.le_zero.mp h)
    subst hf
    cases k with
    | zero => rfl
    | succ k => simp [scanLoop]
  | succ n ih =>
    rw [show n + 1 + k = (n + k) + 1 by omega]
    cases fmt with
    | nil => simp [scanLoop]
    | cons f fs =>
      have hfs : fs.length ≤ n := by simpa using h
      have hdrop : ((fs.drop (specRun fs)).drop 1).length ≤ n := by
        simp only [List.length_drop]; omega
      have ih1 := fun e ret input args stores => ih e ret fs input args stores hfs
      have ih2 := fun e ret input args stores =>
        ih e ret ((fs.drop (specRun fs)).drop 1) input args stores hdrop
      rw [scanLoop, scanLoop]
      simp only [List.headD_cons, List.drop_succ_cons, List.drop_zero, ih1, ih2]

theorem signedTag_eq (m : LengthMod) :
    (if m.spType = DSTS_TYPE_DEFAULT then DSTS_TYPE_INT else m.spType) = signedTag m := by
  cases m <;> rfl

theorem unsignedTag_eq (m : LengthMod) :
    (if m.spType = DSTS_TYPE_DEFAULT then DSTS_TYPE_UINT else m.spType + 1) = unsignedTag m := by
  cases m <;> rfl

theorem conv_d_noDigits (m : LengthMod) (l : Int) (ut : Bool) (w : Nat)
    (pp input : List Nat) (a : Arg) (args : List Arg) (e : Bool)
    (htag : a.iType = signedTag m) (hno : NoDigits pp) :
    conv_d 10 m.spType l ut w pp input a args e
      = numericError input 0 (DSTS_PUT_VALUE a.pOutput (.int 0)) args e := by
  simp [conv_d, signedTag_eq, htag, strtoll, strtol_noDigits pp hno]

theorem strtoul_noDigits (fld : List Nat) (h : NoDigits fld) :
    strtoul fld 10 = ⟨0, 0, false⟩ := by
  simp [strtoul, scanSubject_noDigits fld h, ULONG_MAX]

theorem trimLoop_self (w : Nat) (pp : List Nat) : trimLoop (pp.headD 0) w pp = 0 := by
  cases w <;> simp [trimLoop]

theorem trimLoop_self_getD (w : Nat) (pp : List Nat) :
    trimLoop (pp.head?.getD 0) w pp = 0 := by
  simpa using trimLoop_self w pp

theorem conv_u_noDigits_width (m : LengthMod) (l : Int) (w : Nat)
    (pp input : List Nat) (a : Arg) (args : List Arg) (e : Bool)
    (htag : a.iType = unsignedTag m) (hl : l ≤ UINT_MAX) (hno : NoDigits pp) :
    conv_u 10 m.spType l true w pp input a args e
      = ⟨DSTS_ERROR_SUCCESS, 0,
          DSTS_PUT_VALUE a.pOutput (.int 0) ++ DSTS_PUT_VALUE a.pOutput (.int 0), args, e⟩ := by
  have hl' : ¬ (l > UINT_MAX) := not_lt.mpr hl
  cases m <;>
    simp [conv_u, LengthMod.spType, unsignedTag, htag, strtoull, strtoul_noDigits pp hno,
      advance, trimLoop_self_getD, eqHuge, wrapUnsigned, hl', DSTS_TYPE_DEFAULT, DSTS_TYPE_UINT,
      DSTS_TYPE_SHORT, DSTS_TYPE_USHORT, DSTS_TYPE_LONG, DSTS_TYPE_ULONG, DSTS_TYPE_LLONG,
      DSTS_TYPE_ULLONG, DSTS_TYPE_CHAR, DSTS_TYPE_UCHAR, UCHAR_MAX, USHRT_MAX, ULONG_MAX,
      ULLONG_MAX]

theorem conv_u_noDigits_plain (m : LengthMod) (l : Int) (w : Nat)
    (pp input : List Nat) (a : Arg) (args : List Arg) (e : Bool)
    (htag : a.iType = unsignedTag m) (hno : NoDigits pp) :
    conv_u 10 m.spType l false w pp input a args e
      = numericError input 0 (DSTS_PUT_VALUE a.pOutput (.int 0)) args e := by
  simp [conv_u, unsignedTag_eq, htag, strtoull, strtoul_noDigits pp hno]

/-! ## Integer conversions in closed form -/

theorem strtol_literal (sg ds rest : List Nat) (hsg : sg = [] ∨ sg = [43] ∨ sg = [45])
    (hds : ∀ c ∈ ds, IsDec c) (hne : ds ≠ []) (hrest : ¬ IsDec (rest.headD 0)) :
    strtol (sg ++ ds ++ rest) 10
      = if literalValue sg ds > LONG_MAX then ⟨LONG_MAX, sg.length + ds.length, true⟩
        else if literalValue sg ds < LONG_MIN then ⟨LONG_MIN, sg.length + ds.length, true⟩
        else ⟨literalValue sg ds, sg.length + ds.length, false⟩ := by
  simp only [strtol, scanSubject_literal sg ds rest hsg hds hne hrest, literalValue,
    decide_eq_true_eq]

/-- The signed conversion once the tag is verified: no digits, a value above
the maximum of the category, or a value stored after conversion to the
destination type. -/
theorem conv_d_eq (base : Nat) (m : LengthMod) (l : Int) (ut : Bool) (w : Nat)
    (pp input : List Nat) (a : Arg) (args : List Arg) (e : Bool)
    (htag : a.iType = signedTag m) :
    conv_d base m.spType l ut w pp input a args e
      = if (strtol pp base).len = 0 then
          numericError input 0 (DSTS_PUT_VALUE a.pOutput (.int 0)) args
            (e || (strtol pp base).erange)
        else if (strtol pp base).val > signedMax m then
          numericError input (advance ut w pp (strtol pp base).len)
            (DSTS_PUT_VALUE a.pOutput (.int 0)) args (e || (strtol pp base).erange)
        else
          ⟨DSTS_ERROR_SUCCESS, advance ut w pp (strtol pp base).len,
            DSTS_PUT_VALUE a.pOutput (.int 0)
              ++ DSTS_PUT_VALUE a.pOutput (.int (wrapSigned m.bits (strtol pp base).val)),
            args, e || (strtol pp base).erange⟩ := by
  cases m <;>
    simp [conv_d, LengthMod.spType, signedTag, signedMax, LengthMod.bits, htag, strtoll,
      eqHuge, DSTS_TYPE_DEFAULT, DSTS_TYPE_INT, DSTS_TYPE_SHORT, DSTS_TYPE_LONG,
      DSTS_TYPE_LLONG, DSTS_TYPE_CHAR]

theorem specRun_modifier (m : LengthMod) (c : Nat) (rest : List Nat)
    (hc : 58 ≤ c) (h104 : c ≠ 104) (h108 : c ≠ 108) :
    specRun (m.text ++ c :: rest) = m.text.length := by
  have h : ¬ ((48 ≤ c ∧ c ≤ 57) ∨ c = 104 ∨ c = 108) := by omega
  cases m <;> simp [specRun, LengthMod.text, h]

theorem headD_modifier_ne (m : LengthMod) (c : Nat) (rest : List Nat) (hc : c ≠ 37) :
    (m.text ++ c :: rest).headD 0 ≠ 37 := by
  cases m <;> simp [LengthMod.text, hc]

theorem wrapSigned_of_range (m : LengthMod) (v : Int) (h1 : signedMin m ≤ v)
    (h2 : v ≤ signedMax m) : wrapSigned m.bits v = v := by
  cases m <;>
    simp only [signedMin, signedMax, INT_MAX, SHRT_MAX, CHAR_MAX, LONG_MAX, LLONG_MAX] at h1 h2 <;>
    simp only [wrapSigned, LengthMod.bits] <;>
    norm_num <;> omega

theorem literal_headD (sg ds rest : List Nat) (hsg : sg = [] ∨ sg = [43] ∨ sg = [45])
    (hds : ∀ c ∈ ds, IsDec c) (hne : ds ≠ []) : (sg ++ ds ++ rest).headD 0 ≠ 0 := by
  obtain ⟨d, ds', rfl⟩ := List.exists_cons_of_ne_nil hne
  have hd : 48 ≤ d ∧ d ≤ 57 := hds d (by simp)
  rcases hsg with rfl | rfl | rfl
  · simp only [List.nil_append, List.cons_append, List.headD_cons]; omega
  · simp
  · simp

theorem literal_drop (sg ds rest : List Nat) :
    (sg ++ ds ++ rest).drop (sg.length + ds.length) = rest := by
  rw [← List.length_append, List.drop_left]

/-- `parse_arg` on `<modifier><letter>`, a conversion specification without a
width. -/
theorem parse_arg_nowidth (strtof : Strtof) (e : Bool) (m : LengthMod)
    (c : Nat) (rest input : List Nat) (a : Arg) (args : List Arg)
    (hc : 58 ≤ c) (h104 : c ≠ 104) (h108 : c ≠ 108) :
    parse_arg strtof e (m.text ++ c :: rest) input (a :: args)
      = .ok (convert strtof c m.spType 0 false 0 input input a args e) := by
  have h := parse_arg_directive strtof e [] m c rest input a args (by simp) (by decide)
    hc h104 h108
  simpa [decimal, field] using h

theorem strtoul_digits (ds rest : List Nat) (hds : ∀ c ∈ ds, IsDec c) (hne : ds ≠ [])
    (hrest : ¬ IsDec (rest.headD 0)) :
    strtoul (ds ++ rest) 10
      = if decimal ds > ULONG_MAX then ⟨ULONG_MAX, ds.length, true⟩
        else ⟨decimal ds, ds.length, false⟩ := by
  have h := scanSubject_literal [] ds rest (Or.inl rfl) hds hne hrest
  simp only [List.nil_append, List.length_nil, Nat.zero_add] at h
  simp [strtoul, h]

/-- The unsigned conversion of the default category (no length modifier) once
the tag is verified: line 411 tests `lRet`, which holds the width, so nothing
is rejected and the value is converted to `unsigned int`. -/
theorem conv_u_default_eq (base : Nat) (l : Int) (ut : Bool) (w : Nat)
    (pp input : List Nat) (a : Arg) (args : List Arg) (e : Bool)
    (htag : a.iType = DSTS_TYPE_UINT) (hl : l ≤ UINT_MAX) :
    conv_u base DSTS_TYPE_DEFAULT l ut w pp input a args e
      = if (!ut && (strtoul pp base).len == 0) = true then
          numericError input 0 (DSTS_PUT_VALUE a.pOutput (.int 0)) args
            (e || (strtoul pp base).erange)
        else
          ⟨DSTS_ERROR_SUCCESS, advance ut w pp (strtoul pp base).len,
            DSTS_PUT_VALUE a.pOutput (.int 0)
              ++ DSTS_PUT_VALUE a.pOutput (.int (wrapUnsigned 32 (strtoul pp base).val)),
            args, e || (strtoul pp base).erange⟩ := by
  have hl' : ¬ (l > UINT_MAX) := not_lt.mpr hl
  simp [conv_u, htag, eqHuge, hl', DSTS_TYPE_DEFAULT, DSTS_TYPE_UINT, DSTS_TYPE_UCHAR,
    DSTS_TYPE_USHORT, DSTS_TYPE_ULONG, DSTS_TYPE_ULLONG]

/-! ## The tag check -/

theorem convert_mismatch (strtof : Strtof) (c : Nat) (m : LengthMod) (l : Int) (ut : Bool)
    (w : Nat) (pp input : List Nat) (a : Arg) (args : List Arg) (e : Bool)
    (hc : IsConvLetter c) (h : a.iType ≠ expectedTag c m) :
    convert strtof c m.spType l ut w pp input a args e
      = ⟨DSTS_ERROR_INVALID_TYPE, 0, [], args, e⟩ := by
  rcases hc with rfl | rfl | rfl | rfl | rfl | rfl | rfl | rfl
  · rw [convert_f]
    have h' : a.iType ≠ DSTS_TYPE_FLOAT := by simpa [expectedTag] using h
    simp [conv_f, h']
  · rw [convert_d]
    have h' : a.iType ≠ signedTag m := by simpa [expectedTag] using h
    simp [conv_d, signedTag_eq, h']
  · rw [convert_i]
    have h' : a.iType ≠ signedTag m := by simpa [expectedTag] using h
    simp [conv_d, signedTag_eq, h']
  · rw [convert_u]
    have h' : a.iType ≠ unsignedTag m := by simpa [expectedTag] using h
    simp [conv_u, unsignedTag_eq, h']
  · rw [convert_x]
    have h' : a.iType ≠ unsignedTag m := by simpa [expectedTag] using h
    simp [conv_u, unsignedTag_eq, h']
  · rw [convert_X]
    have h' : a.iType ≠ unsignedTag m := by simpa [expectedTag] using h
    simp [conv_u, unsignedTag_eq, h']
  · rw [convert_c]
    have h' : a.iType ≠ DSTS_TYPE_CHAR := by simpa [expectedTag] using h
    simp [conv_c, h']
  · rw [convert_s]
    have h' : a.iType ≠ DSTS_TYPE_STRING := by simpa [expectedTag] using h
    simp [conv_s, h']

theorem conv_f_error (strtof : Strtof) (ut : Bool) (w : Nat) (pp input : List Nat) (a : Arg)
    (args : List Arg) (e : Bool) (h : a.iType = DSTS_TYPE_FLOAT) :
    (conv_f strtof ut w pp input a args e).error ≠ DSTS_ERROR_INVALID_TYPE := by
  simp only [conv_f, h, ne_eq, not_true_eq_false, if_false, numericError]
  split_ifs <;>
    simp [DSTS_ERROR_NUMERIC_CONVERSION, DSTS_ERROR_INVALID_TYPE, DSTS_ERROR_SUCCESS,
      DSTS_ERROR_BUFFER_TOO_SMALL]

theorem conv_d_error (base : Nat) (m : LengthMod) (l : Int) (ut : Bool) (w : Nat)
    (pp input : List Nat) (a : Arg) (args : List Arg) (e : Bool) (h : a.iType = signedTag m) :
    (conv_d base m.spType l ut w pp input a args e).error ≠ DSTS_ERROR_INVALID_TYPE := by
  rw [conv_d_eq base m l ut w pp input a args e h]
  simp only [numericError]
  split_ifs <;>
    simp [DSTS_ERROR_NUMERIC_CONVERSION, DSTS_ERROR_INVALID_TYPE, DSTS_ERROR_SUCCESS,
      DSTS_ERROR_BUFFER_TOO_SMALL]

theorem conv_u_error (base : Nat) (m : LengthMod) (l : Int) (ut : Bool) (w : Nat)
    (pp input : List Nat) (a : Arg) (args : List Arg) (e : Bool)
    (h : a.iType = unsignedTag m) :
    (conv_u base m.spType l ut w pp input a args e).error ≠ DSTS_ERROR_INVALID_TYPE := by
  simp only [conv_u, unsignedTag_eq, h, ne_eq, not_true_eq_false, if_false, numericError]
  split_ifs <;>
    simp [DSTS_ERROR_NUMERIC_CONVERSION, DSTS_ERROR_INVALID_TYPE, DSTS_ERROR_SUCCESS,
      DSTS_ERROR_BUFFER_TOO_SMALL]

theorem conv_s_error (ut : Bool) (w : Nat) (input : List Nat) (a : Arg)
    (args : List Arg) (e : Bool) (h : a.iType = DSTS_TYPE_STRING) :
    (conv_s ut w input a args e).error ≠ DSTS_ERROR_INVALID_TYPE := by
  simp only [conv_s, h, ne_eq, not_true_eq_false, if_false]
  split_ifs <;>
    simp [DSTS_ERROR_NUMERIC_CONVERSION, DSTS_ERROR_INVALID_TYPE, DSTS_ERROR_SUCCESS,
      DSTS_ERROR_BUFFER_TOO_SMALL]

theorem convert_match (strtof : Strtof) (c : Nat) (m : LengthMod) (l : Int) (ut : Bool)
    (w : Nat) (pp input : List Nat) (a : Arg) (args : List Arg) (e : Bool)
    (hc : IsConvLetter c) (h : a.iType = expectedTag c m) :
    (convert strtof c m.spType l ut w pp input a args e).error ≠ DSTS_ERROR_INVALID_TYPE := by
  rcases hc with rfl | rfl | rfl | rfl | rfl | rfl | rfl | rfl
  · rw [convert_f]; exact conv_f_error _ _ _ _ _ _ _ _ (by simpa [expectedTag] using h)
  · rw [convert_d]; exact conv_d_error _ _ _ _ _ _ _ _ _ _ (by simpa [expectedTag] using h)
  · rw [convert_i]; exact conv_d_error _ _ _ _ _ _ _ _ _ _ (by simpa [expectedTag] using h)
  · rw [convert_u]; exact conv_u_error _ _ _ _ _ _ _ _ _ _ (by simpa [expectedTag] using h)
  · rw [convert_x]; exact conv_u_error _ _ _ _ _ _ _ _ _ _ (by simpa [expectedTag] using h)
  · rw [convert_X]; exact conv_u_error _ _ _ _ _ _ _ _ _ _ (by simpa [expectedTag] using h)
  · rw [convert_c]
    have h' : a.iType = DSTS_TYPE_CHAR := by simpa [expectedTag] using h
    simp [conv_c, h', DSTS_ERROR_INVALID_TYPE, DSTS_ERROR_SUCCESS]
  · rw [convert_s]; exact conv_s_error _ _ _ _ _ _ (by simpa [expectedTag] using h)

theorem isConvLetter_bounds {c : Nat} (hc : IsConvLetter c) :
    58 ≤ c ∧ c ≠ 104 ∧ c ≠ 108 := by
  unfold IsConvLetter at hc
  omega

/-- The unsigned conversion once the tag is verified. -/
theorem conv_u_eq (base : Nat) (m : LengthMod) (l : Int) (ut : Bool) (w : Nat)
    (pp input : List Nat) (a : Arg) (args : List Arg) (e : Bool)
    (htag : a.iType = unsignedTag m) :
    conv_u base m.spType l ut w pp input a args e
      = if (!ut && (strtoul pp base).len == 0) = true then
          numericError input 0 (DSTS_PUT_VALUE a.pOutput (.int 0)) args
            (e || (strtoul pp base).erange)
        else if unsignedReject m l (strtoul pp base).val then
          numericError input (advance ut w pp (strtoul pp base).len)
            (DSTS_PUT_VALUE a.pOutput (.int 0)) args (e || (strtoul pp base).erange)
        else
          ⟨DSTS_ERROR_SUCCESS, advance ut w pp (strtoul pp base).len,
            DSTS_PUT_VALUE a.pOutput (.int 0)
              ++ DSTS_PUT_VALUE a.pOutput (.int (wrapUnsigned m.bits (strtoul pp base).val)),
            args, e || (strtoul pp base).erange⟩ := by
  cases m <;>
    simp [conv_u, LengthMod.spType, unsignedTag, unsignedReject, LengthMod.bits, htag,
      strtoull, eqHuge, DSTS_TYPE_DEFAULT, DSTS_TYPE_UINT, DSTS_TYPE_SHORT, DSTS_TYPE_USHORT,
      DSTS_TYPE_LONG, DSTS_TYPE_ULONG, DSTS_TYPE_LLONG, DSTS_TYPE_ULLONG, DSTS_TYPE_CHAR,
      DSTS_TYPE_UCHAR]

/-! ## Initialisation of the destination -/

theorem lengthModifier_spType (pFmt : List Nat) :
    ∃ m : LengthMod, (lengthModifier pFmt).1 = m.spType := by
  unfold lengthModifier
  split_ifs
  · exact ⟨.hh, rfl⟩
  · exact ⟨.h, rfl⟩
  · exact ⟨.ll, rfl⟩
  · exact ⟨.l, rfl⟩
  · exact ⟨.none, rfl⟩

theorem defaultOf_signedTag (m : LengthMod) : defaultOf (signedTag m) = .int 0 := by
  cases m <;> rfl

theorem defaultOf_unsignedTag (m : LengthMod) : defaultOf (unsignedTag m) = .int 0 := by
  cases m <;> rfl

theorem initialised_invalid (input : List Nat) (a : Arg) (args : List Arg) (e : Bool)
    (err : Int) (h1 : err ≠ DSTS_ERROR_NUMERIC_CONVERSION) (h2 : err ≠ DSTS_ERROR_SUCCESS) :
    Initialised input a ⟨err, 0, [], args, e⟩ :=
  ⟨fun _ => rfl, fun h => absurd h h1, fun h => absurd h h2⟩

theorem initialised_numericError (input : List Nat) (a : Arg) (cur : Nat) (args : List Arg)
    (e : Bool) (hp : a.pOutput ≠ 0) :
    Initialised input a
      (numericError input cur (DSTS_PUT_VALUE a.pOutput (defaultOf a.iType)) args e) := by
  refine ⟨?_, ?_, ?_⟩
  · simp [numericError, DSTS_ERROR_NUMERIC_CONVERSION, DSTS_ERROR_INVALID_TYPE,
      DSTS_ERROR_INVALID_FMT, DSTS_ERROR_BUFFER_TOO_SMALL]
  · simp [numericError, DSTS_PUT_VALUE, hp]
  · simp [numericError, DSTS_ERROR_NUMERIC_CONVERSION, DSTS_ERROR_SUCCESS]

theorem initialised_success (input : List Nat) (a : Arg) (cur : Nat) (v : Value)
    (args : List Arg) (e : Bool) (hp : a.pOutput ≠ 0) :
    Initialised input a
      ⟨DSTS_ERROR_SUCCESS, cur,
        DSTS_PUT_VALUE a.pOutput (defaultOf a.iType) ++ DSTS_PUT_VALUE a.pOutput v, args, e⟩ := by
  refine ⟨?_, ?_, ?_⟩
  · simp [DSTS_ERROR_SUCCESS, DSTS_ERROR_INVALID_TYPE, DSTS_ERROR_INVALID_FMT,
      DSTS_ERROR_BUFFER_TOO_SMALL]
  · simp [DSTS_ERROR_NUMERIC_CONVERSION, DSTS_ERROR_SUCCESS]
  · intro _ _
    left
    simp [DSTS_PUT_VALUE, hp]

theorem conv_f_initialised (strtof : Strtof) (ut : Bool) (w : Nat) (pp input : List Nat)
    (a : Arg) (args : List Arg) (e : Bool) (hp : a.pOutput ≠ 0) :
    Initialised input a (conv_f strtof ut w pp input a args e) := by
  by_cases ht : a.iType = DSTS_TYPE_FLOAT
  · have hd : Value.flt 0 = defaultOf a.iType := by simp [defaultOf, ht]
    simp only [conv_f, ht, ne_eq, not_true_eq_false, if_false]
    rw [hd]
    split_ifs
    · exact initialised_numericError input a _ args _ hp
    · exact initialised_numericError input a _ args _ hp
    · exact initialised_success input a _ _ args _ hp
  · simp only [conv_f, ht, ne_eq, not_false_eq_true, if_true]
    exact initialised_invalid input a args e _ (by decide) (by decide)

theorem conv_d_initialised (base : Nat) (m : LengthMod) (l : Int) (ut : Bool) (w : Nat)
    (pp input : List Nat) (a : Arg) (args : List Arg) (e : Bool) (hp : a.pOutput ≠ 0) :
    Initialised input a (conv_d base m.spType l ut w pp input a args e) := by
  by_cases ht : a.iType = signedTag m
  · have hd : Value.int 0 = defaultOf a.iType := by rw [ht, defaultOf_signedTag]
    rw [conv_d_eq base m l ut w pp input a args e ht, hd]
    split_ifs
    · exact initialised_numericError input a _ args _ hp
    · exact initialised_numericError input a _ args _ hp
    · exact initialised_success input a _ _ args _ hp
  · simp only [conv_d, signedTag_eq, ht, ne_eq, not_false_eq_true, if_true]
    exact initialised_invalid input a args e _ (by decide) (by decide)

theorem conv_u_initialised (base : Nat) (m : LengthMod) (l : Int) (ut : Bool) (w : Nat)
    (pp input : List Nat) (a : Arg) (args : List Arg) (e : Bool) (hp : a.pOutput ≠ 0) :
    Initialised input a (conv_u base m.spType l ut w pp input a args e) := by
  by_cases ht : a.iType = unsignedTag m
  · have hd : Value.int 0 = defaultOf a.iType := by rw [ht, defaultOf_unsignedTag]
    rw [conv_u_eq base m l ut w pp input a args e ht, hd]
    split_ifs
    · exact initialised_numericError input a _ args _ hp
    · exact initialised_numericError input a _ args _ hp
    · exact initialised_success input a _ _ args _ hp
  · simp only [conv_u, unsignedTag_eq, ht, ne_eq, not_false_eq_true, if_true]
    exact initialised_invalid input a args e _ (by decide) (by decide)

theorem conv_c_initialised (input : List Nat) (a : Arg) (args : List Arg) (e : Bool)
    (hp : a.pOutput ≠ 0) : Initialised input a (conv_c input a args e) := by
  by_cases ht : a.iType = DSTS_TYPE_CHAR
  · simp only [conv_c, ht, ne_eq, not_true_eq_false, if_false]
    refine ⟨?_, ?_, ?_⟩
    · simp [DSTS_ERROR_SUCCESS, DSTS_ERROR_INVALID_TYPE, DSTS_ERROR_INVALID_FMT,
        DSTS_ERROR_BUFFER_TOO_SMALL]
    · simp [DSTS_ERROR_NUMERIC_CONVERSION, DSTS_ERROR_SUCCESS]
    · intro _ _
      right; right
      simp [DSTS_PUT_VALUE, hp]
  · simp only [conv_c, ht, ne_eq, not_false_eq_true, if_true]
    exact initialised_invalid input a args e _ (by decide) (by decide)

theorem conv_s_initialised (ut : Bool) (w : Nat) (input : List Nat) (a : Arg)
    (args : List Arg) (e : Bool) (hp : a.pOutput ≠ 0) :
    Initialised input a (conv_s ut w input a args e) := by
  by_cases ht : a.iType = DSTS_TYPE_STRING
  · by_cases h1 : a.cbSize > DSTS_MAX_STRING_OUTPUT
    · simp only [conv_s, ht, ne_eq, not_true_eq_false, if_false, hp, h1, if_true]
      exact initialised_invalid input a args e _ (by decide) (by decide)
    · by_cases h2 : a.cbSize = 0
      · simp only [conv_s, ht, ne_eq, not_true_eq_false, if_false, hp, h1, h2]
        refine ⟨fun _ => rfl, ?_, ?_⟩
        · simp [DSTS_ERROR_NUMERIC_CONVERSION, DSTS_ERROR_SUCCESS]
        · intro _ hcap
          exact absurd h2 (hcap ht)
      · simp only [conv_s, ht, ne_eq, not_true_eq_false, if_false, hp, h1, h2,
          not_false_eq_true, if_true]
        refine ⟨?_, ?_, ?_⟩
        · simp [DSTS_ERROR_SUCCESS, DSTS_ERROR_INVALID_TYPE, DSTS_ERROR_INVALID_FMT,
            DSTS_ERROR_BUFFER_TOO_SMALL]
        · simp [DSTS_ERROR_NUMERIC_CONVERSION, DSTS_ERROR_SUCCESS]
        · intro _ _
          right; left
          simp
  · simp only [conv_s, ht, ne_eq, not_false_eq_true, if_true]
    exact initialised_invalid input a args e _ (by decide) (by decide)

theorem convert_initialised (strtof : Strtof) (c : Nat) (m : LengthMod) (l : Int) (ut : Bool)
    (w : Nat) (pp input : List Nat) (a : Arg) (args : List Arg) (e : Bool)
    (hp : a.pOutput ≠ 0) :
    Initialised input a (convert strtof c m.spType l ut w pp input a args e) := by
  unfold convert
  split_ifs
  · exact conv_f_initialised strtof ut w pp input a args e hp
  · exact conv_d_initialised _ m l ut w pp input a args e hp
  · exact conv_d_initialised _ m l ut w pp input a args e hp
  · exact conv_d_initialised _ m l ut w pp input a args e hp
  · exact conv_d_initialised _ m l ut w pp input a args e hp
  · exact conv_u_initialised _ m l ut w pp input a args e hp
  · exact conv_u_initialised _ m l ut w pp input a args e hp
  · exact conv_c_initialised input a args e hp
  · exact conv_s_initialised ut w input a args e hp
  · exact initialised_invalid input a args e _ (by decide) (by decide)

theorem parse_arg_initialised (strtof : Strtof) (e : Bool) (fmt input : List Nat) (a : Arg)
    (args : List Arg) (r : ParseResult) (hp : a.pOutput ≠ 0)
    (h : parse_arg strtof e fmt input (a :: args) = .ok r) : Initialised input a r := by
  unfold parse_arg at h
  simp only at h
  obtain ⟨m, hm⟩ := lengthModifier_spType (fmt.drop (strtol fmt 10).len)
  rw [hm] at h
  split_ifs at h
  · have h' := Outcome.ok.inj h
    subst h'
    exact initialised_invalid input a _ _ _ (by decide) (by decide)
  · have h' := Outcome.ok.inj h
    subst h'
    exact convert_initialised strtof _ m _ _ _ _ input a args _ hp
  · have h' := Outcome.ok.inj h
    subst h'
    exact convert_initialised strtof _ m _ _ _ _ input a args _ hp

/-! ## What a successful conversion stores first -/

theorem defaultFirst_invalid (a : Arg) (args : List Arg) (e : Bool) (err : Int)
    (h : err ≠ DSTS_ERROR_SUCCESS) : DefaultFirst a ⟨err, 0, [], args, e⟩ :=
  fun hs => absurd hs h

theorem defaultFirst_numericError (input : List Nat) (a : Arg) (cur : Nat)
    (stores : List Store) (args : List Arg) (e : Bool) :
    DefaultFirst a (numericError input cur stores args e) := by
  intro hs
  simp [numericError, DSTS_ERROR_NUMERIC_CONVERSION, DSTS_ERROR_SUCCESS] at hs

theorem defaultFirst_success (a : Arg) (cur : Nat) (v : Value) (args : List Arg) (e : Bool)
    (hp : a.pOutput ≠ 0) :
    DefaultFirst a
      ⟨DSTS_ERROR_SUCCESS, cur,
        DSTS_PUT_VALUE a.pOutput (defaultOf a.iType) ++ DSTS_PUT_VALUE a.pOutput v, args, e⟩ := by
  intro _
  simp [DSTS_PUT_VALUE, hp]

theorem conv_f_defaultFirst (strtof : Strtof) (ut : Bool) (w : Nat) (pp input : List Nat)
    (a : Arg) (args : List Arg) (e : Bool) (hp : a.pOutput ≠ 0) :
    DefaultFirst a (conv_f strtof ut w pp input a args e) := by
  by_cases ht : a.iType = DSTS_TYPE_FLOAT
  · have hd : Value.flt 0 = defaultOf a.iType := by simp [defaultOf, ht]
    simp only [conv_f, ht, ne_eq, not_true_eq_false, if_false]
    rw [hd]
    split_ifs
    · exact defaultFirst_numericError input a _ _ args _
    · exact defaultFirst_numericError input a _ _ args _
    · exact defaultFirst_success a _ _ args _ hp
  · simp only [conv_f, ht, ne_eq, not_false_eq_true, if_true]
    exact defaultFirst_invalid a args e _ (by decide)

theorem conv_d_defaultFirst (base : Nat) (m : LengthMod) (l : Int) (ut : Bool) (w : Nat)
    (pp input : List Nat) (a : Arg) (args : List Arg) (e : Bool) (hp : a.pOutput ≠ 0) :
    DefaultFirst a (conv_d base m.spType l ut w pp input a args e) := by
  by_cases ht : a.iType = signedTag m
  · have hd : Value.int 0 = defaultOf a.iType := by rw [ht, defaultOf_signedTag]
    rw [conv_d_eq base m l ut w pp input a args e ht, hd]
    split_ifs
    · exact defaultFirst_numericError input a _ _ args _
    · exact defaultFirst_numericError input a _ _ args _
    · exact defaultFirst_success a _ _ args _ hp
  · simp only [conv_d, signedTag_eq, ht, ne_eq, not_false_eq_true, if_true]
    exact defaultFirst_invalid a args e _ (by decide)

theorem conv_u_defaultFirst (base : Nat) (m : LengthMod) (l : Int) (ut : Bool) (w : Nat)
    (pp input : List Nat) (a : Arg) (args : List Arg) (e : Bool) (hp : a.pOutput ≠ 0) :
    DefaultFirst a (conv_u base m.spType l ut w pp input a args e) := by
  by_cases ht : a.iType = unsignedTag m
  · have hd : Value.int 0 = defaultOf a.iType := by rw [ht, defaultOf_unsignedTag]
    rw [conv_u_eq base m l ut w pp input a args e ht, hd]
    split_ifs
    · exact defaultFirst_numericError input a _ _ args _
    · exact defaultFirst_numericError input a _ _ args _
    · exact defaultFirst_success a _ _ args _ hp
  · simp only [conv_u, unsignedTag_eq, ht, ne_eq, not_false_eq_true, if_true]
    exact defaultFirst_invalid a args e _ (by decide)

/-- What a conversion that ends with Success has stored, by its letter: the
input byte alone for `c`, the zero fill first for `s`, the default first for
every other letter. -/
theorem convert_success_stores (strtof : Strtof) (c : Nat) (m : LengthMod) (l : Int)
    (ut : Bool) (w : Nat) (pp input : List Nat) (a : Arg) (args : List Arg) (e : Bool)
    (hp : a.pOutput ≠ 0)
    (hs : (convert strtof c m.spType l ut w pp input a args e).error = DSTS_ERROR_SUCCESS) :
    (c = 99 → (convert strtof c m.spType l ut w pp input a args e).stores
        = [Store.obj a.pOutput (.int (wrapSigned 8 (input.headD 0)))])
    ∧ (c = 115 → a.cbSize ≠ 0 →
        (convert strtof c m.spType l ut w pp input a args e).stores.head?
          = some (Store.fill a.pOutput a.cbSize))
    ∧ (c ≠ 99 → c ≠ 115 →
        (convert strtof c m.spType l ut w pp input a args e).stores.head?
          = some (Store.obj a.pOutput (defaultOf a.iType))) := by
  refine ⟨?_, ?_, ?_⟩
  · intro hc
    subst hc
    rw [convert_c] at hs ⊢
    by_cases ht : a.iType = DSTS_TYPE_CHAR
    · simp [conv_c, ht, DSTS_PUT_VALUE, hp]
    · simp [conv_c, ht, DSTS_ERROR_INVALID_TYPE, DSTS_ERROR_SUCCESS] at hs
  · intro hc hcap
    subst hc
    rw [convert_s] at hs ⊢
    by_cases ht : a.iType = DSTS_TYPE_STRING
    · by_cases h1 : a.cbSize > DSTS_MAX_STRING_OUTPUT
      · simp [conv_s, ht, hp, h1, DSTS_ERROR_BUFFER_TOO_SMALL, DSTS_ERROR_SUCCESS] at hs
      · simp [conv_s, ht, hp, h1, hcap]
    · simp [conv_s, ht, DSTS_ERROR_INVALID_TYPE, DSTS_ERROR_SUCCESS] at hs
  · intro h99 h115
    have hd : DefaultFirst a (convert strtof c m.spType l ut w pp input a args e) := by
      unfold convert
      split_ifs
      · exact conv_f_defaultFirst strtof ut w pp input a args e hp
      · exact conv_d_defaultFirst _ m l ut w pp input a args e hp
      · exact conv_d_defaultFirst _ m l ut w pp input a args e hp
      · exact conv_d_defaultFirst _ m l ut w pp input a args e hp
      · exact conv_d_defaultFirst _ m l ut w pp input a args e hp
      · exact conv_u_defaultFirst _ m l ut w pp input a args e hp
      · exact conv_u_defaultFirst _ m l ut w pp input a args e hp
      · exact defaultFirst_invalid a args e _ (by decide)
    exact hd hs

theorem parse_arg_success_stores (strtof : Strtof) (e : Bool) (fmt input : List Nat)
    (a : Arg) (args : List Arg) (r : ParseResult) (hp : a.pOutput ≠ 0)
    (h : parse_arg strtof e fmt input (a :: args) = .ok r)
    (hs : r.error = DSTS_ERROR_SUCCESS) :
    (letterOf fmt = 99 →
        r.stores = [Store.obj a.pOutput (.int (wrapSigned 8 (input.headD 0)))])
    ∧ (letterOf fmt = 115 → a.cbSize ≠ 0 →
        r.stores.head? = some (Store.fill a.pOutput a.cbSize))
    ∧ (letterOf fmt ≠ 99 → letterOf fmt ≠ 115 →
        r.stores.head? = some (Store.obj a.pOutput (defaultOf a.iType))) := by
  unfold parse_arg at h
  simp only at h
  obtain ⟨m, hm⟩ := lengthModifier_spType (fmt.drop (strtol fmt 10).len)
  rw [hm] at h
  split_ifs at h
  · have h' := Outcome.ok.inj h
    subst h'
    simp [DSTS_ERROR_INVALID_FMT, DSTS_ERROR_SUCCESS] at hs
  · have h' := Outcome.ok.inj h
    subst h'
    exact convert_success_stores strtof _ m _ _ _ _ input a args _ hp hs
  · have h' := Outcome.ok.inj h
    subst h'
    exact convert_success_stores strtof _ m _ _ _ _ input a args _ hp hs

/-- A letter the switch has no case for ends the conversion with InvalidFormat
and nothing stored. -/
theorem convert_unknown (strtof : Strtof) (c sp : Nat) (l : Int) (ut : Bool) (w : Nat)
    (pp input : List Nat) (a : Arg) (args : List Arg) (e : Bool) (hc : ¬ IsConvLetter c) :
    convert strtof c sp l ut w pp input a args e
      = ⟨DSTS_ERROR_INVALID_FMT, 0, [], args, e⟩ := by
  simp only [IsConvLetter, not_or] at hc
  obtain ⟨h1, h2, h3, h4, h5, h6, h7, h8⟩ := hc
  simp [convert, h1, h2, h3, h4, h5, h6, h7, h8]

/-! ## The claims -/

/-- C1 (the code differs): a `%c` conversion with a `Char` destination stores
the first input byte and reports success, but it returns the input cursor it
was given, so the driver takes the conversion for a failed match: the scan
stops there with status Success and the conversion is not counted.  Scanning
"a,b" with "%c,%c" and two `Char` destinations returns match count 0 with
x = 'a' and y never written. -/
theorem C1_percent_c_leaves_cursor (strtof : Strtof) (e : Bool) :
    (∀ (c : Nat) (cs rest : List Nat) (p n : Nat) (args : List Arg),
      parse_arg strtof e (99 :: rest) (c :: cs) (⟨DSTS_TYPE_CHAR, p, n⟩ :: args)
        = .ok ⟨DSTS_ERROR_SUCCESS, 0, DSTS_PUT_VALUE p (.int (wrapSigned 8 c)), args, e⟩)
    ∧ (∀ (fuel ret c : Nat) (cs rest : List Nat) (p n : Nat) (args : List Arg)
        (stores : List Store), c ≠ 0 →
      scanLoop strtof (fuel + 1) e ret (37 :: 99 :: rest) (c :: cs)
          (⟨DSTS_TYPE_CHAR, p, n⟩ :: args) stores
        = .ok ⟨ret, DSTS_ERROR_SUCCESS, stores ++ DSTS_PUT_VALUE p (.int (wrapSigned 8 c))⟩)
    ∧ dsts_secure_sscanf strtof e (bytes "a,b") (bytes "%c,%c")
          [⟨DSTS_TYPE_CHAR, 1, 0⟩, ⟨DSTS_TYPE_CHAR, 2, 0⟩]
        = .ok ⟨0, DSTS_ERROR_SUCCESS, [Store.obj 1 (.int 97)]⟩ := by
  have h1 : ∀ (c : Nat) (cs rest : List Nat) (p n : Nat) (args : List Arg),
      parse_arg strtof e (99 :: rest) (c :: cs) (⟨DSTS_TYPE_CHAR, p, n⟩ :: args)
        = .ok ⟨DSTS_ERROR_SUCCESS, 0, DSTS_PUT_VALUE p (.int (wrapSigned 8 c)), args, e⟩ := by
    intro c cs rest p n args
    have h := parse_arg_plain strtof e [] 99 rest (c :: cs) ⟨DSTS_TYPE_CHAR, p, n⟩ args
      (by simp) (by decide) (by decide) (by decide) (by decide)
    simp only [List.nil_append] at h
    rw [h, convert_c]
    simp [conv_c]
  refine ⟨h1, ?_, rfl⟩
  intro fuel ret c cs rest p n args stores hc
  simp [scanLoop, hc, h1, DSTS_ERROR_SUCCESS]

/-- C2: a `%s` conversion with a `String` tag, a non-null destination of
capacity `cap`, `1 ≤ cap ≤ 16384`, and a width below 16384 written by the
digits `ds` (no digits: no width) succeeds and leaves in the destination the
first `min(|token|, cap - 1, width if given)` bytes of the token at the cursor,
every other byte of the `cap` bytes being NUL; so the payload is at most
`cap - 1` bytes and the buffer ends in a NUL.  Scanning "hello world" with
"%3s" and capacity 16 gives match count 1, status Success and "hel". -/
theorem C2_string_destination (strtof : Strtof) (e : Bool) (ds rest input : List Nat)
    (p cap : Nat) (args : List Arg)
    (hds : ∀ d ∈ ds, IsDec d) (hw : decimal ds < DSTS_MAX_STRING_OUTPUT) (hp : p ≠ 0)
    (hcap1 : 1 ≤ cap) (hcap : cap ≤ DSTS_MAX_STRING_OUTPUT) :
    (∃ r, parse_arg strtof e (ds ++ 115 :: rest) input (⟨DSTS_TYPE_STRING, p, cap⟩ :: args)
          = .ok r
      ∧ r.error = DSTS_ERROR_SUCCESS
      ∧ bufferAfter p r.stores
          = some ((tokenOf input).take
                (copyCount (decide (decimal ds > 0)) (decimal ds) (cap - 1)
                  (tokenOf input).length)
              ++ List.replicate
                (cap - copyCount (decide (decimal ds > 0)) (decimal ds) (cap - 1)
                  (tokenOf input).length) 0)
      ∧ copyCount (decide (decimal ds > 0)) (decimal ds) (cap - 1) (tokenOf input).length
          ≤ cap - 1)
    ∧ ∃ st, dsts_secure_sscanf strtof e (bytes "hello world") (bytes "%3s")
          [⟨DSTS_TYPE_STRING, 1, 16⟩] = .ok ⟨1, DSTS_ERROR_SUCCESS, st⟩
        ∧ bufferAfter 1 st = some (bytes "hel" ++ List.replicate 13 0) := by
  refine ⟨?_, ⟨_, rfl, rfl⟩⟩
  have h := parse_arg_plain strtof e ds 115 rest input ⟨DSTS_TYPE_STRING, p, cap⟩ args
    hds hw (by decide) (by decide) (by decide)
  have hcap' : ¬ (cap > DSTS_MAX_STRING_OUTPUT) := by omega
  have hcap0 : cap ≠ 0 := by omega
  have hle : copyCount (decide (decimal ds > 0)) (decimal ds) (cap - 1) (tokenOf input).length
      ≤ cap - 1 := by
    unfold copyCount; split <;> omega
  refine ⟨_, h, ?_, ?_, hle⟩
  · rw [convert_s]
    simp [conv_s, hp, hcap', hcap0]
  · rw [convert_s]
    simp only [conv_s, ne_eq, not_true_eq_false, if_false, hp, hcap', hcap0, not_false_eq_true,
      if_true, copyLoop_eq, bufferAfter, List.foldl_cons, applyStore]
    have hf := foldl_byteStores p ((tokenOf input).take
      (copyCount (decide (decimal ds > 0)) (decimal ds) (cap - 1) (tokenOf input).length)) [] cap
      (by rw [List.length_take]; omega)
    simp only [List.length_nil, List.nil_append] at hf
    rw [hf, List.length_take]
    congr 3
    unfold copyCount
    split <;> omega

/-- C2 at the input "hello world", no width, capacity 4. -/
theorem C2_string_destination_witness :
    ∃ r, parse_arg (fun _ => ⟨0, 0, false⟩) false (bytes "s") (bytes "hello world")
          [⟨DSTS_TYPE_STRING, 1, 4⟩] = .ok r
      ∧ r.error = DSTS_ERROR_SUCCESS
      ∧ bufferAfter 1 r.stores = some (bytes "hel" ++ [0]) := by
  obtain ⟨r, h1, h2, h3, _⟩ :=
    (C2_string_destination (fun _ => ⟨0, 0, false⟩) false [] [] (bytes "hello world") 1 4 []
      (by simp) (by decide) (by decide) (by decide) (by decide)).1
  exact ⟨r, h1, h2, h3⟩

/-- C3: for every `%d` or `%i` directive, with any length modifier, without a
width or with a width the scratch copy holds (below 16384), with the matching
tag and a non-null destination, reached on non-empty input: if the field at
the cursor (the input cut to the width when there is one) has no parseable
integer, the scan returns status NumericConversionError with the match count
of the conversions before it, and the only store to the destination is its
default 0.
Scanning "abc" with "%d" returns 0, NumericConversionError, i = 0. -/
theorem C3_signed_no_digits (strtof : Strtof) (e : Bool) (fuel ret : Nat) (ds : List Nat)
    (m : LengthMod) (c : Nat) (rest input : List Nat) (a : Arg) (args : List Arg)
    (stores : List Store)
    (hds : ∀ d ∈ ds, IsDec d) (hw : decimal ds < DSTS_MAX_STRING_OUTPUT)
    (hc : c = 100 ∨ c = 105) (htag : a.iType = signedTag m) (hp : a.pOutput ≠ 0)
    (hin : input.headD 0 ≠ 0) (hno : NoDigits (field (decimal ds) input)) :
    scanLoop strtof (fuel + 1) e ret (37 :: (ds ++ (m.text ++ c :: rest))) input (a :: args)
        stores
      = .ok ⟨ret, DSTS_ERROR_NUMERIC_CONVERSION, stores ++ [Store.obj a.pOutput (.int 0)]⟩
    ∧ dsts_secure_sscanf strtof e (bytes "abc") (bytes "%d") [⟨DSTS_TYPE_INT, 1, 0⟩]
      = .ok ⟨0, DSTS_ERROR_NUMERIC_CONVERSION, [Store.obj 1 (.int 0)]⟩ := by
  refine ⟨?_, rfl⟩
  have hpa : parse_arg strtof e (ds ++ (m.text ++ c :: rest)) input (a :: args)
      = .ok (numericError input 0 (DSTS_PUT_VALUE a.pOutput (.int 0)) args e) := by
    rcases hc with rfl | rfl
    · rw [parse_arg_directive strtof e ds m 100 rest input a args hds hw (by decide)
        (by decide) (by decide), convert_d, conv_d_noDigits m _ _ _ _ _ a args e htag hno]
    · rw [parse_arg_directive strtof e ds m 105 rest input a args hds hw (by decide)
        (by decide) (by decide), convert_i]
      have h48 : ¬ (input.headD 0 = 48) := fun h =>
        not_noDigits_of_zero _ (field_headD _ input 48 (by decide) h) hno
      rw [if_neg h48, conv_d_noDigits m _ _ _ _ _ a args e htag hno]
  rw [scanLoop_percent strtof fuel e ret _ input (a :: args) stores hin, hpa]
  simp [numericError, DSTS_PUT_VALUE, hp, DSTS_ERROR_NUMERIC_CONVERSION, DSTS_ERROR_SUCCESS]

/-- C3 at "abc" against "%2hd" with a `Short` destination. -/
theorem C3_signed_no_digits_witness :
    scanLoop noFloat 4 false 0 (bytes "%2hd") (bytes "abc") [⟨DSTS_TYPE_SHORT, 1, 0⟩] []
      = .ok ⟨0, DSTS_ERROR_NUMERIC_CONVERSION, [Store.obj 1 (.int 0)]⟩ :=
  (C3_signed_no_digits noFloat false 3 0 [50] .h 100 [] (bytes "abc") ⟨DSTS_TYPE_SHORT, 1, 0⟩ []
    [] (by decide) (by decide) (by decide) rfl (by decide) (by decide) (by decide)).1

/-- C4 (the code differs): a `%u` directive with a width, `0 < width < 16384`,
any length modifier, the matching unsigned tag and a non-null destination, on
a field without digits: line 356 compares `pEnd` with `pCurrent` where the
signed branch compares it with `pParse`, so the missing digits go unnoticed;
the directive stores 0 as if it were the value and reports Success with the
cursor where it was, and the driver stops the scan with status Success.
Without a width the same directive is NumericConversionError, as claimed. -/
theorem C4_unsigned_no_digits (strtof : Strtof) (e : Bool) (fuel ret : Nat) (ds : List Nat)
    (m : LengthMod) (rest input : List Nat) (a : Arg) (args : List Arg)
    (stores : List Store)
    (hds : ∀ d ∈ ds, IsDec d) (hw : decimal ds < DSTS_MAX_STRING_OUTPUT)
    (htag : a.iType = unsignedTag m) (hp : a.pOutput ≠ 0)
    (hin : input.headD 0 ≠ 0) (hno : NoDigits (field (decimal ds) input)) :
    (0 < decimal ds →
      scanLoop strtof (fuel + 1) e ret (37 :: (ds ++ (m.text ++ 117 :: rest))) input
          (a :: args) stores
        = .ok ⟨ret, DSTS_ERROR_SUCCESS,
            stores ++ [Store.obj a.pOutput (.int 0), Store.obj a.pOutput (.int 0)]⟩)
    ∧ (decimal ds = 0 →
      scanLoop strtof (fuel + 1) e ret (37 :: (ds ++ (m.text ++ 117 :: rest))) input
          (a :: args) stores
        = .ok ⟨ret, DSTS_ERROR_NUMERIC_CONVERSION, stores ++ [Store.obj a.pOutput (.int 0)]⟩) := by
  have hpa := parse_arg_directive strtof e ds m 117 rest input a args hds hw (by decide)
    (by decide) (by decide)
  have hw' : decimal ds < 16384 := hw
  have hl : (decimal ds : Int) ≤ UINT_MAX := by unfold UINT_MAX; push_cast; omega
  constructor
  · intro h0
    have hd : decide (decimal ds > 0) = true := by simpa using h0
    rw [scanLoop_percent strtof fuel e ret _ input (a :: args) stores hin, hpa, convert_u, hd,
      conv_u_noDigits_width m _ _ _ input a args e htag hl hno]
    simp [DSTS_PUT_VALUE, hp]
  · intro h0
    have hd : decide (decimal ds > 0) = false := by simp [h0]
    rw [scanLoop_percent strtof fuel e ret _ input (a :: args) stores hin, hpa, convert_u, hd,
      conv_u_noDigits_plain m _ _ _ input a args e htag hno]
    simp [numericError, DSTS_PUT_VALUE, hp, DSTS_ERROR_NUMERIC_CONVERSION, DSTS_ERROR_SUCCESS]

/-- C4 at "abc" against "%3u" with a `UInt` destination: status Success. -/
theorem C4_unsigned_no_digits_witness :
    dsts_secure_sscanf noFloat false (bytes "abc") (bytes "%3u") [⟨DSTS_TYPE_UINT, 1, 0⟩]
      = .ok ⟨0, DSTS_ERROR_SUCCESS, [Store.obj 1 (.int 0), Store.obj 1 (.int 0)]⟩ :=
  (C4_unsigned_no_digits noFloat false 2 0 [51] .none [] (bytes "abc") ⟨DSTS_TYPE_UINT, 1, 0⟩ []
    [] (by decide) (by decide) rfl (by decide) (by decide) (by decide)).1 (by decide)

/-- C5: a `%d` directive of category `Char` (`hh`), `Short` (`h`) or `Int`
(no modifier), without a width, with the matching tag and a non-null
destination, on an input that begins with a decimal literal (sign text `sg`,
digits `ds`, any number of them) of value `v`: if `v` is above the maximum of
the category the scan returns NumericConversionError, the destination holds 0
and the directive is not counted; if `v` is within the range of the category
the destination receives `v`, the directive is counted and the scan goes on
after the literal with status Success so far.  Scanning "99999999999999" with
"%hd" returns 0, NumericConversionError, s = 0. -/
theorem C5_signed_range (strtof : Strtof) (e : Bool) (fuel ret : Nat) (m : LengthMod)
    (sg ds rest fmtRest : List Nat) (p sz : Nat) (args : List Arg) (stores : List Store)
    (hm : m = .hh ∨ m = .h ∨ m = .none) (hsg : sg = [] ∨ sg = [43] ∨ sg = [45])
    (hds : ∀ c ∈ ds, IsDec c) (hne : ds ≠ []) (hrest : ¬ IsDec (rest.headD 0))
    (hp : p ≠ 0) :
    (literalValue sg ds > signedMax m →
      scanLoop strtof (fuel + 1) e ret (37 :: (m.text ++ 100 :: fmtRest)) (sg ++ ds ++ rest)
          (⟨signedTag m, p, sz⟩ :: args) stores
        = .ok ⟨ret, DSTS_ERROR_NUMERIC_CONVERSION, stores ++ [Store.obj p (.int 0)]⟩)
    ∧ (signedMin m ≤ literalValue sg ds → literalValue sg ds ≤ signedMax m →
      parse_arg strtof e (m.text ++ 100 :: fmtRest) (sg ++ ds ++ rest)
          (⟨signedTag m, p, sz⟩ :: args)
        = .ok ⟨DSTS_ERROR_SUCCESS, sg.length + ds.length,
            [Store.obj p (.int 0), Store.obj p (.int (literalValue sg ds))], args, e⟩
      ∧ scanLoop strtof (fuel + 1) e ret (37 :: (m.text ++ 100 :: fmtRest)) (sg ++ ds ++ rest)
          (⟨signedTag m, p, sz⟩ :: args) stores
        = scanLoop strtof fuel e (ret + 1) fmtRest rest args
            (stores ++ [Store.obj p (.int 0), Store.obj p (.int (literalValue sg ds))]))
    ∧ dsts_secure_sscanf strtof e (bytes "99999999999999") (bytes "%hd")
          [⟨DSTS_TYPE_SHORT, 1, 0⟩]
        = .ok ⟨0, DSTS_ERROR_NUMERIC_CONVERSION, [Store.obj 1 (.int 0)]⟩ := by
  have hin := literal_headD sg ds rest hsg hds hne
  have hpa := parse_arg_nowidth strtof e m 100 fmtRest (sg ++ ds ++ rest) ⟨signedTag m, p, sz⟩
    args (by decide) (by decide) (by decide)
  have hlen : ¬ (sg.length + ds.length = 0) := by
    have : ds.length ≠ 0 := by simpa using hne
    omega
  have hmax : signedMax m < LONG_MAX := by
    rcases hm with rfl | rfl | rfl <;> decide
  have hmin : LONG_MIN < signedMin m := by
    rcases hm with rfl | rfl | rfl <;> decide
  have hsl := strtol_literal sg ds rest hsg hds hne hrest
  refine ⟨?_, ?_, rfl⟩
  · intro hv
    rw [scanLoop_percent strtof fuel e ret _ _ _ stores hin, hpa, convert_d,
      conv_d_eq 10 m _ _ _ _ _ _ args e rfl, hsl]
    by_cases hbig : literalValue sg ds > LONG_MAX
    · simp [hbig, hlen, hmax, numericError, DSTS_PUT_VALUE, hp, DSTS_ERROR_NUMERIC_CONVERSION,
        DSTS_ERROR_SUCCESS]
    · have hsmall : ¬ (literalValue sg ds < LONG_MIN) := by
        have : signedMax m ≥ 0 := by rcases hm with rfl | rfl | rfl <;> decide
        have : LONG_MIN < 0 := by decide
        omega
      simp [hbig, hsmall, hlen, hv, numericError, DSTS_PUT_VALUE, hp,
        DSTS_ERROR_NUMERIC_CONVERSION, DSTS_ERROR_SUCCESS]
  · intro hlo hhi
    have hbig : ¬ (literalValue sg ds > LONG_MAX) := by omega
    have hsmall : ¬ (literalValue sg ds < LONG_MIN) := by omega
    have hhi' : ¬ (literalValue sg ds > signedMax m) := by omega
    constructor
    · rw [hpa, convert_d, conv_d_eq 10 m _ _ _ _ _ _ args e rfl, hsl]
      simp only [hbig, hsmall, if_false, hlen, hhi', advance, Bool.false_eq_true,
        wrapSigned_of_range m _ hlo hhi, Bool.or_false, DSTS_PUT_VALUE, hp,
        List.singleton_append]
    rw [scanLoop_percent strtof fuel e ret _ _ _ stores hin, hpa, convert_d,
      conv_d_eq 10 m _ _ _ _ _ _ args e rfl, hsl]
    simp only [hbig, hsmall, if_false, hlen, hhi', advance, Bool.false_eq_true,
      wrapSigned_of_range m _ hlo hhi, ne_eq, not_true_eq_false, Bool.or_false,
      specRun_modifier m 100 fmtRest (by decide) (by decide) (by decide), List.drop_left,
      List.drop_succ_cons, List.drop_zero, literal_drop,
      headD_modifier_ne m 100 fmtRest (by decide), not_false_eq_true, if_true,
      DSTS_PUT_VALUE, hp, List.singleton_append]

/-- C5 at "99999999999999" against "%hd" with a `Short` destination. -/
theorem C5_signed_range_witness :
    scanLoop noFloat 3 false 0 (bytes "%hd") (bytes "99999999999999")
        [⟨DSTS_TYPE_SHORT, 1, 0⟩] []
      = .ok ⟨0, DSTS_ERROR_NUMERIC_CONVERSION, [Store.obj 1 (.int 0)]⟩ :=
  (C5_signed_range noFloat false 2 0 .h [] (bytes "99999999999999") [] [] 1 0 [] []
    (by decide) (by decide) (by decide) (by decide) (by decide) (by decide)).1 (by decide)

/-- C6 (the code differs): a `%d` directive of category `Long` (`l`) or `LLong`
(`ll`), without a width, with the matching tag and a non-null destination, on
a decimal literal above `LONG_MAX`: `strtol` saturates at `LONG_MAX` and sets
`errno`, the test of line 263 compares the value with `HUGE_VAL` and never
holds, and `lRet > LONG_MAX` cannot hold either; the directive stores
`LONG_MAX`, reports Success and is counted.  "9223372036854775808" against
"%ld" returns 1 with status Success and the destination 9223372036854775807. -/
theorem C6_long_overflow_succeeds (strtof : Strtof) (e : Bool) (fuel ret : Nat)
    (m : LengthMod) (sg ds rest fmtRest : List Nat) (p sz : Nat) (args : List Arg)
    (stores : List Store)
    (hm : m = .l ∨ m = .ll) (hsg : sg = [] ∨ sg = [43] ∨ sg = [45])
    (hds : ∀ c ∈ ds, IsDec c) (hne : ds ≠ []) (hrest : ¬ IsDec (rest.headD 0))
    (hp : p ≠ 0) (hv : literalValue sg ds > LONG_MAX) :
    parse_arg strtof e (m.text ++ 100 :: fmtRest) (sg ++ ds ++ rest)
        (⟨signedTag m, p, sz⟩ :: args)
      = .ok ⟨DSTS_ERROR_SUCCESS, sg.length + ds.length,
          [Store.obj p (.int 0), Store.obj p (.int LONG_MAX)], args, true⟩
    ∧ scanLoop strtof (fuel + 1) e ret (37 :: (m.text ++ 100 :: fmtRest)) (sg ++ ds ++ rest)
        (⟨signedTag m, p, sz⟩ :: args) stores
      = scanLoop strtof fuel true (ret + 1) fmtRest rest args
          (stores ++ [Store.obj p (.int 0), Store.obj p (.int LONG_MAX)])
    ∧ dsts_secure_sscanf strtof e (bytes "9223372036854775808") (bytes "%ld")
        [⟨DSTS_TYPE_LONG, 1, 0⟩]
      = .ok ⟨1, DSTS_ERROR_SUCCESS,
          [Store.obj 1 (.int 0), Store.obj 1 (.int 9223372036854775807)]⟩ := by
  have hin := literal_headD sg ds rest hsg hds hne
  have hpa := parse_arg_nowidth strtof e m 100 fmtRest (sg ++ ds ++ rest) ⟨signedTag m, p, sz⟩
    args (by decide) (by decide) (by decide)
  have hlen : ¬ (sg.length + ds.length = 0) := by
    have : ds.length ≠ 0 := by simpa using hne
    omega
  have hmax : ¬ (LONG_MAX > signedMax m) := by
    rcases hm with rfl | rfl <;> decide
  have hwrap : wrapSigned m.bits LONG_MAX = LONG_MAX := by
    rcases hm with rfl | rfl <;> decide
  have hsl := strtol_literal sg ds rest hsg hds hne hrest
  rw [if_pos hv] at hsl
  have hconv : conv_d 10 m.spType 0 false 0 (sg ++ ds ++ rest) (sg ++ ds ++ rest)
      ⟨signedTag m, p, sz⟩ args e
      = ⟨DSTS_ERROR_SUCCESS, sg.length + ds.length,
          [Store.obj p (.int 0), Store.obj p (.int LONG_MAX)], args, true⟩ := by
    rw [conv_d_eq 10 m _ _ _ _ _ _ args e rfl, hsl]
    simp only [hlen, if_false, hmax, advance, Bool.false_eq_true, hwrap, Bool.or_true,
      DSTS_PUT_VALUE, hp, List.singleton_append]
  refine ⟨?_, ?_, rfl⟩
  · rw [hpa, convert_d, hconv]
  · rw [scanLoop_percent strtof fuel e ret _ _ _ stores hin, hpa, convert_d, hconv]
    simp only [ne_eq, not_true_eq_false, if_false, hlen,
      specRun_modifier m 100 fmtRest (by decide) (by decide) (by decide), List.drop_left,
      List.drop_succ_cons, List.drop_zero, literal_drop,
      headD_modifier_ne m 100 fmtRest (by decide), not_false_eq_true, if_true]

/-- C6 at "9223372036854775808" against "%ld" with a `Long` destination. -/
theorem C6_long_overflow_succeeds_witness :
    parse_arg noFloat false (bytes "ld") (bytes "9223372036854775808")
        [⟨DSTS_TYPE_LONG, 1, 0⟩]
      = .ok ⟨DSTS_ERROR_SUCCESS, 19,
          [Store.obj 1 (.int 0), Store.obj 1 (.int 9223372036854775807)], [], true⟩ :=
  (C6_long_overflow_succeeds noFloat false 0 0 .l [] (bytes "9223372036854775808") [] [] 1 0 []
    [] (by decide) (by decide) (by decide) (by decide) (by decide) (by decide) (by decide)).1

/-- C7 (the code differs): a `%u` directive without length modifier and without
a width, with a `UInt` tag and a non-null destination, on a string of decimal
digits of value `v`: the range test of this category (line 411) reads `lRet`,
the width, where the value is in `ulRet`, so no value is rejected; the
directive stores `min(v, ULONG_MAX)` reduced modulo 2^32, reports Success and
is counted.  "4294967296" against "%u" returns 1 with status Success and the
destination 0; "18446744073709551616" against "%lu" returns 1 with status
Success and the destination `ULONG_MAX`. -/
theorem C7_unsigned_overflow_succeeds (strtof : Strtof) (e : Bool) (fuel ret : Nat)
    (ds rest fmtRest : List Nat) (p sz : Nat) (args : List Arg) (stores : List Store)
    (hds : ∀ c ∈ ds, IsDec c) (hne : ds ≠ []) (hrest : ¬ IsDec (rest.headD 0))
    (hp : p ≠ 0) :
    scanLoop strtof (fuel + 1) e ret (37 :: 117 :: fmtRest) (ds ++ rest)
        (⟨DSTS_TYPE_UINT, p, sz⟩ :: args) stores
      = scanLoop strtof fuel (e || decide (decimal ds > ULONG_MAX)) (ret + 1) fmtRest rest args
          (stores ++ [Store.obj p (.int 0),
            Store.obj p (.int (((min (decimal ds) ULONG_MAX : Nat) : Int) % 2 ^ 32))])
    ∧ dsts_secure_sscanf strtof e (bytes "4294967296") (bytes "%u") [⟨DSTS_TYPE_UINT, 1, 0⟩]
      = .ok ⟨1, DSTS_ERROR_SUCCESS, [Store.obj 1 (.int 0), Store.obj 1 (.int 0)]⟩
    ∧ dsts_secure_sscanf strtof e (bytes "18446744073709551616") (bytes "%lu")
        [⟨DSTS_TYPE_ULONG, 1, 0⟩]
      = .ok ⟨1, DSTS_ERROR_SUCCESS,
          [Store.obj 1 (.int 0), Store.obj 1 (.int 18446744073709551615)]⟩ := by
  refine ⟨?_, rfl, rfl⟩
  have hin := literal_headD [] ds rest (Or.inl rfl) hds hne
  simp only [List.nil_append] at hin
  have hpa := parse_arg_nowidth strtof e .none 117 fmtRest (ds ++ rest) ⟨DSTS_TYPE_UINT, p, sz⟩
    args (by decide) (by decide) (by decide)
  simp only [LengthMod.text, List.nil_append, LengthMod.spType] at hpa
  have hlen : ds.length ≠ 0 := by simpa using hne
  have hsu := strtoul_digits ds rest hds hne hrest
  rw [scanLoop_percent strtof fuel e ret _ _ _ stores hin, hpa, convert_u,
    conv_u_default_eq 10 0 false 0 _ _ _ args e rfl (by decide), hsu]
  by_cases hbig : decimal ds > ULONG_MAX
  · have hmin : min (decimal ds) ULONG_MAX = ULONG_MAX := by omega
    simp [hbig, hmin, hlen, advance, wrapUnsigned, DSTS_PUT_VALUE, hp, specRun,
      DSTS_ERROR_SUCCESS]
  · have hmin : min (decimal ds) ULONG_MAX = decimal ds := by omega
    simp [hbig, hmin, hlen, advance, wrapUnsigned, DSTS_PUT_VALUE, hp, specRun,
      DSTS_ERROR_SUCCESS]

/-- C7 at "4294967296" against "%u" with a `UInt` destination. -/
theorem C7_unsigned_overflow_succeeds_witness :
    scanLoop noFloat 2 false 0 (bytes "%u") (bytes "4294967296") [⟨DSTS_TYPE_UINT, 1, 0⟩] []
      = .ok ⟨1, DSTS_ERROR_SUCCESS, [Store.obj 1 (.int 0), Store.obj 1 (.int 0)]⟩ :=
  (C7_unsigned_overflow_succeeds noFloat false 1 0 (bytes "4294967296") [] [] 1 0 [] []
    (by decide) (by decide) (by decide) (by decide)).1

/-- C8: for every directive `<width><modifier><letter>` with a letter among
f, d, i, u, x, X, c, s, without a width or with a width the scratch copy
holds (below 16384), and every declared tag `t`: if `t` differs from
`expected(letter, modifier)` the conversion returns InvalidType with the input
cursor unchanged and nothing stored, and the scan returns InvalidType with
the match count of the conversions before it; if `t` is
`expected(letter, modifier)` the conversion returns a status other than
InvalidType. -/
theorem C8_tag_check (strtof : Strtof) (e : Bool) (fuel ret : Nat) (ds : List Nat)
    (m : LengthMod) (c : Nat) (rest input : List Nat) (a : Arg) (args : List Arg)
    (stores : List Store)
    (hds : ∀ d ∈ ds, IsDec d) (hw : decimal ds < DSTS_MAX_STRING_OUTPUT)
    (hc : IsConvLetter c) :
    (a.iType ≠ expectedTag c m →
      parse_arg strtof e (ds ++ (m.text ++ c :: rest)) input (a :: args)
        = .ok ⟨DSTS_ERROR_INVALID_TYPE, 0, [], args, e⟩
      ∧ (input.headD 0 ≠ 0 →
        scanLoop strtof (fuel + 1) e ret (37 :: (ds ++ (m.text ++ c :: rest))) input
            (a :: args) stores
          = .ok ⟨ret, DSTS_ERROR_INVALID_TYPE, stores⟩))
    ∧ (a.iType = expectedTag c m →
      ∃ r, parse_arg strtof e (ds ++ (m.text ++ c :: rest)) input (a :: args) = .ok r
        ∧ r.error ≠ DSTS_ERROR_INVALID_TYPE) := by
  obtain ⟨h58, h104, h108⟩ := isConvLetter_bounds hc
  have hpa := parse_arg_directive strtof e ds m c rest input a args hds hw h58 h104 h108
  constructor
  · intro ht
    have hcv := convert_mismatch strtof c m (decimal ds) (decide (decimal ds > 0)) (decimal ds)
      (field (decimal ds) input) input a args e hc ht
    refine ⟨by rw [hpa, hcv], ?_⟩
    intro hin
    rw [scanLoop_percent strtof fuel e ret _ input (a :: args) stores hin, hpa, hcv]
    simp [DSTS_ERROR_INVALID_TYPE, DSTS_ERROR_SUCCESS]
  · intro ht
    exact ⟨_, hpa, convert_match strtof c m _ _ _ _ input a args e hc ht⟩

/-- C8 at "%hd" with a destination declared `Int` where `Short` is expected. -/
theorem C8_tag_check_witness :
    parse_arg noFloat false (bytes "hd") (bytes "12") [⟨DSTS_TYPE_INT, 1, 0⟩]
      = .ok ⟨DSTS_ERROR_INVALID_TYPE, 0, [], [], false⟩ :=
  ((C8_tag_check noFloat false 0 0 [] .h 100 [] (bytes "12") ⟨DSTS_TYPE_INT, 1, 0⟩ [] []
    (by decide) (by decide) (by decide)).1 (by decide)).1

/-- C9 (the code differs): output values are not initialised on every error.
For every conversion directive the argument parser is called for, with a
non-null destination: when the directive ends with InvalidType, InvalidFormat
or BufferTooSmall, nothing at all was stored to the destination; when it ends
with NumericConversionError the destination holds its default (0, or 0.0 for
a `Float` tag), the only thing stored; when it ends with Success the
destination was written, with the input byte alone for the letter `c`, first
with the zero fill of the whole buffer for `s` (a capacity of at least 1),
first with the default for every other letter.  The statuses that store
nothing are reached: every directive with a conversion letter and a tag other
than the expected one ends the scan with InvalidType, every directive with a
letter the switch has no case for ends it with InvalidFormat, in both cases
without a store.  Scanning "12" with "%d" and a destination declared `Float`
returns InvalidType, with "%q" InvalidFormat, and "hello" with "%s" and a
capacity of 16385 BufferTooSmall: the destination is not written in any of
them. -/
theorem C9_initialised_by_status (strtof : Strtof) (e : Bool) (fmt input : List Nat)
    (a : Arg) (args : List Arg) (r : ParseResult) (hp : a.pOutput ≠ 0)
    (h : parse_arg strtof e fmt input (a :: args) = .ok r) :
    ((r.error = DSTS_ERROR_INVALID_TYPE ∨ r.error = DSTS_ERROR_INVALID_FMT
        ∨ r.error = DSTS_ERROR_BUFFER_TOO_SMALL) → r.stores = [])
    ∧ (r.error = DSTS_ERROR_NUMERIC_CONVERSION →
        r.stores = [Store.obj a.pOutput (defaultOf a.iType)])
    ∧ (r.error = DSTS_ERROR_SUCCESS →
        (letterOf fmt = 99 →
          r.stores = [Store.obj a.pOutput (.int (wrapSigned 8 (input.headD 0)))])
        ∧ (letterOf fmt = 115 → a.cbSize ≠ 0 →
          r.stores.head? = some (Store.fill a.pOutput a.cbSize))
        ∧ (letterOf fmt ≠ 99 → letterOf fmt ≠ 115 →
          r.stores.head? = some (Store.obj a.pOutput (defaultOf a.iType))))
    ∧ (∀ (fuel ret : Nat) (ds : List Nat) (m : LengthMod) (c : Nat) (rest : List Nat)
        (stores : List Store),
        (∀ d ∈ ds, IsDec d) → decimal ds < DSTS_MAX_STRING_OUTPUT → IsConvLetter c →
        a.iType ≠ expectedTag c m → input.headD 0 ≠ 0 →
        scanLoop strtof (fuel + 1) e ret (37 :: (ds ++ (m.text ++ c :: rest))) input
            (a :: args) stores
          = .ok ⟨ret, DSTS_ERROR_INVALID_TYPE, stores⟩)
    ∧ (∀ (fuel ret : Nat) (ds : List Nat) (m : LengthMod) (c : Nat) (rest : List Nat)
        (stores : List Store),
        (∀ d ∈ ds, IsDec d) → decimal ds < DSTS_MAX_STRING_OUTPUT →
        58 ≤ c → c ≠ 104 → c ≠ 108 → ¬ IsConvLetter c → input.headD 0 ≠ 0 →
        scanLoop strtof (fuel + 1) e ret (37 :: (ds ++ (m.text ++ c :: rest))) input
            (a :: args) stores
          = .ok ⟨ret, DSTS_ERROR_INVALID_FMT, stores⟩)
    ∧ dsts_secure_sscanf noFloat false (bytes "12") (bytes "%d") [⟨DSTS_TYPE_FLOAT, 1, 0⟩]
        = .ok ⟨0, DSTS_ERROR_INVALID_TYPE, []⟩
    ∧ dsts_secure_sscanf noFloat false (bytes "12") (bytes "%q") [⟨DSTS_TYPE_INT, 1, 0⟩]
        = .ok ⟨0, DSTS_ERROR_INVALID_FMT, []⟩
    ∧ dsts_secure_sscanf noFloat false (bytes "hello") (bytes "%s")
          [⟨DSTS_TYPE_STRING, 1, 16385⟩]
        = .ok ⟨0, DSTS_ERROR_BUFFER_TOO_SMALL, []⟩ := by
  obtain ⟨i1, i2, _⟩ := parse_arg_initialised strtof e fmt input a args r hp h
  refine ⟨i1, i2, fun hs => parse_arg_success_stores strtof e fmt input a args r hp h hs,
    ?_, ?_, by decide!, by decide!, by decide!⟩
  · intro fuel ret ds m c rest stores hds hw hc ht hin
    obtain ⟨h58, h104, h108⟩ := isConvLetter_bounds hc
    rw [scanLoop_percent strtof fuel e ret _ input (a :: args) stores hin,
      parse_arg_directive strtof e ds m c rest input a args hds hw h58 h104 h108,
      convert_mismatch strtof c m _ _ _ _ input a args e hc ht]
    simp [DSTS_ERROR_INVALID_TYPE, DSTS_ERROR_SUCCESS]
  · intro fuel ret ds m c rest stores hds hw h58 h104 h108 hc hin
    rw [scanLoop_percent strtof fuel e ret _ input (a :: args) stores hin,
      parse_arg_directive strtof e ds m c rest input a args hds hw h58 h104 h108,
      convert_unknown strtof c _ _ _ _ _ input a args e hc]
    simp [DSTS_ERROR_INVALID_FMT, DSTS_ERROR_SUCCESS]

/-- C9 at "12" against "%d" with a destination declared `Float`: InvalidType,
and nothing is stored. -/
theorem C9_initialised_by_status_witness :
    ∃ r, parse_arg noFloat false (bytes "d") (bytes "12") [⟨DSTS_TYPE_FLOAT, 1, 0⟩] = .ok r
      ∧ r.error = DSTS_ERROR_INVALID_TYPE
      ∧ r.stores = [] :=
  ⟨⟨DSTS_ERROR_INVALID_TYPE, 0, [], [], false⟩, by decide!, rfl,
    (C9_initialised_by_status noFloat false (bytes "d") (bytes "12") ⟨DSTS_TYPE_FLOAT, 1, 0⟩ []
      ⟨DSTS_ERROR_INVALID_TYPE, 0, [], [], false⟩ (by decide) (by decide!)).1 (Or.inl rfl)⟩

/-- C10 (the code differs): `parse_arg` has no case for `%`.  Called on the
text after the first `%` of "%%", it reads the next variadic argument as a
tag (undefined when none is left), finds no conversion letter and returns
InvalidFormat, so the scan ends with status InvalidFormat; the test
`pFmt[1] != '%'` of line 498, which is there to leave `%%` uncounted, is
never reached.  "50%" against "%d%%" returns 1 with status InvalidFormat
when an argument follows the `Int` destination; with that destination alone
the read of the argument is a fault. -/
theorem C10_percent_escape_invalid (strtof : Strtof) (e : Bool) :
    (∀ (rest input : List Nat) (a : Arg) (args : List Arg),
      parse_arg strtof e (37 :: rest) input (a :: args)
        = .ok ⟨DSTS_ERROR_INVALID_FMT, 0, [], args, e⟩)
    ∧ (∀ (rest input : List Nat), parse_arg strtof e (37 :: rest) input []
        = .fault .noArgument)
    ∧ (∀ (fuel ret : Nat) (rest input : List Nat) (a : Arg) (args : List Arg)
        (stores : List Store), input.headD 0 ≠ 0 →
      scanLoop strtof (fuel + 1) e ret (37 :: 37 :: rest) input (a :: args) stores
        = .ok ⟨ret, DSTS_ERROR_INVALID_FMT, stores⟩)
    ∧ dsts_secure_sscanf strtof e (bytes "50%") (bytes "%d%%")
          [⟨DSTS_TYPE_INT, 1, 0⟩, ⟨DSTS_TYPE_INT, 2, 0⟩]
        = .ok ⟨1, DSTS_ERROR_INVALID_FMT, [Store.obj 1 (.int 0), Store.obj 1 (.int 50)]⟩
    ∧ dsts_secure_sscanf strtof e (bytes "50%") (bytes "%d%%") [⟨DSTS_TYPE_INT, 1, 0⟩]
        = .fault .noArgument := by
  have hs : ∀ rest : List Nat, strtol (37 :: rest) 10 = ⟨0, 0, false⟩ := by
    intro rest
    exact strtol_noDigits _ (by simp [NoDigits, dropSign, List.dropWhile_cons, isspace, IsDec])
  have h1 : ∀ (rest input : List Nat) (a : Arg) (args : List Arg),
      parse_arg strtof e (37 :: rest) input (a :: args)
        = .ok ⟨DSTS_ERROR_INVALID_FMT, 0, [], args, e⟩ := by
    intro rest input a args
    simp [parse_arg, hs, eqHuge, UINT_MAX, wrapUnsigned, DSTS_MAX_STRING_OUTPUT,
      lengthModifier, convert]
  refine ⟨h1, ?_, ?_, rfl, rfl⟩
  · intro rest input
    simp [parse_arg, hs, eqHuge, UINT_MAX, wrapUnsigned, DSTS_MAX_STRING_OUTPUT]
  · intro fuel ret rest input a args stores hin
    rw [scanLoop_percent strtof fuel e ret _ input (a :: args) stores hin, h1]
    simp [DSTS_ERROR_INVALID_FMT, DSTS_ERROR_SUCCESS]

/-! ## Where the stores go -/

theorem put_ptr (p : Nat) (v : Value) : ∀ s ∈ DSTS_PUT_VALUE p v, s.ptr = p := by
  intro s hs
  unfold DSTS_PUT_VALUE at hs
  split_ifs at hs
  · simp at hs
  · simp only [List.mem_singleton] at hs
    subst hs
    rfl

theorem byteStores_ptr (p : Nat) (bs : List Nat) (i : Nat) :
    ∀ s ∈ byteStores p i bs, s.ptr = p := by
  induction bs generalizing i with
  | nil => simp [byteStores]
  | cons b bs ih =>
    intro s hs
    simp only [byteStores, List.mem_cons] at hs
    rcases hs with rfl | hs
    · rfl
    · exact ih (i + 1) s hs

theorem numericError_ptr (input : List Nat) (cur p : Nat) (v : Value) (args : List Arg)
    (e : Bool) : ∀ s ∈ (numericError input cur (DSTS_PUT_VALUE p v) args e).stores, s.ptr = p :=
  put_ptr p v

theorem success_ptr (p : Nat) (v v' : Value) :
    ∀ s ∈ DSTS_PUT_VALUE p v ++ DSTS_PUT_VALUE p v', s.ptr = p := by
  intro s hs
  rcases List.mem_append.mp hs with h | h
  · exact put_ptr p v s h
  · exact put_ptr p v' s h

theorem conv_f_ptr (strtof : Strtof) (ut : Bool) (w : Nat) (pp input : List Nat)
    (a : Arg) (args : List Arg) (e : Bool) :
    ∀ s ∈ (conv_f strtof ut w pp input a args e).stores, s.ptr = a.pOutput := by
  simp only [conv_f]
  split_ifs
  · simp
  · exact numericError_ptr _ _ _ _ _ _
  · exact numericError_ptr _ _ _ _ _ _
  · exact success_ptr _ _ _

theorem conv_d_ptr (base : Nat) (m : LengthMod) (l : Int) (ut : Bool) (w : Nat)
    (pp input : List Nat) (a : Arg) (args : List Arg) (e : Bool) :
    ∀ s ∈ (conv_d base m.spType l ut w pp input a args e).stores, s.ptr = a.pOutput := by
  by_cases ht : a.iType = signedTag m
  · rw [conv_d_eq base m l ut w pp input a args e ht]
    split_ifs
    · exact numericError_ptr _ _ _ _ _ _
    · exact numericError_ptr _ _ _ _ _ _
    · exact success_ptr _ _ _
  · simp [conv_d, signedTag_eq, ht]

theorem conv_u_ptr (base : Nat) (m : LengthMod) (l : Int) (ut : Bool) (w : Nat)
    (pp input : List Nat) (a : Arg) (args : List Arg) (e : Bool) :
    ∀ s ∈ (conv_u base m.spType l ut w pp input a args e).stores, s.ptr = a.pOutput := by
  by_cases ht : a.iType = unsignedTag m
  · rw [conv_u_eq base m l ut w pp input a args e ht]
    split_ifs
    · exact numericError_ptr _ _ _ _ _ _
    · exact numericError_ptr _ _ _ _ _ _
    · exact success_ptr _ _ _
  · simp [conv_u, unsignedTag_eq, ht]

theorem conv_c_ptr (input : List Nat) (a : Arg) (args : List Arg) (e : Bool) :
    ∀ s ∈ (conv_c input a args e).stores, s.ptr = a.pOutput := by
  simp only [conv_c]
  split_ifs
  · simp
  · exact put_ptr _ _

theorem conv_s_ptr (ut : Bool) (w : Nat) (input : List Nat) (a : Arg) (args : List Arg)
    (e : Bool) : ∀ s ∈ (conv_s ut w input a args e).stores, s.ptr = a.pOutput := by
  simp only [conv_s, copyLoop_eq]
  split_ifs
  all_goals first
    | (intro s hs; exact absurd hs (List.not_mem_nil s))
    | (intro s hs
       simp only [List.mem_cons] at hs
       rcases hs with rfl | hs
       · rfl
       · exact byteStores_ptr _ _ _ s hs)

theorem convert_ptr (strtof : Strtof) (c : Nat) (m : LengthMod) (l : Int) (ut : Bool)
    (w : Nat) (pp input : List Nat) (a : Arg) (args : List Arg) (e : Bool) :
    ∀ s ∈ (convert strtof c m.spType l ut w pp input a args e).stores, s.ptr = a.pOutput := by
  unfold convert
  split_ifs
  · exact conv_f_ptr strtof ut w pp input a args e
  · exact conv_d_ptr _ m l ut w pp input a args e
  · exact conv_d_ptr _ m l ut w pp input a args e
  · exact conv_d_ptr _ m l ut w pp input a args e
  · exact conv_d_ptr _ m l ut w pp input a args e
  · exact conv_u_ptr _ m l ut w pp input a args e
  · exact conv_u_ptr _ m l ut w pp input a args e
  · exact conv_c_ptr input a args e
  · exact conv_s_ptr ut w input a args e
  · simp

/-- What `parse_arg` returns when it returns: InvalidFormat for the width, or
the result of the switch on the conversion letter for the first argument. -/
theorem parse_arg_ok (strtof : Strtof) (e : Bool) (fmt input : List Nat) (args : List Arg)
    (r : ParseResult) (h : parse_arg strtof e fmt input args = .ok r) :
    r = ⟨DSTS_ERROR_INVALID_FMT, 0, [], args, e || (strtol fmt 10).erange⟩
    ∨ ∃ (a : Arg) (rest : List Arg) (c : Nat) (m : LengthMod) (pp : List Nat),
        args = a :: rest
        ∧ (pp = input ∨ pp = strncpy input (wrapUnsigned 32 (strtol fmt 10).val).toNat)
        ∧ r = convert strtof c m.spType (strtol fmt 10).val
              (decide ((wrapUnsigned 32 (strtol fmt 10).val).toNat > 0))
              (wrapUnsigned 32 (strtol fmt 10).val).toNat pp input a rest
              (e || (strtol fmt 10).erange) := by
  unfold parse_arg at h
  simp only at h
  obtain ⟨m, hm⟩ := lengthModifier_spType (fmt.drop (strtol fmt 10).len)
  rw [hm] at h
  split_ifs at h with h1 h2
  · exact Or.inl (Outcome.ok.inj h).symm
  · cases args with
    | nil => simp at h
    | cons a rest =>
      simp only at h
      exact Or.inr ⟨a, rest, _, m, _, rfl, Or.inr rfl, (Outcome.ok.inj h).symm⟩
  · cases args with
    | nil => simp at h
    | cons a rest =>
      simp only at h
      exact Or.inr ⟨a, rest, _, m, _, rfl, Or.inl rfl, (Outcome.ok.inj h).symm⟩

theorem parse_arg_ptr (strtof : Strtof) (e : Bool) (fmt input : List Nat) (a : Arg)
    (args : List Arg) (r : ParseResult)
    (h : parse_arg strtof e fmt input (a :: args) = .ok r) :
    ∀ s ∈ r.stores, s.ptr = a.pOutput := by
  rcases parse_arg_ok strtof e fmt input (a :: args) r h with rfl | ⟨a', rest, c, m, pp, ha, _, rfl⟩
  · simp
  · cases ha
    exact convert_ptr strtof c m _ _ _ pp input a args _

/-! ## The cursor after a conversion -/

theorem numeric_ne_success : DSTS_ERROR_NUMERIC_CONVERSION ≠ DSTS_ERROR_SUCCESS := by
  decide

theorem advance_plain (w : Nat) (pp : List Nat) (len : Nat) : advance false w pp len = len := by
  simp [advance]

theorem conv_d_cursor_plain (base : Nat) (m : LengthMod) (l : Int) (w : Nat)
    (input : List Nat) (a : Arg) (args : List Arg) (e : Bool) (htag : a.iType = signedTag m)
    (hok : (conv_d base m.spType l false w input input a args e).error = DSTS_ERROR_SUCCESS) :
    (conv_d base m.spType l false w input input a args e).cursor = (strtol input base).len := by
  rw [conv_d_eq base m l false w input input a args e htag] at hok ⊢
  simp only [numericError] at hok ⊢
  split_ifs at hok ⊢
  · exact absurd hok numeric_ne_success
  · exact absurd hok numeric_ne_success
  · simp [advance]

theorem conv_u_cursor_plain (base : Nat) (m : LengthMod) (l : Int) (w : Nat)
    (input : List Nat) (a : Arg) (args : List Arg) (e : Bool) (htag : a.iType = unsignedTag m)
    (hok : (conv_u base m.spType l false w input input a args e).error = DSTS_ERROR_SUCCESS) :
    (conv_u base m.spType l false w input input a args e).cursor = (strtoul input base).len := by
  rw [conv_u_eq base m l false w input input a args e htag] at hok ⊢
  simp only [numericError] at hok ⊢
  split_ifs at hok ⊢
  · exact absurd hok numeric_ne_success
  · exact absurd hok numeric_ne_success
  · simp [advance]

/-- The loop over the scratch copy runs `w` times when none of the first `w`
bytes of the copy is the byte it stops at. -/
theorem trimLoop_full (endCh w : Nat) (pp : List Nat) (hlen : w ≤ pp.length)
    (h : ∀ c ∈ pp.take w, c ≠ endCh) : trimLoop endCh w pp = w := by
  induction w generalizing pp with
  | zero => rfl
  | succ w ih =>
    cases pp with
    | nil => simp at hlen
    | cons c cs =>
      have hc : c ≠ endCh := h c (by simp)
      have hcs : ∀ x ∈ cs.take w, x ≠ endCh := fun x hx => h x (by simp [hx])
      simp only [List.length_cons, Nat.add_le_add_iff_right] at hlen
      simp [trimLoop, hc, ih cs hlen hcs]

theorem strncpy_prefix (pre rest : List Nat) (h : ∀ c ∈ pre, c ≠ 0) :
    strncpy (pre ++ rest) pre.length = pre := by
  unfold strncpy
  rw [List.takeWhile_append_of_pos (by simpa using h), List.take_left]

theorem specRun_digits (ds : List Nat) (c : Nat) (rest : List Nat) (hds : ∀ d ∈ ds, IsDec d)
    (hc : 58 ≤ c) (h104 : c ≠ 104) (h108 : c ≠ 108) :
    specRun (ds ++ c :: rest) = ds.length := by
  induction ds with
  | nil =>
    have h : ¬ ((48 ≤ c ∧ c ≤ 57) ∨ c = 104 ∨ c = 108) := by omega
    simp [specRun, h]
  | cons d ds ih =>
    have hd : 48 ≤ d ∧ d ≤ 57 := hds d (by simp)
    simp [specRun, hd, ih (fun x hx => hds x (by simp [hx]))]

theorem headD_digits_ne (ds : List Nat) (c : Nat) (rest : List Nat) (hds : ∀ d ∈ ds, IsDec d)
    (hc : c ≠ 37) : (ds ++ c :: rest).headD 0 ≠ 37 := by
  cases ds with
  | nil => simpa using hc
  | cons d ds =>
    have hd : 48 ≤ d ∧ d ≤ 57 := hds d (by simp)
    simp only [List.cons_append, List.headD_cons]
    omega

theorem strtol_digits (ds : List Nat) (hds : ∀ c ∈ ds, IsDec c) (hne : ds ≠ [])
    (hv : (decimal ds : Int) ≤ LONG_MAX) :
    strtol ds 10 = ⟨(decimal ds : Int), ds.length, false⟩ := by
  have h := strtol_literal [] ds [] (Or.inl rfl) hds hne (by decide)
  simp only [List.nil_append, List.append_nil, List.length_nil, Nat.zero_add] at h
  have hv' : ¬ (literalValue [] ds > LONG_MAX) := by
    simp only [literalValue]; simpa using hv
  have hv'' : ¬ (literalValue [] ds < LONG_MIN) := by
    simp only [literalValue, LONG_MIN]
    simp only [List.nil_eq, reduceCtorEq, if_false]
    omega
  rw [h, if_neg hv', if_neg hv'']
  simp [literalValue]

theorem trimLoop_le (endCh w : Nat) (pp : List Nat) : trimLoop endCh w pp ≤ w := by
  induction w generalizing pp with
  | zero => simp [trimLoop]
  | succ w ih =>
    simp only [trimLoop]
    split_ifs
    · exact Nat.succ_le_succ (ih _)
    · omega

theorem tokenRun_eq (input : List Nat) : tokenRun input = (tokenOf input).length := by
  induction input with
  | nil => rfl
  | cons c cs ih =>
    by_cases hc : (c != 0 && !isspace c) = true
    · simp only [tokenRun, hc, if_true, tokenOf, List.takeWhile_cons, List.length_cons]
      rw [ih]; rfl
    · simp only [tokenRun, hc, if_false, tokenOf, List.takeWhile_cons]
      simp

theorem tokenRun_drop (input : List Nat) (n : Nat) (h : n ≤ (tokenOf input).length) :
    tokenRun (input.drop n) = (tokenOf input).length - n := by
  induction input generalizing n with
  | nil => simp [tokenRun, tokenOf]
  | cons c cs ih =>
    cases n with
    | zero => simpa using tokenRun_eq (c :: cs)
    | succ n =>
      by_cases hc : (c != 0 && !isspace c) = true
      · have ht : tokenOf (c :: cs) = c :: tokenOf cs := by
          simp only [tokenOf, List.takeWhile_cons, hc, if_true]
        rw [ht] at h ⊢
        simp only [List.length_cons, Nat.add_le_add_iff_right] at h
        simp only [List.drop_succ_cons, List.length_cons, ih n h]
        omega
      · have ht : tokenOf (c :: cs) = [] := by
          simp only [tokenOf, List.takeWhile_cons, hc, if_false]
          simp
        rw [ht] at h
        simp at h

theorem copyCount_le_token (ut : Bool) (w cb len : Nat) : copyCount ut w cb len ≤ len := by
  unfold copyCount
  split <;> omega

theorem copyCount_le_room (ut : Bool) (w cb len : Nat) : copyCount ut w cb len ≤ cb := by
  unfold copyCount
  split <;> omega

theorem copyCount_le_width (w cb len : Nat) : copyCount true w cb len ≤ w := by
  unfold copyCount
  simp only [if_true]
  omega

/-- The `%s` conversion once the tag, the pointer and the capacity are
verified: `n` bytes of the token are copied, and the cursor ends after them,
or at the end of the token when the copy has filled the room. -/
theorem conv_s_eq (ut : Bool) (w : Nat) (input : List Nat) (p cap : Nat) (args : List Arg)
    (e : Bool) (hp : p ≠ 0) (hcap0 : cap ≠ 0) (hcap : cap ≤ DSTS_MAX_STRING_OUTPUT) :
    conv_s ut w input ⟨DSTS_TYPE_STRING, p, cap⟩ args e
      = ⟨DSTS_ERROR_SUCCESS,
          if cap - 1 - copyCount ut w (cap - 1) (tokenOf input).length = 0 then
            (tokenOf input).length
          else copyCount ut w (cap - 1) (tokenOf input).length,
          Store.fill p cap
            :: byteStores p 0
                ((tokenOf input).take (copyCount ut w (cap - 1) (tokenOf input).length)),
          args, e⟩ := by
  have hcap' : ¬ (cap > DSTS_MAX_STRING_OUTPUT) := by omega
  have hn := copyCount_le_token ut w (cap - 1) (tokenOf input).length
  simp only [conv_s, ne_eq, not_true_eq_false, if_false, hp, hcap', hcap0, not_false_eq_true,
    if_true, copyLoop_eq]
  congr 1
  split_ifs
  · rw [tokenRun_drop input _ hn]
    omega
  · rfl

theorem invalidType_ne_success : DSTS_ERROR_INVALID_TYPE ≠ DSTS_ERROR_SUCCESS := by
  decide

theorem conv_d_cursor_le (base : Nat) (m : LengthMod) (l : Int) (w : Nat)
    (pp input : List Nat) (a : Arg) (args : List Arg) (e : Bool)
    (hok : (conv_d base m.spType l true w pp input a args e).error = DSTS_ERROR_SUCCESS) :
    (conv_d base m.spType l true w pp input a args e).cursor ≤ w := by
  by_cases htag : a.iType = signedTag m
  · rw [conv_d_eq base m l true w pp input a args e htag] at hok ⊢
    simp only [numericError] at hok ⊢
    split_ifs at hok ⊢
    · exact absurd hok numeric_ne_success
    · exact absurd hok numeric_ne_success
    · simp only [advance, if_true]
      exact trimLoop_le _ _ _
  · simp only [conv_d, signedTag_eq, htag, ne_eq, not_false_eq_true, if_true] at hok
    exact absurd hok invalidType_ne_success

theorem conv_u_cursor_le (base : Nat) (m : LengthMod) (l : Int) (w : Nat)
    (pp input : List Nat) (a : Arg) (args : List Arg) (e : Bool)
    (hok : (conv_u base m.spType l true w pp input a args e).error = DSTS_ERROR_SUCCESS) :
    (conv_u base m.spType l true w pp input a args e).cursor ≤ w := by
  by_cases htag : a.iType = unsignedTag m
  · rw [conv_u_eq base m l true w pp input a args e htag] at hok ⊢
    simp only [numericError] at hok ⊢
    split_ifs at hok ⊢
    · exact absurd hok numeric_ne_success
    · exact absurd hok numeric_ne_success
    · simp only [advance, if_true]
      exact trimLoop_le _ _ _
  · simp only [conv_u, unsignedTag_eq, htag, ne_eq, not_false_eq_true, if_true] at hok
    exact absurd hok invalidType_ne_success

theorem conv_s_cursor_le (w : Nat) (input : List Nat) (a : Arg) (args : List Arg) (e : Bool)
    (hs : w + 1 < a.cbSize ∨ (tokenOf input).length ≤ w)
    (hok : (conv_s true w input a args e).error = DSTS_ERROR_SUCCESS) :
    (conv_s true w input a args e).cursor ≤ w := by
  obtain ⟨t, p, cap⟩ := a
  simp only at hs
  by_cases ht : t = DSTS_TYPE_STRING
  · subst ht
    by_cases hp : p = 0
    · simp [conv_s, hp]
    · by_cases hcap : cap > DSTS_MAX_STRING_OUTPUT
      · simp [conv_s, hp, hcap, DSTS_ERROR_BUFFER_TOO_SMALL, DSTS_ERROR_SUCCESS] at hok
      · by_cases hcap0 : cap = 0
        · simp [conv_s, hp, hcap, hcap0]
        · rw [conv_s_eq true w input p cap args e hp hcap0 (by omega)]
          have h1 := copyCount_le_width w (cap - 1) (tokenOf input).length
          simp only
          split_ifs with hz
          · rcases hs with hs | hs
            · omega
            · exact hs
          · exact h1
  · simp only [conv_s, ht, ne_eq, not_false_eq_true, if_true] at hok
    exact absurd hok invalidType_ne_success

theorem token_end (input : List Nat) :
    (input.drop (tokenOf input).length).headD 0 = 0
      ∨ isspace ((input.drop (tokenOf input).length).headD 0) = true := by
  induction input with
  | nil => left; rfl
  | cons c cs ih =>
    by_cases hc : (c != 0 && !isspace c) = true
    · have ht : tokenOf (c :: cs) = c :: tokenOf cs := by
        simp only [tokenOf, List.takeWhile_cons, hc, if_true]
      rw [ht]
      simpa using ih
    · have ht : tokenOf (c :: cs) = [] := by
        simp only [tokenOf, List.takeWhile_cons, hc, if_false]
        simp
      rw [ht]
      simp only [List.length_nil, List.drop_zero, List.headD_cons]
      simp only [Bool.and_eq_true, bne_iff_ne, ne_eq, Bool.not_eq_true', not_and,
        Bool.not_eq_false] at hc
      by_cases h0 : c = 0
      · exact Or.inl h0
      · exact Or.inr (hc h0)

theorem token_headD (input : List Nat) (h : 0 < (tokenOf input).length) :
    input.headD 0 ≠ 0 := by
  cases input with
  | nil => simp [tokenOf] at h
  | cons c cs =>
    by_cases hc : (c != 0 && !isspace c) = true
    · simp only [Bool.and_eq_true, bne_iff_ne, ne_eq] at hc
      simpa using hc.1
    · have ht : tokenOf (c :: cs) = [] := by
        simp only [tokenOf, List.takeWhile_cons, hc, if_false]
        simp
      rw [ht] at h
      simp at h

theorem chosenBase_eq (input : List Nat) :
    (if input.headD 0 = 48 then (if (input.drop 1).headD 0 = 120 then 16 else 8) else 10)
      = chosenBase input := by
  cases input with
  | nil => rfl
  | cons c cs =>
    cases cs with
    | nil => simp [chosenBase]
    | cons d ds => simp [chosenBase]

/-! ## The cursor stays inside the input -/

/-- The traced loop returns what `scanLoop` returns. -/
theorem scanTraced_fst (strtof : Strtof) (fuel : Nat) (e : Bool) (ret : Nat)
    (fmt input : List Nat) (args : List Arg) (stores : List Store) (pos : Nat) :
    (scanTraced strtof fuel e ret fmt input args stores pos).1
      = scanLoop strtof fuel e ret fmt input args stores := by
  induction fuel generalizing e ret fmt input args stores pos with
  | zero => rfl
  | succ n ih =>
    rw [scanTraced, scanLoop]
    by_cases h1 : fmt.headD 0 ≠ 0 ∧ input.headD 0 ≠ 0
    · rw [if_pos h1, if_pos h1]
      by_cases h2 : fmt.headD 0 = 37
      · rw [if_pos h2, if_pos h2]
        cases parse_arg strtof e (fmt.drop 1) input args with
        | fault f => rfl
        | ok r =>
          simp only
          by_cases h3 : r.error ≠ DSTS_ERROR_SUCCESS
          · rw [if_pos h3, if_pos h3]
          · rw [if_neg h3, if_neg h3]
            by_cases h4 : r.cursor = 0
            · rw [if_pos h4, if_pos h4]
            · rw [if_neg h4, if_neg h4]
              exact ih _ _ _ _ _ _ _
      · rw [if_neg h2, if_neg h2]
        by_cases h3 : isspace (fmt.headD 0) = true
        · rw [if_pos h3, if_pos h3]
          exact ih _ _ _ _ _ _ _
        · rw [if_neg h3, if_neg h3]
          by_cases h4 : fmt.headD 0 = input.headD 0
          · rw [if_pos h4, if_pos h4]
            exact ih _ _ _ _ _ _ _
          · rw [if_neg h4, if_neg h4]
    · rw [if_neg h1, if_neg h1]

theorem cstrlen_cons (c : Nat) (cs : List Nat) (h : c ≠ 0) :
    cstrlen (c :: cs) = cstrlen cs + 1 := by
  simp [cstrlen, List.takeWhile_cons, h]

theorem cstrlen_pos (s : List Nat) (h : s.headD 0 ≠ 0) : 1 ≤ cstrlen s := by
  cases s with
  | nil => simp at h
  | cons c cs =>
    rw [cstrlen_cons c cs (by simpa using h)]
    omega

theorem cstrlen_le_length (s : List Nat) : cstrlen s ≤ s.length := by
  unfold cstrlen
  exact (List.takeWhile_sublist _).length_le

theorem cstrlen_drop (s : List Nat) (k : Nat) (h : k ≤ cstrlen s) :
    cstrlen (s.drop k) = cstrlen s - k := by
  induction s generalizing k with
  | nil => simp [cstrlen]
  | cons c cs ih =>
    cases k with
    | zero => simp
    | succ k =>
      by_cases hc : c = 0
      · subst hc
        simp [cstrlen] at h
      · rw [cstrlen_cons c cs hc] at h ⊢
        simp only [List.drop_succ_cons]
        rw [ih k (by omega)]
        omega

theorem isspace_ne_zero {c : Nat} (h : isspace c = true) : c ≠ 0 := by
  intro h0
  subst h0
  simp [isspace] at h

theorem spaceRun_le (s : List Nat) : spaceRun s ≤ cstrlen s := by
  induction s with
  | nil => simp [spaceRun]
  | cons c cs ih =>
    by_cases hc : isspace c = true
    · rw [cstrlen_cons c cs (isspace_ne_zero hc)]
      simp only [spaceRun, hc, if_true]
      omega
    · simp [spaceRun, hc]

theorem digitOf_zero : digitOf 0 = none := by
  decide

theorem digitRun_le (base : Nat) (s : List Nat) (acc : Nat) :
    (digitRun base s acc).2 ≤ cstrlen s := by
  induction s generalizing acc with
  | nil => simp [digitRun]
  | cons c cs ih =>
    by_cases hc : c = 0
    · subst hc
      simp [digitRun, digitOf_zero]
    · rw [cstrlen_cons c cs hc]
      unfold digitRun
      cases digitOf c with
      | none => simp
      | some d =>
        simp only
        split_ifs
        · have := ih (acc * base + d)
          simp only
          omega
        · simp

theorem hexPrefix_le (base : Nat) (s : List Nat) : hexPrefix base s ≤ cstrlen s := by
  unfold hexPrefix
  split_ifs with h
  · obtain ⟨_, h0, h1, _⟩ := h
    cases s with
    | nil => simp at h0
    | cons c cs =>
      simp only [List.headD_cons] at h0
      simp only [List.drop_succ_cons, List.drop_zero] at h1
      cases cs with
      | nil => simp at h1
      | cons d ds =>
        simp only [List.headD_cons] at h1
        rw [cstrlen_cons c _ (by omega), cstrlen_cons d _ (by omega)]
        omega
  · omega

theorem subject_len_le (s : List Nat) (base sg : Nat)
    (hsg : sg ≤ cstrlen (s.drop (spaceRun s))) :
    spaceRun s + sg + hexPrefix base ((s.drop (spaceRun s)).drop sg)
        + (digitRun base (((s.drop (spaceRun s)).drop sg).drop
            (hexPrefix base ((s.drop (spaceRun s)).drop sg))) 0).2
      ≤ cstrlen s := by
  have h1 := spaceRun_le s
  have h2 := cstrlen_drop s (spaceRun s) h1
  have h4 := cstrlen_drop _ _ hsg
  have h5 := hexPrefix_le base ((s.drop (spaceRun s)).drop sg)
  have h6 := cstrlen_drop _ _ h5
  have h7 := digitRun_le base (((s.drop (spaceRun s)).drop sg).drop
    (hexPrefix base ((s.drop (spaceRun s)).drop sg))) 0
  omega

theorem subject_if_len (neg : Bool) (mag tot n : Nat) :
    (if n = 0 then (⟨false, 0, 0⟩ : Subject) else ⟨neg, mag, tot⟩).len ≤ tot := by
  split_ifs <;> simp

theorem scanSubject_len_le (s : List Nat) (base : Nat) :
    (scanSubject s base).len ≤ cstrlen s := by
  have hsg : (if (s.drop (spaceRun s)).headD 0 = 45 ∨ (s.drop (spaceRun s)).headD 0 = 43
      then 1 else 0) ≤ cstrlen (s.drop (spaceRun s)) := by
    split_ifs with h
    · exact cstrlen_pos _ (by omega)
    · omega
  exact le_trans (subject_if_len _ _ _ _) (subject_len_le s base _ hsg)

theorem strtol_len_le (s : List Nat) (base : Nat) : (strtol s base).len ≤ cstrlen s := by
  have h := scanSubject_len_le s base
  simp only [strtol]
  split_ifs <;> exact h

theorem strtoul_len_le (s : List Nat) (base : Nat) : (strtoul s base).len ≤ cstrlen s := by
  have h := scanSubject_len_le s base
  simp only [strtoul]
  split_ifs <;> exact h

theorem cstrlen_strncpy_le (s : List Nat) (n : Nat) : cstrlen (strncpy s n) ≤ cstrlen s := by
  calc cstrlen (strncpy s n) ≤ (strncpy s n).length := cstrlen_le_length _
    _ ≤ cstrlen s := by
      unfold strncpy cstrlen
      rw [List.length_take]
      omega

/-- The loop over the scratch copy stops at the byte it is given as `*pEnd`, at
the latest. -/
theorem trimLoop_le_index (w : Nat) (pp : List Nat) (k : Nat) :
    trimLoop ((pp.drop k).headD 0) w pp ≤ k := by
  induction w generalizing pp k with
  | zero => simp [trimLoop]
  | succ w ih =>
    simp only [trimLoop]
    split_ifs with h
    · cases k with
      | zero => simp at h
      | succ k =>
        cases pp with
        | nil => simp at h
        | cons c cs =>
          simp only [List.drop_succ_cons, List.tail_cons] at h ⊢
          have := ih cs k
          omega
    · omega

theorem advance_le (ut : Bool) (w : Nat) (pp : List Nat) (len : Nat) :
    advance ut w pp len ≤ len := by
  unfold advance
  split_ifs
  · exact trimLoop_le_index w pp len
  · exact Nat.le_refl _

theorem numericError_cursor_le (input : List Nat) (cur : Nat) (st : List Store)
    (args : List Arg) (e : Bool) (h : cur ≤ cstrlen input) :
    (numericError input cur st args e).cursor ≤ cstrlen input := by
  have h1 := spaceRun_le (input.drop cur)
  rw [cstrlen_drop input cur h] at h1
  simp only [numericError]
  omega

theorem token_le_cstrlen (input : List Nat) : (tokenOf input).length ≤ cstrlen input := by
  induction input with
  | nil => simp [tokenOf, cstrlen]
  | cons c cs ih =>
    by_cases hc : (c != 0 && !isspace c) = true
    · have ht : tokenOf (c :: cs) = c :: tokenOf cs := by
        simp only [tokenOf, List.takeWhile_cons, hc, if_true]
      have h0 : c ≠ 0 := by
        simp only [Bool.and_eq_true, bne_iff_ne, ne_eq] at hc
        exact hc.1
      rw [ht, cstrlen_cons c cs h0, List.length_cons]
      omega
    · have ht : tokenOf (c :: cs) = [] := by
        simp only [tokenOf, List.takeWhile_cons, hc, if_false]
        simp
      rw [ht]
      simp

theorem conv_f_cursor_bound (strtof : Strtof) (ut : Bool) (w : Nat) (pp input : List Nat)
    (a : Arg) (args : List Arg) (e : Bool) (hf : ∀ s, (strtof s).len ≤ cstrlen s)
    (hpp : cstrlen pp ≤ cstrlen input) :
    (conv_f strtof ut w pp input a args e).cursor ≤ cstrlen input := by
  have hlen := hf pp
  have hadv := advance_le ut w pp (strtof pp).len
  simp only [conv_f]
  split_ifs
  · exact Nat.zero_le _
  · exact numericError_cursor_le _ _ _ _ _ (Nat.zero_le _)
  · exact numericError_cursor_le _ _ _ _ _ (by omega)
  · simp only
    omega

theorem conv_d_cursor_bound (base : Nat) (m : LengthMod) (l : Int) (ut : Bool) (w : Nat)
    (pp input : List Nat) (a : Arg) (args : List Arg) (e : Bool)
    (hpp : cstrlen pp ≤ cstrlen input) :
    (conv_d base m.spType l ut w pp input a args e).cursor ≤ cstrlen input := by
  have hlen := strtol_len_le pp base
  have hadv := advance_le ut w pp (strtol pp base).len
  by_cases htag : a.iType = signedTag m
  · rw [conv_d_eq base m l ut w pp input a args e htag]
    split_ifs
    · exact numericError_cursor_le _ _ _ _ _ (Nat.zero_le _)
    · exact numericError_cursor_le _ _ _ _ _ (by omega)
    · simp only
      omega
  · simp [conv_d, signedTag_eq, htag]

theorem conv_u_cursor_bound (base : Nat) (m : LengthMod) (l : Int) (ut : Bool) (w : Nat)
    (pp input : List Nat) (a : Arg) (args : List Arg) (e : Bool)
    (hpp : cstrlen pp ≤ cstrlen input) :
    (conv_u base m.spType l ut w pp input a args e).cursor ≤ cstrlen input := by
  have hlen := strtoul_len_le pp base
  have hadv := advance_le ut w pp (strtoul pp base).len
  by_cases htag : a.iType = unsignedTag m
  · rw [conv_u_eq base m l ut w pp input a args e htag]
    split_ifs
    · exact numericError_cursor_le _ _ _ _ _ (Nat.zero_le _)
    · exact numericError_cursor_le _ _ _ _ _ (by omega)
    · simp only
      omega
  · simp [conv_u, unsignedTag_eq, htag]

theorem conv_c_cursor_bound (input : List Nat) (a : Arg) (args : List Arg) (e : Bool) :
    (conv_c input a args e).cursor ≤ cstrlen input := by
  simp only [conv_c]
  split_ifs <;> exact Nat.zero_le _

theorem conv_s_cursor_bound (ut : Bool) (w : Nat) (input : List Nat) (a : Arg)
    (args : List Arg) (e : Bool) :
    (conv_s ut w input a args e).cursor ≤ cstrlen input := by
  obtain ⟨t, p, cap⟩ := a
  by_cases ht : t = DSTS_TYPE_STRING
  · subst ht
    by_cases hp : p = 0
    · simp [conv_s, hp]
    · by_cases hcap : cap > DSTS_MAX_STRING_OUTPUT
      · simp [conv_s, hp, hcap]
      · by_cases hcap0 : cap = 0
        · simp [conv_s, hp, hcap, hcap0]
        · rw [conv_s_eq ut w input p cap args e hp hcap0 (by omega)]
          have h1 := copyCount_le_token ut w (cap - 1) (tokenOf input).length
          have h2 := token_le_cstrlen input
          simp only
          split_ifs <;> omega
  · simp [conv_s, ht]

theorem convert_cursor_bound (strtof : Strtof) (c : Nat) (m : LengthMod) (l : Int) (ut : Bool)
    (w : Nat) (pp input : List Nat) (a : Arg) (args : List Arg) (e : Bool)
    (hf : ∀ s, (strtof s).len ≤ cstrlen s) (hpp : cstrlen pp ≤ cstrlen input) :
    (convert strtof c m.spType l ut w pp input a args e).cursor ≤ cstrlen input := by
  unfold convert
  split_ifs
  · exact conv_f_cursor_bound strtof ut w pp input a args e hf hpp
  · exact conv_d_cursor_bound _ m l ut w pp input a args e hpp
  · exact conv_d_cursor_bound _ m l ut w pp input a args e hpp
  · exact conv_d_cursor_bound _ m l ut w pp input a args e hpp
  · exact conv_d_cursor_bound _ m l ut w pp input a args e hpp
  · exact conv_u_cursor_bound _ m l ut w pp input a args e hpp
  · exact conv_u_cursor_bound _ m l ut w pp input a args e hpp
  · exact conv_c_cursor_bound input a args e
  · exact conv_s_cursor_bound ut w input a args e
  · exact Nat.zero_le _

theorem parse_arg_cursor_bound (strtof : Strtof) (e : Bool) (fmt input : List Nat)
    (args : List Arg) (r : ParseResult) (hf : ∀ s, (strtof s).len ≤ cstrlen s)
    (h : parse_arg strtof e fmt input args = .ok r) : r.cursor ≤ cstrlen input := by
  rcases parse_arg_ok strtof e fmt input args r h with rfl | ⟨a, rest, c, m, pp, _, hpp, rfl⟩
  · exact Nat.zero_le _
  · apply convert_cursor_bound strtof c m _ _ _ pp input a rest _ hf
    rcases hpp with rfl | rfl
    · exact Nat.le_refl _
    · exact cstrlen_strncpy_le _ _

/-- Every offset the driver gives `pInputString` lies between the offset it had
and the end of the input. -/
theorem scanTraced_bounds (strtof : Strtof) (hf : ∀ s, (strtof s).len ≤ cstrlen s)
    (fuel : Nat) (e : Bool) (ret : Nat) (fmt input : List Nat) (args : List Arg)
    (stores : List Store) (pos : Nat) :
    List.Chain (fun x y => x ≤ y) pos (scanTraced strtof fuel e ret fmt input args stores pos).2
    ∧ ∀ k ∈ (scanTraced strtof fuel e ret fmt input args stores pos).2,
        k ≤ pos + cstrlen input := by
  induction fuel generalizing e ret fmt input args stores pos with
  | zero => simp [scanTraced]
  | succ n ih =>
    have step : ∀ (d : Nat) (e' : Bool) (ret' : Nat) (fmt' : List Nat) (args' : List Arg)
        (stores' : List Store), d ≤ cstrlen input →
        List.Chain (fun x y => x ≤ y) pos
          ((pos + d) :: (scanTraced strtof n e' ret' fmt' (input.drop d) args' stores'
            (pos + d)).2)
        ∧ ∀ k ∈ (pos + d) :: (scanTraced strtof n e' ret' fmt' (input.drop d) args' stores'
            (pos + d)).2, k ≤ pos + cstrlen input := by
      intro d e' ret' fmt' args' stores' hd
      obtain ⟨hc, hb⟩ := ih e' ret' fmt' (input.drop d) args' stores' (pos + d)
      rw [cstrlen_drop input d hd] at hb
      refine ⟨List.Chain.cons (Nat.le_add_right _ _) hc, ?_⟩
      intro k hk
      rcases List.mem_cons.mp hk with rfl | hk
      · omega
      · have := hb k hk
        omega
    rw [scanTraced]
    by_cases h1 : fmt.headD 0 ≠ 0 ∧ input.headD 0 ≠ 0
    · rw [if_pos h1]
      by_cases h2 : fmt.headD 0 = 37
      · rw [if_pos h2]
        cases hpa : parse_arg strtof e (fmt.drop 1) input args with
        | fault f => simp
        | ok r =>
          simp only
          by_cases h3 : r.error ≠ DSTS_ERROR_SUCCESS
          · rw [if_pos h3]; simp
          · rw [if_neg h3]
            by_cases h4 : r.cursor = 0
            · rw [if_pos h4]; simp
            · rw [if_neg h4]
              exact step r.cursor _ _ _ _ _
                (parse_arg_cursor_bound strtof e _ input args r hf hpa)
      · rw [if_neg h2]
        by_cases h3 : isspace (fmt.headD 0) = true
        · rw [if_pos h3]
          exact step (spaceRun input) _ _ _ _ _ (spaceRun_le input)
        · rw [if_neg h3]
          by_cases h4 : fmt.headD 0 = input.headD 0
          · rw [if_pos h4]
            exact step 1 _ _ _ _ _ (cstrlen_pos input h1.2)
          · rw [if_neg h4]; simp
    · rw [if_neg h1]; simp

/-- With a scratch copy that fits and an argument at hand, `parse_arg` returns. -/
theorem parse_arg_returns (strtof : Strtof) (e : Bool) (fmt input : List Nat) (a : Arg)
    (args : List Arg)
    (hw : (wrapUnsigned 32 (strtol fmt 10).val).toNat < DSTS_MAX_STRING_OUTPUT) :
    ∃ r, parse_arg strtof e fmt input (a :: args) = .ok r := by
  have hw' : ¬ ((wrapUnsigned 32 (strtol fmt 10).val).toNat ≥ DSTS_MAX_STRING_OUTPUT) := by
    omega
  unfold parse_arg
  simp only
  split_ifs <;> exact ⟨_, rfl⟩

/-- The width field read by `strtol`, for every width a `long` holds. -/
theorem strtol_width_long (ds tail : List Nat) (hds : ∀ c ∈ ds, IsDec c)
    (htail : 58 ≤ tail.headD 0) (hw : (decimal ds : Int) ≤ LONG_MAX) :
    strtol (ds ++ tail) 10 = ⟨(decimal ds : Int), ds.length, false⟩ := by
  have h1 : ¬ ((decimal ds : Int) > LONG_MAX) := by omega
  have h2 : ¬ ((decimal ds : Int) < LONG_MIN) := by unfold LONG_MIN; omega
  simp [strtol, scanSubject_width ds tail hds htail, h1, h2]

/-! ## Conversion to the destination type -/

/-- The value stored by a signed conversion lies in the range of the category
and differs from the value parsed by a multiple of `2 ^ bits`. -/
theorem wrapSigned_spec (m : LengthMod) (v : Int) :
    signedMin m ≤ wrapSigned m.bits v ∧ wrapSigned m.bits v ≤ signedMax m
      ∧ (wrapSigned m.bits v - v) % 2 ^ m.bits = 0 := by
  cases m <;>
    simp only [signedMin, signedMax, INT_MAX, SHRT_MAX, CHAR_MAX, LONG_MAX, LLONG_MAX,
      wrapSigned, LengthMod.bits] <;>
    norm_num <;> omega

/-! ## The extent of a directive -/

theorem invalidFmt_ne_success : DSTS_ERROR_INVALID_FMT ≠ DSTS_ERROR_SUCCESS := by
  decide

theorem convert_success_letter (strtof : Strtof) (c sp : Nat) (l : Int) (ut : Bool) (w : Nat)
    (pp input : List Nat) (a : Arg) (args : List Arg) (e : Bool)
    (h : (convert strtof c sp l ut w pp input a args e).error = DSTS_ERROR_SUCCESS) :
    IsConvLetter c := by
  unfold convert at h
  unfold IsConvLetter
  split_ifs at h with h1 h2 h3 h4 h5 h6 h7
  all_goals first | omega | exact absurd h invalidFmt_ne_success

/-- When `parse_arg` reports Success, the byte its switch read is one of the
conversion letters. -/
theorem parse_arg_success_letter (strtof : Strtof) (e : Bool) (fmt input : List Nat)
    (args : List Arg) (r : ParseResult)
    (h : parse_arg strtof e fmt input args = .ok r) (hs : r.error = DSTS_ERROR_SUCCESS) :
    IsConvLetter (((fmt.drop (strtol fmt 10).len).drop
      (lengthModifier (fmt.drop (strtol fmt 10).len)).2).headD 0) := by
  unfold parse_arg at h
  simp only at h
  split_ifs at h with h1 h2
  · have hr := Outcome.ok.inj h
    subst hr
    exact absurd hs invalidFmt_ne_success
  · cases args with
    | nil => simp at h
    | cons a rest =>
      simp only at h
      have hr := Outcome.ok.inj h
      subst hr
      exact convert_success_letter _ _ _ _ _ _ _ _ _ _ _ hs
  · cases args with
    | nil => simp at h
    | cons a rest =>
      simp only at h
      have hr := Outcome.ok.inj h
      subst hr
      exact convert_success_letter _ _ _ _ _ _ _ _ _ _ _ hs

theorem specRun_digitRun (s : List Nat) (acc : Nat) :
    specRun s = (digitRun 10 s acc).2 + specRun (s.drop (digitRun 10 s acc).2) := by
  induction s generalizing acc with
  | nil => simp [specRun, digitRun]
  | cons c cs ih =>
    by_cases hd : IsDec c
    · have hd' : 48 ≤ c ∧ c ≤ 57 := hd
      have hlt : c - 48 < 10 := by omega
      have h := ih (acc * 10 + (c - 48))
      have hs : specRun (c :: cs) = specRun cs + 1 := by simp [specRun, hd']
      have hr : (digitRun 10 (c :: cs) acc).2
          = (digitRun 10 cs (acc * 10 + (c - 48))).2 + 1 := by
        simp [digitRun, digitOf_of_isDec hd, hlt]
      rw [hs, hr, List.drop_succ_cons]
      omega
    · rw [digitRun_not_dec (c :: cs) acc (by simpa using hd)]
      simp

theorem specRun_letter (u : List Nat) (h : IsConvLetter (u.headD 0)) : specRun u = 0 := by
  cases u with
  | nil => rfl
  | cons c cs =>
    simp only [List.headD_cons] at h
    have hb := isConvLetter_bounds h
    have hn : ¬ ((48 ≤ c ∧ c ≤ 57) ∨ c = 104 ∨ c = 108) := by omega
    simp [specRun, hn]

/-- The driver's loop over `h` and `l` stops where `parse_arg` found the
conversion letter. -/
theorem specRun_lengthModifier (t : List Nat)
    (hc : IsConvLetter ((t.drop (lengthModifier t).2).headD 0)) :
    specRun t = (lengthModifier t).2 := by
  cases t with
  | nil => simp [specRun, lengthModifier]
  | cons a t1 =>
    by_cases ha : a = 104
    · subst ha
      cases t1 with
      | nil => simp [specRun, lengthModifier]
      | cons b t2 =>
        by_cases hb : b = 104
        · subst hb
          have hl : lengthModifier (104 :: 104 :: t2) = (DSTS_TYPE_CHAR, 2) := by
            simp [lengthModifier]
          rw [hl] at hc ⊢
          simp only [List.drop_succ_cons, List.drop_zero] at hc
          simp [specRun, specRun_letter t2 hc]
        · have hl : lengthModifier (104 :: b :: t2) = (DSTS_TYPE_SHORT, 1) := by
            simp [lengthModifier, hb]
          rw [hl] at hc ⊢
          simp only [List.drop_succ_cons, List.drop_zero] at hc
          have h0 := specRun_letter (b :: t2) hc
          simp [specRun] at h0 ⊢
          exact h0
    · by_cases ha' : a = 108
      · subst ha'
        cases t1 with
        | nil => simp [specRun, lengthModifier]
        | cons b t2 =>
          by_cases hb : b = 108
          · subst hb
            have hl : lengthModifier (108 :: 108 :: t2) = (DSTS_TYPE_LLONG, 2) := by
              simp [lengthModifier]
            rw [hl] at hc ⊢
            simp only [List.drop_succ_cons, List.drop_zero] at hc
            simp [specRun, specRun_letter t2 hc]
          · have hl : lengthModifier (108 :: b :: t2) = (DSTS_TYPE_LONG, 1) := by
              simp [lengthModifier, hb]
            rw [hl] at hc ⊢
            simp only [List.drop_succ_cons, List.drop_zero] at hc
            have h0 := specRun_letter (b :: t2) hc
            simp [specRun] at h0 ⊢
            exact h0
      · have hl : lengthModifier (a :: t1) = (DSTS_TYPE_DEFAULT, 0) := by
          simp [lengthModifier, ha, ha']
        rw [hl] at hc ⊢
        exact specRun_letter (a :: t1) hc

theorem strtol_len_eq (s : List Nat) (base : Nat) :
    (strtol s base).len = (scanSubject s base).len := by
  unfold strtol
  simp only
  split_ifs <;> rfl

/-- Without white space and without a sign in front, `strtol` reads the digits
at the head of the bytes. -/
theorem strtol_len_plain (s : List Nat) (hsp : isspace (s.headD 0) = false)
    (h43 : s.headD 0 ≠ 43) (h45 : s.headD 0 ≠ 45) :
    (strtol s 10).len = (digitRun 10 s 0).2 := by
  have hws := spaceRun_of_not_space s hsp
  rw [strtol_len_eq]
  simp only [scanSubject, hws, List.drop_zero, h45, h43, or_self, if_false, hexPrefix_ten,
    Nat.zero_add]
  split_ifs with h0
  · exact h0.symm
  · rfl

/-- With a width written in digits only, `parse_arg` and the driver measure the
directive alike. -/
theorem extent_agree (fmt : List Nat) (hsp : isspace (fmt.headD 0) = false)
    (h43 : fmt.headD 0 ≠ 43) (h45 : fmt.headD 0 ≠ 45)
    (hc : IsConvLetter (((fmt.drop (strtol fmt 10).len).drop
      (lengthModifier (fmt.drop (strtol fmt 10).len)).2).headD 0)) :
    skippedExtent fmt = parsedExtent fmt := by
  have h1 := strtol_len_plain fmt hsp h43 h45
  have h2 := specRun_digitRun fmt 0
  have h3 := specRun_lengthModifier (fmt.drop (strtol fmt 10).len) hc
  unfold skippedExtent parsedExtent
  rw [h1] at h3 ⊢
  omega

/-- With white space or a sign in front of the width, the driver steps over
one byte and `parse_arg` has read more. -/
theorem extent_differ (fmt : List Nat)
    (hsp : isspace (fmt.headD 0) = true ∨ fmt.headD 0 = 43 ∨ fmt.headD 0 = 45)
    (hc : IsConvLetter (((fmt.drop (strtol fmt 10).len).drop
      (lengthModifier (fmt.drop (strtol fmt 10).len)).2).headD 0)) :
    skippedExtent fmt = 1 ∧ 1 < parsedExtent fmt := by
  have hhead : fmt.headD 0 ≤ 45 := by
    rcases hsp with h | h | h
    · simp only [isspace, Bool.or_eq_true, beq_iff_eq, Bool.and_eq_true, decide_eq_true_eq] at h
      omega
    · omega
    · omega
  have hspec : specRun fmt = 0 := by
    cases fmt with
    | nil => rfl
    | cons c cs =>
      simp only [List.headD_cons] at hhead
      have hn : ¬ ((48 ≤ c ∧ c ≤ 57) ∨ c = 104 ∨ c = 108) := by omega
      simp [specRun, hn]
  have hlen : (strtol fmt 10).len ≠ 0 := by
    intro h0
    rw [h0] at hc
    simp only [List.drop_zero] at hc
    have hl : lengthModifier fmt = (DSTS_TYPE_DEFAULT, 0) := by
      have h104 : ¬ (fmt.headD 0 = 104) := by omega
      have h108 : ¬ (fmt.headD 0 = 108) := by omega
      simp only [lengthModifier, h104, h108, if_false]
    rw [hl] at hc
    simp only [List.drop_zero] at hc
    have := isConvLetter_bounds hc
    omega
  unfold skippedExtent parsedExtent
  constructor
  · omega
  · omega

/-! ## Digits in the bases 8 and 16 -/

theorem digitRun_not_digit (base : Nat) (rest : List Nat) (acc : Nat)
    (h : isDigitIn base (rest.headD 0) = false) : digitRun base rest acc = (acc, 0) := by
  cases rest with
  | nil => rfl
  | cons c cs =>
    simp only [List.headD_cons, isDigitIn] at h
    unfold digitRun
    cases hd : digitOf c with
    | none => rfl
    | some d =>
      rw [hd] at h
      have hlt : ¬ (d < base) := by simpa using h
      simp [hlt]

theorem digitRun_run (base : Nat) (ds rest : List Nat)
    (hds : ∀ c ∈ ds, isDigitIn base c = true)
    (hrest : isDigitIn base (rest.headD 0) = false) (acc : Nat) :
    digitRun base (ds ++ rest) acc
      = (ds.foldl (fun a c => a * base + (digitOf c).getD 0) acc, ds.length) := by
  induction ds generalizing acc with
  | nil => simpa using digitRun_not_digit base rest acc hrest
  | cons d ds ih =>
    have hd : isDigitIn base d = true := hds d (by simp)
    simp only [isDigitIn] at hd
    cases hv : digitOf d with
    | none => rw [hv] at hd; simp at hd
    | some v =>
      rw [hv] at hd
      have hlt : v < base := by simpa using hd
      have h := ih (fun c hc => hds c (by simp [hc])) (acc * base + v)
      simp only [List.cons_append, digitRun, hv, hlt, if_true, List.foldl_cons,
        List.length_cons, Option.getD_some, List.append_eq, h]

theorem strtol_hex (hs tl : List Nat) (hds : ∀ c ∈ hs, isDigitIn 16 c = true)
    (hne : hs ≠ []) (htl : isDigitIn 16 (tl.headD 0) = false)
    (hv : (valueIn 16 hs : Int) ≤ LONG_MAX) :
    strtol (48 :: 120 :: (hs ++ tl)) 16 = ⟨(valueIn 16 hs : Int), 2 + hs.length, false⟩ := by
  obtain ⟨d, hs', rfl⟩ := List.exists_cons_of_ne_nil hne
  have hd : isDigitIn 16 d = true := hds d (by simp)
  have hrun := digitRun_run 16 (d :: hs') tl hds htl 0
  have hpx : hexPrefix 16 (48 :: 120 :: (d :: hs' ++ tl)) = 2 := by
    simp [hexPrefix, hd]
  have hws : spaceRun (48 :: 120 :: (d :: hs' ++ tl)) = 0 := by simp [spaceRun, isspace]
  have h1 : ¬ ((valueIn 16 (d :: hs') : Int) > LONG_MAX) := by omega
  have h2 : ¬ ((valueIn 16 (d :: hs') : Int) < LONG_MIN) := by unfold LONG_MIN; omega
  have hs : scanSubject (48 :: 120 :: (d :: hs' ++ tl)) 16
      = ⟨false, valueIn 16 (d :: hs'), 2 + (d :: hs').length⟩ := by
    simp only [List.cons_append] at hrun hpx hws ⊢
    simp only [scanSubject, hws, List.drop_zero, List.headD_cons]
    simp [hpx, hrun, valueIn]
  simp only [strtol, hs, Bool.false_eq_true, if_false, h1, h2]

theorem strtol_oct (os tl : List Nat) (hds : ∀ c ∈ os, isDigitIn 8 c = true)
    (htl : isDigitIn 8 (tl.headD 0) = false)
    (hv : (valueIn 8 os : Int) ≤ LONG_MAX) :
    strtol (48 :: (os ++ tl)) 8 = ⟨(valueIn 8 os : Int), 1 + os.length, false⟩ := by
  have h48 : isDigitIn 8 48 = true := by decide
  have hds' : ∀ c ∈ 48 :: os, isDigitIn 8 c = true := by
    intro c hc
    rcases List.mem_cons.mp hc with rfl | hc
    · exact h48
    · exact hds c hc
  have hrun := digitRun_run 8 (48 :: os) tl hds' htl 0
  have hws : spaceRun (48 :: (os ++ tl)) = 0 := by simp [spaceRun, isspace]
  have h1 : ¬ ((valueIn 8 os : Int) > LONG_MAX) := by omega
  have h2 : ¬ ((valueIn 8 os : Int) < LONG_MIN) := by unfold LONG_MIN; omega
  have hval : List.foldl (fun a c => a * 8 + (digitOf c).getD 0) 0 (48 :: os) = valueIn 8 os := by
    simp [valueIn, digitOf]
  have hs : scanSubject (48 :: (os ++ tl)) 8 = ⟨false, valueIn 8 os, 1 + os.length⟩ := by
    have hpx : hexPrefix 8 (48 :: (os ++ tl)) = 0 := by simp [hexPrefix]
    simp only [List.cons_append] at hrun
    simp only [scanSubject, hws, List.drop_zero, List.headD_cons]
    simp [hpx, hrun, hval, Nat.add_comm]
  simp only [strtol, hs, Bool.false_eq_true, if_false, h1, h2]

theorem signedMin_neg (m : LengthMod) : signedMin m < 0 := by
  cases m <;> decide

theorem signedMax_le_long (m : LengthMod) : signedMax m ≤ LONG_MAX := by
  cases m <;> decide

/-- The `%i` and `%d` conversions with the expected tag, in closed form. -/
theorem parse_arg_signed (strtof : Strtof) (e : Bool) (ds : List Nat) (m : LengthMod)
    (rest input : List Nat) (a : Arg) (args : List Arg)
    (hds : ∀ d ∈ ds, IsDec d) (hw : decimal ds < DSTS_MAX_STRING_OUTPUT)
    (htag : a.iType = signedTag m) :
    parse_arg strtof e (ds ++ (m.text ++ 105 :: rest)) input (a :: args)
        = .ok (signedOutcome (chosenBase input) m (decimal ds) input a args e)
    ∧ parse_arg strtof e (ds ++ (m.text ++ 100 :: rest)) input (a :: args)
        = .ok (signedOutcome 10 m (decimal ds) input a args e) := by
  constructor
  · rw [parse_arg_directive strtof e ds m 105 rest input a args hds hw (by decide) (by decide)
      (by decide), convert_i, chosenBase_eq, conv_d_eq _ m _ _ _ _ _ a args e htag]
    rfl
  · rw [parse_arg_directive strtof e ds m 100 rest input a args hds hw (by decide) (by decide)
      (by decide), convert_d, conv_d_eq _ m _ _ _ _ _ a args e htag]
    rfl

/-! ## The claims, continued -/

/-- C11: a `%s` directive (without a width, or with a width below 16384
written by the digits `ds`) with a `String` tag and a non-null destination,
reached on non-empty input: when the declared capacity is above
`DSTS_MAX_STRING_OUTPUT` = 16384, the conversion returns BufferTooSmall with
the cursor unmoved and nothing stored, and the scan returns BufferTooSmall
with the match count of the conversions before it; a capacity of exactly
16384 is accepted, the conversion succeeds and zero-fills the whole buffer. -/
theorem C11_capacity_above_maximum (strtof : Strtof) (e : Bool) (fuel ret : Nat)
    (ds rest input : List Nat) (p cap : Nat) (args : List Arg) (stores : List Store)
    (hds : ∀ d ∈ ds, IsDec d) (hw : decimal ds < DSTS_MAX_STRING_OUTPUT) (hp : p ≠ 0)
    (hin : input.headD 0 ≠ 0) :
    (cap > DSTS_MAX_STRING_OUTPUT →
      parse_arg strtof e (ds ++ 115 :: rest) input (⟨DSTS_TYPE_STRING, p, cap⟩ :: args)
        = .ok ⟨DSTS_ERROR_BUFFER_TOO_SMALL, 0, [], args, e⟩
      ∧ scanLoop strtof (fuel + 1) e ret (37 :: (ds ++ 115 :: rest)) input
          (⟨DSTS_TYPE_STRING, p, cap⟩ :: args) stores
        = .ok ⟨ret, DSTS_ERROR_BUFFER_TOO_SMALL, stores⟩)
    ∧ (cap = DSTS_MAX_STRING_OUTPUT →
      ∃ r, parse_arg strtof e (ds ++ 115 :: rest) input (⟨DSTS_TYPE_STRING, p, cap⟩ :: args)
          = .ok r
        ∧ r.error = DSTS_ERROR_SUCCESS
        ∧ r.stores.head? = some (Store.fill p DSTS_MAX_STRING_OUTPUT)) := by
  have hpa := parse_arg_plain strtof e ds 115 rest input ⟨DSTS_TYPE_STRING, p, cap⟩ args
    hds hw (by decide) (by decide) (by decide)
  rw [convert_s] at hpa
  constructor
  · intro hcap
    have hcs : conv_s (decide (decimal ds > 0)) (decimal ds) input ⟨DSTS_TYPE_STRING, p, cap⟩
        args e = ⟨DSTS_ERROR_BUFFER_TOO_SMALL, 0, [], args, e⟩ := by
      simp [conv_s, hp, hcap]
    rw [hcs] at hpa
    refine ⟨hpa, ?_⟩
    rw [scanLoop_percent strtof fuel e ret _ input _ stores hin, hpa]
    simp [DSTS_ERROR_BUFFER_TOO_SMALL, DSTS_ERROR_SUCCESS]
  · intro hcap
    subst hcap
    refine ⟨_, hpa, ?_, ?_⟩
    · simp [conv_s, hp, DSTS_MAX_STRING_OUTPUT]
    · simp [conv_s, hp, DSTS_MAX_STRING_OUTPUT]

/-- C11 at "hello" against "%s" with a declared capacity of 16385. -/
theorem C11_capacity_above_maximum_witness :
    dsts_secure_sscanf noFloat false (bytes "hello") (bytes "%s")
        [⟨DSTS_TYPE_STRING, 1, 16385⟩]
      = .ok ⟨0, DSTS_ERROR_BUFFER_TOO_SMALL, []⟩ :=
  ((C11_capacity_above_maximum noFloat false 1 0 [] [] (bytes "hello") 1 16385 [] []
    (by simp) (by decide) (by decide) (by decide)).1 (by decide)).2

/-- C12: whenever the driver reaches a conversion directive on which the
argument parser returns a status other than Success, the scan returns at once
with that status and with the match count it had before the directive; the
stores made so far stay as they are, and the only stores added are those of
the failing directive, all of them to its own destination.  Scanning
"12 abc" with "%d %d" returns 1, NumericConversionError, first = 12,
second = 0. -/
theorem C12_failure_stops_scan (strtof : Strtof) (e : Bool) (fuel ret : Nat)
    (fs input : List Nat) (args : List Arg) (stores : List Store) (r : ParseResult)
    (hin : input.headD 0 ≠ 0) (h : parse_arg strtof e fs input args = .ok r)
    (herr : r.error ≠ DSTS_ERROR_SUCCESS) :
    scanLoop strtof (fuel + 1) e ret (37 :: fs) input args stores
        = .ok ⟨ret, r.error, stores ++ r.stores⟩
    ∧ (∀ (a : Arg) (rest : List Arg), args = a :: rest → ∀ s ∈ r.stores, s.ptr = a.pOutput)
    ∧ dsts_secure_sscanf noFloat false (bytes "12 abc") (bytes "%d %d")
          [⟨DSTS_TYPE_INT, 1, 0⟩, ⟨DSTS_TYPE_INT, 2, 0⟩]
        = .ok ⟨1, DSTS_ERROR_NUMERIC_CONVERSION,
            [Store.obj 1 (.int 0), Store.obj 1 (.int 12), Store.obj 2 (.int 0)]⟩ := by
  refine ⟨?_, ?_, by decide!⟩
  · rw [scanLoop_percent strtof fuel e ret fs input args stores hin, h]
    simp only [herr, ne_eq, not_false_eq_true, if_true]
  · intro a rest ha
    subst ha
    exact parse_arg_ptr strtof e fs input a rest r h

/-- C12 at "12 abc" against "%d %d", at the second directive. -/
theorem C12_failure_stops_scan_witness :
    scanLoop noFloat 2 false 1 (bytes "%d") (bytes "abc") [⟨DSTS_TYPE_INT, 2, 0⟩]
        [Store.obj 1 (.int 0), Store.obj 1 (.int 12)]
      = .ok ⟨1, DSTS_ERROR_NUMERIC_CONVERSION,
          [Store.obj 1 (.int 0), Store.obj 1 (.int 12), Store.obj 2 (.int 0)]⟩ :=
  (C12_failure_stops_scan noFloat false 1 1 (bytes "d") (bytes "abc") [⟨DSTS_TYPE_INT, 2, 0⟩]
    [Store.obj 1 (.int 0), Store.obj 1 (.int 12)]
    (numericError (bytes "abc") 0 [Store.obj 2 (.int 0)] [] false)
    (by decide) rfl (by decide)).1

/-- C13: whenever the driver is at a format byte that is neither `%` nor white
space and that differs from the current input byte, the scan stops with status
Success and the match count accumulated so far, and nothing more is stored.
Scanning "12x" with "%dy%d" returns 1 with status Success and the second
destination untouched. -/
theorem C13_literal_mismatch (strtof : Strtof) (e : Bool) (fuel ret f : Nat)
    (fs input : List Nat) (args : List Arg) (stores : List Store)
    (h37 : f ≠ 37) (hsp : isspace f = false) (hne : f ≠ input.headD 0) :
    scanLoop strtof (fuel + 1) e ret (f :: fs) input args stores
        = .ok ⟨ret, DSTS_ERROR_SUCCESS, stores⟩
    ∧ dsts_secure_sscanf strtof e (bytes "12x") (bytes "%dy%d")
          [⟨DSTS_TYPE_INT, 1, 0⟩, ⟨DSTS_TYPE_INT, 2, 0⟩]
        = .ok ⟨1, DSTS_ERROR_SUCCESS, [Store.obj 1 (.int 0), Store.obj 1 (.int 12)]⟩ := by
  refine ⟨?_, rfl⟩
  rw [scanLoop]
  simp only [List.headD_cons, List.drop_succ_cons, List.drop_zero, h37, hsp, hne, if_false,
    Bool.false_eq_true]
  split_ifs <;> rfl

/-- C13 at the literal "y" of "%dy%d" against the input byte "x". -/
theorem C13_literal_mismatch_witness :
    scanLoop noFloat 3 false 1 (bytes "y%d") (bytes "x") [⟨DSTS_TYPE_INT, 2, 0⟩]
        [Store.obj 1 (.int 0), Store.obj 1 (.int 12)]
      = .ok ⟨1, DSTS_ERROR_SUCCESS, [Store.obj 1 (.int 0), Store.obj 1 (.int 12)]⟩ :=
  (C13_literal_mismatch noFloat false 2 1 121 (bytes "%d") (bytes "x") [⟨DSTS_TYPE_INT, 2, 0⟩]
    [Store.obj 1 (.int 0), Store.obj 1 (.int 12)] (by decide) (by decide) (by decide)).1

/-- C14 (the code differs): without a width the cursor of a successful `%d` or
`%u` conversion moves by exactly the bytes `strtol` / `strtoul` consumed, as
claimed.  With a width the loop of lines 255-258 (362-365) compares the bytes
`*pParse` and `*pEnd`, not the pointers, so it stops at the first byte of the
field that equals the byte after the number: on " 5 " against "%4d" the
parser consumes 2 bytes, 5 is stored and Success returned, but the cursor
does not move (and the driver then takes the conversion for a failed match);
on "0x1Fx" against "%6x" the parser consumes 4 bytes and the cursor moves
by 1. -/
theorem C14_width_cursor (strtof : Strtof) (e : Bool) :
    (∀ (m : LengthMod) (rest input : List Nat) (a : Arg) (args : List Arg) (r : ParseResult),
        a.iType = signedTag m →
        parse_arg strtof e (m.text ++ 100 :: rest) input (a :: args) = .ok r →
        r.error = DSTS_ERROR_SUCCESS → r.cursor = (strtol input 10).len)
    ∧ (∀ (m : LengthMod) (rest input : List Nat) (a : Arg) (args : List Arg) (r : ParseResult),
        a.iType = unsignedTag m →
        parse_arg strtof e (m.text ++ 117 :: rest) input (a :: args) = .ok r →
        r.error = DSTS_ERROR_SUCCESS → r.cursor = (strtoul input 10).len)
    ∧ parse_arg noFloat false (bytes "4d") (bytes " 5 ") [⟨DSTS_TYPE_INT, 1, 0⟩]
        = .ok ⟨DSTS_ERROR_SUCCESS, 0, [Store.obj 1 (.int 0), Store.obj 1 (.int 5)], [], false⟩
    ∧ (strtol (field 4 (bytes " 5 ")) 10).len = 2
    ∧ dsts_secure_sscanf noFloat false (bytes " 5 ") (bytes "%4d") [⟨DSTS_TYPE_INT, 1, 0⟩]
        = .ok ⟨0, DSTS_ERROR_SUCCESS, [Store.obj 1 (.int 0), Store.obj 1 (.int 5)]⟩
    ∧ parse_arg noFloat false (bytes "6x") (bytes "0x1Fx") [⟨DSTS_TYPE_UINT, 1, 0⟩]
        = .ok ⟨DSTS_ERROR_SUCCESS, 1, [Store.obj 1 (.int 0), Store.obj 1 (.int 31)], [], false⟩
    ∧ (strtoul (field 6 (bytes "0x1Fx")) 16).len = 4 := by
  refine ⟨?_, ?_, by decide!, by decide!, by decide!, by decide!, by decide!⟩
  · intro m rest input a args r htag h hok
    rw [parse_arg_nowidth strtof e m 100 rest input a args (by decide) (by decide) (by decide),
      convert_d] at h
    have hr := Outcome.ok.inj h
    subst hr
    exact conv_d_cursor_plain 10 m _ _ input a args e htag hok
  · intro m rest input a args r htag h hok
    rw [parse_arg_nowidth strtof e m 117 rest input a args (by decide) (by decide) (by decide),
      convert_u] at h
    have hr := Outcome.ok.inj h
    subst hr
    exact conv_u_cursor_plain 10 m _ _ input a args e htag hok

/-- C15: for every width `w`, `0 < w < 16384`, written by the digits `ds`, and
every input that begins with `w` decimal digits `dsIn` whose value is at most
`INT_MAX`, a `%<w>d` directive with an `Int` tag and a non-null destination
stores the value of `dsIn`, moves the cursor by exactly `w` bytes and is
counted, and the scan goes on with the format after the directive and the
input after the `w` digits.  Scanning "20241030" with "%4d%2d%2d" returns 3
with the values 2024, 10 and 30. -/
theorem C15_fixed_width_digits (strtof : Strtof) (e : Bool) (fuel ret : Nat)
    (ds dsIn rest fmtRest : List Nat) (p sz : Nat) (args : List Arg) (stores : List Store)
    (hds : ∀ d ∈ ds, IsDec d) (hw0 : 0 < decimal ds) (hw : decimal ds < DSTS_MAX_STRING_OUTPUT)
    (hin : ∀ c ∈ dsIn, IsDec c) (hlen : dsIn.length = decimal ds)
    (hv : (decimal dsIn : Int) ≤ INT_MAX) (hp : p ≠ 0) :
    parse_arg strtof e (ds ++ 100 :: fmtRest) (dsIn ++ rest) (⟨DSTS_TYPE_INT, p, sz⟩ :: args)
        = .ok ⟨DSTS_ERROR_SUCCESS, decimal ds,
            [Store.obj p (.int 0), Store.obj p (.int (decimal dsIn))], args, e⟩
    ∧ scanLoop strtof (fuel + 1) e ret (37 :: (ds ++ 100 :: fmtRest)) (dsIn ++ rest)
          (⟨DSTS_TYPE_INT, p, sz⟩ :: args) stores
        = scanLoop strtof fuel e (ret + 1) fmtRest rest args
            (stores ++ [Store.obj p (.int 0), Store.obj p (.int (decimal dsIn))])
    ∧ dsts_secure_sscanf noFloat false (bytes "20241030") (bytes "%4d%2d%2d")
          [⟨DSTS_TYPE_INT, 1, 0⟩, ⟨DSTS_TYPE_INT, 2, 0⟩, ⟨DSTS_TYPE_INT, 3, 0⟩]
        = .ok ⟨3, DSTS_ERROR_SUCCESS,
            [Store.obj 1 (.int 0), Store.obj 1 (.int 2024), Store.obj 2 (.int 0),
              Store.obj 2 (.int 10), Store.obj 3 (.int 0), Store.obj 3 (.int 30)]⟩ := by
  have hne : dsIn ≠ [] := by
    intro h0
    rw [h0] at hlen
    simp at hlen
    omega
  have hnz : ∀ c ∈ dsIn, c ≠ 0 := fun c hc => by
    have : 48 ≤ c ∧ c ≤ 57 := hin c hc
    omega
  have hhead : (dsIn ++ rest).headD 0 ≠ 0 := by
    obtain ⟨d, ds', rfl⟩ := List.exists_cons_of_ne_nil hne
    simpa using hnz d (by simp)
  have hfield : field (decimal ds) (dsIn ++ rest) = dsIn := by
    simp only [field, hw0, if_true]
    rw [← hlen]
    exact strncpy_prefix dsIn rest hnz
  have hlong : (decimal dsIn : Int) ≤ LONG_MAX := by
    have : INT_MAX ≤ LONG_MAX := by decide
    omega
  have hst := strtol_digits dsIn hin hne hlong
  have htrim : trimLoop 0 (decimal ds) dsIn = decimal ds := by
    apply trimLoop_full 0 (decimal ds) dsIn (by omega)
    intro c hc
    exact hnz c (List.mem_of_mem_take hc)
  have hdlen : dsIn.length ≠ 0 := by omega
  have hmin : signedMin .none ≤ (decimal dsIn : Int) := by
    have : signedMin .none < 0 := by decide
    omega
  have hconv : convert strtof 100 DSTS_TYPE_DEFAULT (decimal ds) (decide (decimal ds > 0))
      (decimal ds) (field (decimal ds) (dsIn ++ rest)) (dsIn ++ rest) ⟨DSTS_TYPE_INT, p, sz⟩
      args e
      = ⟨DSTS_ERROR_SUCCESS, decimal ds,
          [Store.obj p (.int 0), Store.obj p (.int (decimal dsIn))], args, e⟩ := by
    have hd : decide (decimal ds > 0) = true := by simpa using hw0
    have hgt : ¬ ((decimal dsIn : Int) > signedMax .none) := not_lt.mpr hv
    rw [convert_d, hfield, hd]
    rw [show DSTS_TYPE_DEFAULT = LengthMod.none.spType from rfl,
      conv_d_eq 10 .none _ true _ dsIn _ ⟨DSTS_TYPE_INT, p, sz⟩ args e rfl, hst]
    simp only [hdlen, if_false, hgt, advance, if_true, List.drop_length, List.headD_nil, htrim,
      wrapSigned_of_range .none _ hmin hv, Bool.or_false, DSTS_PUT_VALUE, hp,
      List.singleton_append, ← hlen]
    rw [hlen, htrim]
  have hpa := parse_arg_plain strtof e ds 100 fmtRest (dsIn ++ rest) ⟨DSTS_TYPE_INT, p, sz⟩
    args hds hw (by decide) (by decide) (by decide)
  rw [hconv] at hpa
  refine ⟨hpa, ?_, by decide!⟩
  rw [scanLoop_percent strtof fuel e ret _ _ _ stores hhead, hpa]
  have h0 : ¬ (decimal ds = 0) := by omega
  simp only [ne_eq, not_true_eq_false, if_false, h0,
    specRun_digits ds 100 fmtRest hds (by decide) (by decide) (by decide), List.drop_left,
    List.drop_succ_cons, List.drop_zero, headD_digits_ne ds 100 fmtRest hds (by decide),
    not_false_eq_true, if_true]
  rw [← hlen, List.drop_left]

/-- C15 at "20241030" against "%4d": 2024 is stored and the cursor moves by 4. -/
theorem C15_fixed_width_digits_witness :
    parse_arg noFloat false (bytes "4d") (bytes "20241030") [⟨DSTS_TYPE_INT, 1, 0⟩]
      = .ok ⟨DSTS_ERROR_SUCCESS, 4, [Store.obj 1 (.int 0), Store.obj 1 (.int 2024)], [], false⟩ :=
  (C15_fixed_width_digits noFloat false 0 0 [52] (bytes "2024") (bytes "1030") [] 1 0 [] []
    (by decide) (by decide) (by decide) (by decide) (by decide) (by decide) (by decide)).1

/-- C16 (counterexample): "hello" against "%3s" with a capacity of 4.  The
three bytes the width allows fill the buffer, line 450 takes the full buffer
for a truncation and lines 452-453 skip the rest of the token: the
conversion succeeds and returns the cursor 5 bytes further, beyond the width
of 3. -/
theorem C16_counterexample_token_skipped :
    parse_arg noFloat false (bytes "3s") (bytes "hello") [⟨DSTS_TYPE_STRING, 1, 4⟩]
      = .ok ⟨DSTS_ERROR_SUCCESS, 5,
          [Store.fill 1 4, Store.byte 1 0 104, Store.byte 1 1 101, Store.byte 1 2 108],
          [], false⟩ := by
  decide!

/-- C16 (amended): for every conversion directive with a width `w`,
`0 < w < 16384`, a letter among d, i, u, x, X, s, any length modifier and any
destination, that ends with status Success, the cursor the argument parser
returns is at most `w` bytes beyond the one it was given, provided that for
`%s` the declared capacity is at least `w + 2` or the token at the cursor is
at most `w` bytes long. -/
theorem C16_width_bound (strtof : Strtof) (e : Bool) (ds : List Nat) (m : LengthMod)
    (c : Nat) (rest input : List Nat) (a : Arg) (args : List Arg) (r : ParseResult)
    (hds : ∀ d ∈ ds, IsDec d) (hw0 : 0 < decimal ds) (hw : decimal ds < DSTS_MAX_STRING_OUTPUT)
    (hc : c = 100 ∨ c = 105 ∨ c = 117 ∨ c = 120 ∨ c = 88 ∨ c = 115)
    (hs : c = 115 → decimal ds + 1 < a.cbSize ∨ (tokenOf input).length ≤ decimal ds)
    (h : parse_arg strtof e (ds ++ (m.text ++ c :: rest)) input (a :: args) = .ok r)
    (hok : r.error = DSTS_ERROR_SUCCESS) :
    r.cursor ≤ decimal ds := by
  have hd : decide (decimal ds > 0) = true := by simpa using hw0
  have hb : 58 ≤ c ∧ c ≠ 104 ∧ c ≠ 108 := by omega
  rw [parse_arg_directive strtof e ds m c rest input a args hds hw hb.1 hb.2.1 hb.2.2, hd] at h
  have hr := Outcome.ok.inj h
  subst hr
  rcases hc with rfl | rfl | rfl | rfl | rfl | rfl
  · rw [convert_d] at hok ⊢
    exact conv_d_cursor_le _ m _ _ _ input a args e hok
  · rw [convert_i] at hok ⊢
    exact conv_d_cursor_le _ m _ _ _ input a args e hok
  · rw [convert_u] at hok ⊢
    exact conv_u_cursor_le _ m _ _ _ input a args e hok
  · rw [convert_x] at hok ⊢
    exact conv_u_cursor_le _ m _ _ _ input a args e hok
  · rw [convert_X] at hok ⊢
    exact conv_u_cursor_le _ m _ _ _ input a args e hok
  · rw [convert_s] at hok ⊢
    exact conv_s_cursor_le _ input a args e (hs rfl) hok

/-- C16 at "hello" against "%3s" with a capacity of 16: the cursor moves by 3. -/
theorem C16_width_bound_witness :
    ∃ r, parse_arg noFloat false (bytes "3s") (bytes "hello") [⟨DSTS_TYPE_STRING, 1, 16⟩]
          = .ok r
      ∧ r.error = DSTS_ERROR_SUCCESS ∧ r.cursor = 3 ∧ r.cursor ≤ decimal (bytes "3") :=
  ⟨⟨DSTS_ERROR_SUCCESS, 3,
      [Store.fill 1 16, Store.byte 1 0 104, Store.byte 1 1 101, Store.byte 1 2 108], [], false⟩,
    by decide!, rfl, rfl,
    C16_width_bound noFloat false (bytes "3") .none 115 [] (bytes "hello")
      ⟨DSTS_TYPE_STRING, 1, 16⟩ []
      ⟨DSTS_ERROR_SUCCESS, 3,
        [Store.fill 1 16, Store.byte 1 0 104, Store.byte 1 1 101, Store.byte 1 2 108], [], false⟩
      (by decide) (by decide) (by decide) (by decide) (fun _ => Or.inl (by decide))
      (by decide!) rfl⟩

/-- C17: a `%s` directive without a width, with a `String` tag and a non-null
destination of capacity `cap`, `1 ≤ cap ≤ 16384`, on an input whose token at
the cursor is longer than `cap - 1` bytes: the conversion returns Success
with the cursor at the end of the whole token, where the byte is a NUL or
white space; the destination holds the first `cap - 1` bytes of the token
and a NUL; the directive is counted and the scan goes on after the token. -/
theorem C17_truncated_string (strtof : Strtof) (e : Bool) (fuel ret : Nat)
    (fmtRest input : List Nat) (p cap : Nat) (args : List Arg) (stores : List Store)
    (hp : p ≠ 0) (hcap1 : 1 ≤ cap) (hcap : cap ≤ DSTS_MAX_STRING_OUTPUT)
    (hlong : cap - 1 < (tokenOf input).length) :
    parse_arg strtof e (115 :: fmtRest) input (⟨DSTS_TYPE_STRING, p, cap⟩ :: args)
        = .ok ⟨DSTS_ERROR_SUCCESS, (tokenOf input).length,
            Store.fill p cap :: byteStores p 0 ((tokenOf input).take (cap - 1)), args, e⟩
    ∧ bufferAfter p (Store.fill p cap :: byteStores p 0 ((tokenOf input).take (cap - 1)))
        = some ((tokenOf input).take (cap - 1) ++ [0])
    ∧ ((input.drop (tokenOf input).length).headD 0 = 0
        ∨ isspace ((input.drop (tokenOf input).length).headD 0) = true)
    ∧ scanLoop strtof (fuel + 1) e ret (37 :: 115 :: fmtRest) input
          (⟨DSTS_TYPE_STRING, p, cap⟩ :: args) stores
        = scanLoop strtof fuel e (ret + 1) fmtRest (input.drop (tokenOf input).length) args
            (stores ++ Store.fill p cap :: byteStores p 0 ((tokenOf input).take (cap - 1))) := by
  have hcap0 : cap ≠ 0 := by omega
  have hn : copyCount false 0 (cap - 1) (tokenOf input).length = cap - 1 := by
    unfold copyCount
    simp only [Bool.false_eq_true, if_false]
    omega
  have hpa : parse_arg strtof e (115 :: fmtRest) input (⟨DSTS_TYPE_STRING, p, cap⟩ :: args)
      = .ok ⟨DSTS_ERROR_SUCCESS, (tokenOf input).length,
          Store.fill p cap :: byteStores p 0 ((tokenOf input).take (cap - 1)), args, e⟩ := by
    have h := parse_arg_nowidth strtof e .none 115 fmtRest input ⟨DSTS_TYPE_STRING, p, cap⟩ args
      (by decide) (by decide) (by decide)
    simp only [LengthMod.text, List.nil_append] at h
    rw [h, convert_s, conv_s_eq false 0 input p cap args e hp hcap0 hcap, hn]
    simp
  have hin : input.headD 0 ≠ 0 := token_headD input (by omega)
  refine ⟨hpa, ?_, token_end input, ?_⟩
  · have hf := foldl_byteStores p ((tokenOf input).take (cap - 1)) [] cap
      (by rw [List.length_take]; omega)
    simp only [List.length_nil, List.nil_append] at hf
    simp only [bufferAfter, List.foldl_cons, applyStore, if_true]
    rw [hf, List.length_take]
    have : cap - min (cap - 1) (tokenOf input).length = 1 := by omega
    rw [this]
    rfl
  · rw [scanLoop_percent strtof fuel e ret _ input _ stores hin, hpa]
    have h0 : ¬ ((tokenOf input).length = 0) := by omega
    simp [h0, specRun, DSTS_ERROR_SUCCESS]

/-- C17 at "hello world" against "%s" with a capacity of 4. -/
theorem C17_truncated_string_witness :
    parse_arg noFloat false (bytes "s") (bytes "hello world") [⟨DSTS_TYPE_STRING, 1, 4⟩]
      = .ok ⟨DSTS_ERROR_SUCCESS, 5,
          [Store.fill 1 4, Store.byte 1 0 104, Store.byte 1 1 101, Store.byte 1 2 108],
          [], false⟩ :=
  (C17_truncated_string noFloat false 0 0 [] (bytes "hello world") 1 4 [] []
    (by decide) (by decide) (by decide) (by decide)).1

/-- C18: for every `%i` directive, with any length modifier, without a width or
with a width below 16384, the base is chosen from the first bytes of the input
as it stands at the cursor, not of the copy cut to the width: `'0'` then `'x'`
gives 16, `'0'` then anything else gives 8, any other first byte gives 10; the
conversion is then the one of `%d` with that base in the place of 10.  With
the expected tag it is the signed conversion of the specification, the field
parsed by `strtol` in the chosen base, for `%i`, and in base 10 for `%d`.
Without a width and with a non-null destination: on "0x" and hexadecimal
digits the value stored is the one of the digits in base 16 and the cursor is
past them; on "0" and octal digits it is their value in base 8; on a decimal
literal that does not begin with "0" it is the value `%d` stores.  "0x1F"
gives 31, "017" gives 15, "17" gives 17.  With a width: "%3i" on "0175"
stores 15 where "%3d" stores 17, "%4i" on "0x1F5" stores 31, and "%1i" on
"0x1F" parses the field "0" in base 16. -/
theorem C18_base_selection (strtof : Strtof) (e : Bool) (ds : List Nat) (m : LengthMod)
    (rest input : List Nat) (a : Arg) (args : List Arg)
    (hds : ∀ d ∈ ds, IsDec d) (hw : decimal ds < DSTS_MAX_STRING_OUTPUT) :
    parse_arg strtof e (ds ++ (m.text ++ 105 :: rest)) input (a :: args)
        = .ok (conv_d (chosenBase input) m.spType (decimal ds) (decide (decimal ds > 0))
            (decimal ds) (field (decimal ds) input) input a args e)
    ∧ parse_arg strtof e (ds ++ (m.text ++ 100 :: rest)) input (a :: args)
        = .ok (conv_d 10 m.spType (decimal ds) (decide (decimal ds > 0))
            (decimal ds) (field (decimal ds) input) input a args e)
    ∧ (input.headD 0 ≠ 48 →
        parse_arg strtof e (ds ++ (m.text ++ 105 :: rest)) input (a :: args)
          = parse_arg strtof e (ds ++ (m.text ++ 100 :: rest)) input (a :: args))
    ∧ (a.iType = signedTag m →
        parse_arg strtof e (ds ++ (m.text ++ 105 :: rest)) input (a :: args)
            = .ok (signedOutcome (chosenBase input) m (decimal ds) input a args e)
        ∧ parse_arg strtof e (ds ++ (m.text ++ 100 :: rest)) input (a :: args)
            = .ok (signedOutcome 10 m (decimal ds) input a args e))
    ∧ (∀ (hs tl : List Nat), (∀ c ∈ hs, isDigitIn 16 c = true) → hs ≠ [] →
        isDigitIn 16 (tl.headD 0) = false → (valueIn 16 hs : Int) ≤ signedMax m →
        a.iType = signedTag m → a.pOutput ≠ 0 →
        parse_arg strtof e (m.text ++ 105 :: rest) (48 :: 120 :: (hs ++ tl)) (a :: args)
          = .ok ⟨DSTS_ERROR_SUCCESS, 2 + hs.length,
              [Store.obj a.pOutput (.int 0), Store.obj a.pOutput (.int (valueIn 16 hs))],
              args, e⟩)
    ∧ (∀ (os tl : List Nat), (∀ c ∈ os, isDigitIn 8 c = true) →
        isDigitIn 8 (tl.headD 0) = false → (os ++ tl).headD 0 ≠ 120 →
        (valueIn 8 os : Int) ≤ signedMax m →
        a.iType = signedTag m → a.pOutput ≠ 0 →
        parse_arg strtof e (m.text ++ 105 :: rest) (48 :: (os ++ tl)) (a :: args)
          = .ok ⟨DSTS_ERROR_SUCCESS, 1 + os.length,
              [Store.obj a.pOutput (.int 0), Store.obj a.pOutput (.int (valueIn 8 os))],
              args, e⟩)
    ∧ (∀ (sg dd tl : List Nat), (sg = [] ∨ sg = [43] ∨ sg = [45]) →
        (∀ c ∈ dd, IsDec c) → dd ≠ [] → ¬ IsDec (tl.headD 0) →
        (sg ++ dd ++ tl).headD 0 ≠ 48 →
        signedMin m ≤ literalValue sg dd → literalValue sg dd ≤ signedMax m →
        a.iType = signedTag m → a.pOutput ≠ 0 →
        parse_arg strtof e (m.text ++ 105 :: rest) (sg ++ dd ++ tl) (a :: args)
          = .ok ⟨DSTS_ERROR_SUCCESS, sg.length + dd.length,
              [Store.obj a.pOutput (.int 0), Store.obj a.pOutput (.int (literalValue sg dd))],
              args, e⟩)
    ∧ dsts_secure_sscanf noFloat false (bytes "0x1F") (bytes "%i") [⟨DSTS_TYPE_INT, 1, 0⟩]
        = .ok ⟨1, DSTS_ERROR_SUCCESS, [Store.obj 1 (.int 0), Store.obj 1 (.int 31)]⟩
    ∧ dsts_secure_sscanf noFloat false (bytes "017") (bytes "%i") [⟨DSTS_TYPE_INT, 1, 0⟩]
        = .ok ⟨1, DSTS_ERROR_SUCCESS, [Store.obj 1 (.int 0), Store.obj 1 (.int 15)]⟩
    ∧ dsts_secure_sscanf noFloat false (bytes "17") (bytes "%i") [⟨DSTS_TYPE_INT, 1, 0⟩]
        = .ok ⟨1, DSTS_ERROR_SUCCESS, [Store.obj 1 (.int 0), Store.obj 1 (.int 17)]⟩
    ∧ parse_arg noFloat false (bytes "3i") (bytes "0175") [⟨DSTS_TYPE_INT, 1, 0⟩]
        = .ok ⟨DSTS_ERROR_SUCCESS, 3, [Store.obj 1 (.int 0), Store.obj 1 (.int 15)], [],
            false⟩
    ∧ parse_arg noFloat false (bytes "3d") (bytes "0175") [⟨DSTS_TYPE_INT, 1, 0⟩]
        = .ok ⟨DSTS_ERROR_SUCCESS, 3, [Store.obj 1 (.int 0), Store.obj 1 (.int 17)], [],
            false⟩
    ∧ parse_arg noFloat false (bytes "4i") (bytes "0x1F5") [⟨DSTS_TYPE_INT, 1, 0⟩]
        = .ok ⟨DSTS_ERROR_SUCCESS, 4, [Store.obj 1 (.int 0), Store.obj 1 (.int 31)], [],
            false⟩
    ∧ parse_arg noFloat false (bytes "1i") (bytes "0x1F") [⟨DSTS_TYPE_INT, 1, 0⟩]
        = .ok ⟨DSTS_ERROR_SUCCESS, 1, [Store.obj 1 (.int 0), Store.obj 1 (.int 0)], [],
            false⟩ := by
  have hi : parse_arg strtof e (ds ++ (m.text ++ 105 :: rest)) input (a :: args)
      = .ok (conv_d (chosenBase input) m.spType (decimal ds) (decide (decimal ds > 0))
          (decimal ds) (field (decimal ds) input) input a args e) := by
    rw [parse_arg_directive strtof e ds m 105 rest input a args hds hw (by decide) (by decide)
      (by decide), convert_i, chosenBase_eq]
  have hd : parse_arg strtof e (ds ++ (m.text ++ 100 :: rest)) input (a :: args)
      = .ok (conv_d 10 m.spType (decimal ds) (decide (decimal ds > 0))
          (decimal ds) (field (decimal ds) input) input a args e) := by
    rw [parse_arg_directive strtof e ds m 100 rest input a args hds hw (by decide) (by decide)
      (by decide), convert_d]
  have hmin := signedMin_neg m
  have hmax := signedMax_le_long m
  refine ⟨hi, hd, ?_, fun htag => parse_arg_signed strtof e ds m rest input a args hds hw htag,
    ?_, ?_, ?_, by decide!, by decide!, by decide!, by decide!, by decide!, by decide!,
    by decide!⟩
  · intro h48
    rw [hi, hd, ← chosenBase_eq, if_neg h48]
  · intro hs tl hdig hne htl hv htag hp
    have hlen : ¬ (2 + hs.length = 0) := by omega
    have hv' : ¬ ((valueIn 16 hs : Int) > signedMax m) := by omega
    rw [parse_arg_nowidth strtof e m 105 rest _ a args (by decide) (by decide) (by decide),
      convert_i]
    simp only [List.headD_cons, List.drop_succ_cons, List.drop_zero, if_true]
    rw [conv_d_eq 16 m _ _ _ _ _ a args e htag, strtol_hex hs tl hdig hne htl (by omega)]
    simp only [hlen, if_false, hv', advance, Bool.false_eq_true, Bool.or_false,
      wrapSigned_of_range m _ (by omega) hv, DSTS_PUT_VALUE, hp, List.singleton_append]
  · intro os tl hdig htl hx hv htag hp
    have hlen : ¬ (1 + os.length = 0) := by omega
    have hv' : ¬ ((valueIn 8 os : Int) > signedMax m) := by omega
    rw [parse_arg_nowidth strtof e m 105 rest _ a args (by decide) (by decide) (by decide),
      convert_i]
    simp only [List.headD_cons, List.drop_succ_cons, List.drop_zero, if_true, if_neg hx]
    rw [conv_d_eq 8 m _ _ _ _ _ a args e htag, strtol_oct os tl hdig htl (by omega)]
    simp only [hlen, if_false, hv', advance, Bool.false_eq_true, Bool.or_false,
      wrapSigned_of_range m _ (by omega) hv, DSTS_PUT_VALUE, hp, List.singleton_append]
  · intro sg dd tl hsg hdig hne htl h48 hlo hhi htag hp
    have hlen : ¬ (sg.length + dd.length = 0) := by
      have : dd.length ≠ 0 := by simpa using hne
      omega
    have hbig : ¬ (literalValue sg dd > LONG_MAX) := by omega
    have hL : LONG_MIN ≤ signedMin m := by
      cases m <;> decide
    have hsmall : ¬ (literalValue sg dd < LONG_MIN) := by omega
    have hhi' : ¬ (literalValue sg dd > signedMax m) := by omega
    rw [parse_arg_nowidth strtof e m 105 rest _ a args (by decide) (by decide) (by decide),
      convert_i, if_neg h48, conv_d_eq 10 m _ _ _ _ _ a args e htag,
      strtol_literal sg dd tl hsg hdig hne htl]
    simp only [hbig, hsmall, if_false, hlen, hhi', advance, Bool.false_eq_true,
      wrapSigned_of_range m _ hlo hhi, Bool.or_false, DSTS_PUT_VALUE, hp,
      List.singleton_append]

/-- C18 at "0x1F" against "%i", where 31 is stored, and at "0175" against
"%3i", where the field "017" is parsed in base 8 and 15 is stored. -/
theorem C18_base_selection_witness :
    parse_arg noFloat false (bytes "i") (bytes "0x1F") [⟨DSTS_TYPE_INT, 1, 0⟩]
        = .ok ⟨DSTS_ERROR_SUCCESS, 4, [Store.obj 1 (.int 0), Store.obj 1 (.int 31)], [],
            false⟩
    ∧ parse_arg noFloat false (bytes "3i") (bytes "0175") [⟨DSTS_TYPE_INT, 1, 0⟩]
        = .ok ⟨DSTS_ERROR_SUCCESS, 3, [Store.obj 1 (.int 0), Store.obj 1 (.int 15)], [],
            false⟩ :=
  ⟨(C18_base_selection noFloat false [] .none [] [] ⟨DSTS_TYPE_INT, 1, 0⟩ []
      (by decide) (by decide)).2.2.2.2.1 (bytes "1F") [] (by decide) (by decide) (by decide)
      (by decide) rfl (by decide),
    ((C18_base_selection noFloat false (bytes "3") .none [] (bytes "0175")
      ⟨DSTS_TYPE_INT, 1, 0⟩ [] (by decide) (by decide)).2.2.2.1 rfl).1⟩

/-- C19: the cursor `parse_arg` returns, an offset from the input pointer it was
given and so never before it, is at most the offset of the input's
terminating NUL, whatever the format remainder, the arguments and the status;
with a width in effect below 16384 and an argument at hand `parse_arg` does
return.  Consequently, in the driver, the successive values of `pInputString`
never decrease and never pass the terminating NUL, for every number of
iterations.  `strtof` is taken to report an end inside the string it is
given, as the C library's does.  On "12 34" against "%d %d" the values are
the offsets 2, 3 and 5. -/
theorem C19_cursor_inside_input (strtof : Strtof) (hf : ∀ s, (strtof s).len ≤ cstrlen s)
    (e : Bool) (fmt input : List Nat) (a : Arg) (args : List Arg) :
    (∀ (rest : List Arg) (r : ParseResult),
        parse_arg strtof e fmt input rest = .ok r → r.cursor ≤ cstrlen input)
    ∧ ((wrapUnsigned 32 (strtol fmt 10).val).toNat < DSTS_MAX_STRING_OUTPUT →
        ∃ r, parse_arg strtof e fmt input (a :: args) = .ok r ∧ r.cursor ≤ cstrlen input)
    ∧ (∀ (fuel ret : Nat) (rest : List Arg) (stores : List Store) (pos : Nat),
        (scanTraced strtof fuel e ret fmt input rest stores pos).1
            = scanLoop strtof fuel e ret fmt input rest stores
        ∧ List.Chain (fun x y => x ≤ y) pos
            (scanTraced strtof fuel e ret fmt input rest stores pos).2
        ∧ ∀ k ∈ (scanTraced strtof fuel e ret fmt input rest stores pos).2,
            pos ≤ k ∧ k ≤ pos + cstrlen input)
    ∧ (scanTraced noFloat 5 false 0 (bytes "%d %d") (bytes "12 34")
          [⟨DSTS_TYPE_INT, 1, 0⟩, ⟨DSTS_TYPE_INT, 2, 0⟩] [] 0).2 = [2, 3, 5] := by
  refine ⟨fun rest r h => parse_arg_cursor_bound strtof e fmt input rest r hf h, ?_, ?_,
    by decide!⟩
  · intro hw
    obtain ⟨r, hr⟩ := parse_arg_returns strtof e fmt input a args hw
    exact ⟨r, hr, parse_arg_cursor_bound strtof e fmt input (a :: args) r hf hr⟩
  · intro fuel ret rest stores pos
    obtain ⟨hc, hb⟩ := scanTraced_bounds strtof hf fuel e ret fmt input rest stores pos
    exact ⟨scanTraced_fst strtof fuel e ret fmt input rest stores pos, hc,
      fun k hk => ⟨List.Chain.rel hc hk, hb k hk⟩⟩

/-- C19 at "%3d" on "12345": the cursor returned is 3, below the length 5. -/
theorem C19_cursor_inside_input_witness :
    (∀ s, (noFloat s).len ≤ cstrlen s)
    ∧ ∃ r, parse_arg noFloat false (bytes "3d") (bytes "12345") [⟨DSTS_TYPE_INT, 1, 0⟩] = .ok r
        ∧ r.cursor ≤ cstrlen (bytes "12345") :=
  ⟨fun _ => Nat.zero_le _,
    (C19_cursor_inside_input noFloat (fun _ => Nat.zero_le _) false (bytes "3d") (bytes "12345")
      ⟨DSTS_TYPE_INT, 1, 0⟩ []).2.1 (by decide!)⟩

/-- C20: the scratch copy is made with no check of the width against the size of
`trimCurr` (16384 bytes).  For every width from 16384 to UINT_MAX written in
digits before the conversion letter, `parse_arg` runs `strncpy(trimCurr,
pCurrent, uWidth)` and `trimCurr[uWidth] = 0`, a store at index `uWidth` of
at least 16384, whatever the input and the arguments: the directive is not
failed.  So it is for "%16384d" on "12" through the driver, and for the width
"-5", which becomes 4294967291; the width 16383 is the largest that is copied
inside the buffer. -/
theorem C20_scratch_overflow (strtof : Strtof) (e : Bool) (ds tail input : List Nat)
    (args : List Arg) (hds : ∀ d ∈ ds, IsDec d) (htail : 58 ≤ tail.headD 0)
    (hlo : DSTS_MAX_STRING_OUTPUT ≤ decimal ds) (hhi : (decimal ds : Int) ≤ UINT_MAX) :
    parse_arg strtof e (ds ++ tail) input args = .fault .scratchOverflow
    ∧ dsts_secure_sscanf noFloat false (bytes "12") (bytes "%16384d") [⟨DSTS_TYPE_INT, 1, 0⟩]
        = .fault .scratchOverflow
    ∧ parse_arg noFloat false (bytes "-5d") (bytes "12") [⟨DSTS_TYPE_INT, 1, 0⟩]
        = .fault .scratchOverflow
    ∧ parse_arg noFloat false (bytes "16383d") (bytes "12") [⟨DSTS_TYPE_INT, 1, 0⟩]
        = .ok ⟨DSTS_ERROR_SUCCESS, 2, [Store.obj 1 (.int 0), Store.obj 1 (.int 12)], [], false⟩ := by
  refine ⟨?_, by decide!, by decide!, by decide!⟩
  have hlo' : 16384 ≤ decimal ds := hlo
  have hhi' : (decimal ds : Int) ≤ 4294967295 := hhi
  have hs := strtol_width_long ds tail hds htail (by unfold LONG_MAX; omega)
  have h1 : ¬ ((decimal ds : Int) > UINT_MAX) := by omega
  have h2 : (wrapUnsigned 32 (decimal ds : Int)).toNat = decimal ds := by
    unfold wrapUnsigned
    have : ((decimal ds : Int)) % 2 ^ 32 = (decimal ds : Int) := by
      apply Int.emod_eq_of_lt <;> omega
    rw [this]; simp
  have h3 : decimal ds ≥ DSTS_MAX_STRING_OUTPUT := hlo
  simp only [parse_arg, hs, Bool.or_false, eqHuge, Bool.false_and, Bool.false_or,
    decide_eq_true_eq, h1, if_false, h2, h3, if_true]

/-- C20 at the width 20000: "%20000d" makes `strncpy` write 20000 bytes into the
16384 of `trimCurr`. -/
theorem C20_scratch_overflow_witness :
    parse_arg noFloat false (bytes "20000d") (bytes "12") [⟨DSTS_TYPE_INT, 1, 0⟩]
      = .fault .scratchOverflow :=
  (C20_scratch_overflow noFloat false (bytes "20000") (bytes "d") (bytes "12")
    [⟨DSTS_TYPE_INT, 1, 0⟩] (by decide) (by decide) (by decide!) (by decide!)).1

/-- C21: a `%d` directive of category `Char` (`hh`), `Short` (`h`) or `Int`
(no modifier), without a width, with the matching tag and a non-null
destination, on an input that begins with a decimal literal of value `v` with
`LONG_MIN ≤ v` and `v` below the minimum of the category: the status is
Success, the cursor is past the literal, the directive is counted and the
scan goes on, and the destination receives `v` converted to the type of the
category, a value of its range that differs from `v` by a multiple of
`2 ^ bits`.  Scanning "-40000" with "%hd" returns 1, Success, s = 25536. -/
theorem C21_no_lower_bound (strtof : Strtof) (e : Bool) (fuel ret : Nat) (m : LengthMod)
    (sg ds rest fmtRest : List Nat) (p sz : Nat) (args : List Arg) (stores : List Store)
    (hm : m = .hh ∨ m = .h ∨ m = .none) (hsg : sg = [] ∨ sg = [43] ∨ sg = [45])
    (hds : ∀ c ∈ ds, IsDec c) (hne : ds ≠ []) (hrest : ¬ IsDec (rest.headD 0))
    (hp : p ≠ 0) (hlo : LONG_MIN ≤ literalValue sg ds)
    (hhi : literalValue sg ds < signedMin m) :
    parse_arg strtof e (m.text ++ 100 :: fmtRest) (sg ++ ds ++ rest)
        (⟨signedTag m, p, sz⟩ :: args)
      = .ok ⟨DSTS_ERROR_SUCCESS, sg.length + ds.length,
          [Store.obj p (.int 0), Store.obj p (.int (wrapSigned m.bits (literalValue sg ds)))],
          args, e⟩
    ∧ scanLoop strtof (fuel + 1) e ret (37 :: (m.text ++ 100 :: fmtRest)) (sg ++ ds ++ rest)
        (⟨signedTag m, p, sz⟩ :: args) stores
      = scanLoop strtof fuel e (ret + 1) fmtRest rest args
          (stores ++ [Store.obj p (.int 0),
            Store.obj p (.int (wrapSigned m.bits (literalValue sg ds)))])
    ∧ signedMin m ≤ wrapSigned m.bits (literalValue sg ds)
    ∧ wrapSigned m.bits (literalValue sg ds) ≤ signedMax m
    ∧ (wrapSigned m.bits (literalValue sg ds) - literalValue sg ds) % 2 ^ m.bits = 0
    ∧ dsts_secure_sscanf noFloat false (bytes "-40000") (bytes "%hd")
          [⟨DSTS_TYPE_SHORT, 1, 0⟩]
        = .ok ⟨1, DSTS_ERROR_SUCCESS, [Store.obj 1 (.int 0), Store.obj 1 (.int 25536)]⟩ := by
  have hin := literal_headD sg ds rest hsg hds hne
  have hpa := parse_arg_nowidth strtof e m 100 fmtRest (sg ++ ds ++ rest) ⟨signedTag m, p, sz⟩
    args (by decide) (by decide) (by decide)
  have hlen : ¬ (sg.length + ds.length = 0) := by
    have : ds.length ≠ 0 := by simpa using hne
    omega
  have hmin : signedMin m < 0 := by
    rcases hm with rfl | rfl | rfl <;> decide
  have hmax : 0 ≤ signedMax m := by
    rcases hm with rfl | rfl | rfl <;> decide
  have hL : (0 : Int) < LONG_MAX := by decide
  have hbig : ¬ (literalValue sg ds > LONG_MAX) := by omega
  have hsmall : ¬ (literalValue sg ds < LONG_MIN) := by omega
  have hhi' : ¬ (literalValue sg ds > signedMax m) := by omega
  have hsl := strtol_literal sg ds rest hsg hds hne hrest
  rw [if_neg hbig, if_neg hsmall] at hsl
  have hconv : conv_d 10 m.spType 0 false 0 (sg ++ ds ++ rest) (sg ++ ds ++ rest)
      ⟨signedTag m, p, sz⟩ args e
      = ⟨DSTS_ERROR_SUCCESS, sg.length + ds.length,
          [Store.obj p (.int 0), Store.obj p (.int (wrapSigned m.bits (literalValue sg ds)))],
          args, e⟩ := by
    rw [conv_d_eq 10 m _ _ _ _ _ _ args e rfl, hsl]
    simp only [hlen, if_false, hhi', advance, Bool.false_eq_true, Bool.or_false,
      DSTS_PUT_VALUE, hp, List.singleton_append]
  obtain ⟨w1, w2, w3⟩ := wrapSigned_spec m (literalValue sg ds)
  refine ⟨?_, ?_, w1, w2, w3, by decide!⟩
  · rw [hpa, convert_d, hconv]
  · rw [scanLoop_percent strtof fuel e ret _ _ _ stores hin, hpa, convert_d, hconv]
    simp only [ne_eq, not_true_eq_false, if_false, hlen,
      specRun_modifier m 100 fmtRest (by decide) (by decide) (by decide), List.drop_left,
      List.drop_succ_cons, List.drop_zero, literal_drop,
      headD_modifier_ne m 100 fmtRest (by decide), not_false_eq_true, if_true]

/-- C21 at "-40000" against "%hd" with a `Short` destination. -/
theorem C21_no_lower_bound_witness :
    parse_arg noFloat false (bytes "hd") (bytes "-40000") [⟨DSTS_TYPE_SHORT, 1, 0⟩]
      = .ok ⟨DSTS_ERROR_SUCCESS, 6,
          [Store.obj 1 (.int 0), Store.obj 1 (.int (wrapSigned 16 (-40000)))], [], false⟩ :=
  (C21_no_lower_bound noFloat false 0 0 .h (bytes "-") (bytes "40000") [] [] 1 0 [] []
    (by decide) (by decide) (by decide) (by decide) (by decide) (by decide) (by decide)
    (by decide)).1

/-- C22 (the code differs): the driver and `parse_arg` do not always agree on
the extent of a directive.  Whenever `parse_arg` reports Success on the format
text after a `'%'`: if that text begins with neither white space nor a sign,
the bytes the driver steps over (every digit, `h` or `l`, then one more) are
the bytes `parse_arg` read (width, length modifier, conversion letter) and the
driver resumes right after the conversion letter; if it begins with white
space or a sign, which the `strtol` of line 129 accepts in front of the width,
the driver steps over that one byte only and resumes inside the directive.
Against "% 2d%d" the input "1234" gives 12 to the first destination, then the
driver compares the format bytes "2d" with the input and stops: it returns 1
with status Success and the second directive is never reached; against
"%2d%d" it returns 2 with 12 and 34. -/
theorem C22_directive_extent (strtof : Strtof) (e : Bool) (fmt input : List Nat)
    (args : List Arg) (r : ParseResult)
    (h : parse_arg strtof e fmt input args = .ok r) (hs : r.error = DSTS_ERROR_SUCCESS) :
    (fmt.drop (specRun fmt)).drop 1 = fmt.drop (skippedExtent fmt)
    ∧ ((isspace (fmt.headD 0) = false ∧ fmt.headD 0 ≠ 43 ∧ fmt.headD 0 ≠ 45) →
        skippedExtent fmt = parsedExtent fmt)
    ∧ ((isspace (fmt.headD 0) = true ∨ fmt.headD 0 = 43 ∨ fmt.headD 0 = 45) →
        skippedExtent fmt = 1 ∧ 1 < parsedExtent fmt)
    ∧ parse_arg noFloat false (bytes " 2d%d") (bytes "1234")
          [⟨DSTS_TYPE_INT, 1, 0⟩, ⟨DSTS_TYPE_INT, 2, 0⟩]
        = .ok ⟨DSTS_ERROR_SUCCESS, 2, [Store.obj 1 (.int 0), Store.obj 1 (.int 12)],
            [⟨DSTS_TYPE_INT, 2, 0⟩], false⟩
    ∧ skippedExtent (bytes " 2d%d") = 1
    ∧ parsedExtent (bytes " 2d%d") = 3
    ∧ dsts_secure_sscanf noFloat false (bytes "1234") (bytes "% 2d%d")
          [⟨DSTS_TYPE_INT, 1, 0⟩, ⟨DSTS_TYPE_INT, 2, 0⟩]
        = .ok ⟨1, DSTS_ERROR_SUCCESS, [Store.obj 1 (.int 0), Store.obj 1 (.int 12)]⟩
    ∧ dsts_secure_sscanf noFloat false (bytes "1234") (bytes "%2d%d")
          [⟨DSTS_TYPE_INT, 1, 0⟩, ⟨DSTS_TYPE_INT, 2, 0⟩]
        = .ok ⟨2, DSTS_ERROR_SUCCESS,
            [Store.obj 1 (.int 0), Store.obj 1 (.int 12),
              Store.obj 2 (.int 0), Store.obj 2 (.int 34)]⟩ := by
  have hc := parse_arg_success_letter strtof e fmt input args r h hs
  refine ⟨?_, ?_, ?_, by decide!, by decide!, by decide!, by decide!, by decide!⟩
  · rw [List.drop_drop, skippedExtent, Nat.add_comm]
  · rintro ⟨hsp, h43, h45⟩
    exact extent_agree fmt hsp h43 h45 hc
  · intro hsp
    exact extent_differ fmt hsp hc

/-- C22 at "% 2d%d": the driver steps over the space only, `parse_arg` read
three bytes. -/
theorem C22_directive_extent_witness :
    parse_arg noFloat false (bytes " 2d%d") (bytes "1234") [⟨DSTS_TYPE_INT, 1, 0⟩]
        = .ok ⟨DSTS_ERROR_SUCCESS, 2, [Store.obj 1 (.int 0), Store.obj 1 (.int 12)], [], false⟩
    ∧ skippedExtent (bytes " 2d%d") = 1 ∧ 1 < parsedExtent (bytes " 2d%d") :=
  ⟨by decide!,
    (C22_directive_extent noFloat false (bytes " 2d%d") (bytes "1234") [⟨DSTS_TYPE_INT, 1, 0⟩]
      ⟨DSTS_ERROR_SUCCESS, 2, [Store.obj 1 (.int 0), Store.obj 1 (.int 12)], [], false⟩
      (by decide!) rfl).2.2.1 (Or.inl (by decide))⟩

end Dsts
